import Mathlib

/-!
# sunstat: a verification development of `sunstat.c`

The solar calculator of `sunstat.c` (Schlyter's SUNRISET) is embedded in two
layers.

* The solver (`sunpos`, `sun_RA_dec`, `__sunriset__`, `__daylen__`) calls the
  trigonometric functions and is embedded over the real numbers: every
  arithmetic operation is exact.  A C expression that has no real value (the
  square root of a negative number, a quotient by zero, an inverse cosine
  outside `[-1, 1]`) is modelled by `none`; the value flows through `Option`
  exactly along the data flow of the C code.  The angle reductions and the
  linear mean elements that the solver calls are written over an arbitrary
  ordered field with a floor, so that they can be run on the rationals.

* The angle reductions (`revolution`, `rev180`, `GMST0`) and the formatting
  layer (`convert`, `hours_to_s`) use only `+`, `-`, `*`, `floor` and the
  conversion to `int`.  They are embedded a second time, in the namespace
  `B64`, in IEEE 754 binary64 arithmetic: a `double` is a rational number,
  every operation is rounded to the nearest binary64 number, ties to even,
  and an overflow has no value (`none`).

The calendar macro `days_since_2000_Jan_0(year, month, day)` is declared in
`sunriset.h`; the solver functions take its value, the integer day number
`N`, in place of `(year, month, day)`.
-/

namespace Sunstat

/-! ## Angle utilities (`sunstat.c`, lines 423-439) -/

section Generic

variable {α : Type} [LinearOrderedField α] [FloorRing α]

/-- The constant `INV360` of line 423, in exact arithmetic. -/
def INV360 {α : Type} [LinearOrderedField α] : α := 1 / 360

/-- The function `revolution` of lines 425-431, in exact arithmetic. -/
def revolution (x : α) : α :=
  x - 360 * (⌊x * INV360⌋ : α)

/-- The function `rev180` of lines 433-439, in exact arithmetic. -/
def rev180 (x : α) : α :=
  x - 360 * (⌊x * INV360 + 0.5⌋ : α)

/-- The function `GMST0` of lines 441-475, in exact arithmetic. -/
def GMST0 (d : α) : α :=
  revolution ((180 + 356.0470 + 282.9404) + (0.9856002585 + 4.70935E-5) * d)

/-- The epoch `d` of lines 261 and 328, from the day number `N` (the value of
`days_since_2000_Jan_0(year, month, day)`) and the longitude. -/
def epoch {α : Type} [LinearOrderedField α] (N : ℤ) (lon : α) : α :=
  (N : α) + 0.5 - lon / 360

/-- The mean anomaly `M` of `sunpos`, line 379, in exact arithmetic. -/
def sunpos_M (d : α) : α := revolution (356.0470 + 0.9856002585 * d)

/-- The mean longitude of perihelion `w` of `sunpos`, line 380. -/
def sunpos_w {α : Type} [LinearOrderedField α] (d : α) : α := 282.9404 + 4.70935E-5 * d

/-- The eccentricity `e` of `sunpos`, line 381. -/
def sunpos_e {α : Type} [LinearOrderedField α] (d : α) : α := 0.016709 - 1.151E-9 * d

/-- The obliquity of the ecliptic `obl_ecl`, lines 331 and 411. -/
def obl_ecl {α : Type} [LinearOrderedField α] (d : α) : α := 23.4393 - 3.563E-7 * d

end Generic

/-! ## Conversions to `int` (`sunstat.c`, lines 40-93)

The conversion of a `double` to `int` truncates toward zero and has a value
only when the truncated number fits an `int` (32 bits); a value that does not
fit is modelled by `none`, per output, along the data flow.  The time-zone
record `tm` is global state in the C code; its field `tm_gmtoff` is passed as a
parameter. -/

/-- The least value of the C type `int`. -/
def INT_MIN : ℤ := -2147483648

/-- The greatest value of the C type `int`. -/
def INT_MAX : ℤ := 2147483647

/-- The C conversion `(int) x` of a `double`. -/
def to_int {α : Type} [LinearOrderedField α] [FloorRing α] (x : α) : Option ℤ :=
  let t : ℤ := if 0 ≤ x then ⌊x⌋ else ⌈x⌉
  if INT_MIN ≤ t ∧ t ≤ INT_MAX then some t else none

/-- The store of a `time_t` value into an `int` object, as done by `+=` at
lines 61-62. -/
def int_of_long (z : ℤ) : Option ℤ :=
  if INT_MIN ≤ z ∧ z ≤ INT_MAX then some z else none

/-- The function `timediff` of lines 40-47, on the field `tm_gmtoff` of the
global `tm`. -/
def timediff (tm_gmtoff : ℤ) : ℤ := tm_gmtoff

/-! ## Degree-based trigonometry and the C library over the reals -/

noncomputable section

/-- Modelled from the spec: the macro `RADEG` of the absent header
`sunriset.h`, the radians-to-degrees conversion factor. -/
def RADEG : ℝ := 180 / Real.pi

/-- Modelled from the spec: the macro `DEGRAD` of the absent header
`sunriset.h`, the degrees-to-radians conversion factor. -/
def DEGRAD : ℝ := Real.pi / 180

/-- Modelled from the spec: the macro `sind` of the absent header
`sunriset.h`, the sine of an angle given in degrees. -/
def sind (x : ℝ) : ℝ := Real.sin (x * DEGRAD)

/-- Modelled from the spec: the macro `cosd` of the absent header
`sunriset.h`, the cosine of an angle given in degrees. -/
def cosd (x : ℝ) : ℝ := Real.cos (x * DEGRAD)

/-- Modelled from the spec: the macro `atan2d` of the absent header
`sunriset.h`, the two-argument arctangent in degrees; `atan2 (y, x)` is the
argument of the complex number `x + y i`, and `atan2 (0, 0) = 0`. -/
def atan2d (y x : ℝ) : ℝ := RADEG * Complex.arg ⟨x, y⟩

/-- Modelled from the spec: the macro `acosd` of the absent header
`sunriset.h`, the inverse cosine in degrees; it has a value only on
`[-1, 1]`. -/
def acosd (x : ℝ) : Option ℝ :=
  if -1 ≤ x ∧ x ≤ 1 then some (RADEG * Real.arccos x) else none

/-- The library function `sqrt` on a real argument: a negative argument has no
real square root (C yields a NaN). -/
def csqrt (x : ℝ) : Option ℝ :=
  if 0 ≤ x then some (Real.sqrt x) else none

/-- The C quotient `a / b` on real arguments: a zero divisor gives no real
value (C yields an infinity or a NaN). -/
def cdiv (a b : ℝ) : Option ℝ :=
  if b = 0 then none else some (a / b)

/-! ## Solar position (`sunstat.c`, lines 363-421) -/

/-- The eccentric anomaly `E` of `sunpos`, line 384. -/
def sunpos_E (d : ℝ) : ℝ :=
  sunpos_M d + sunpos_e d * RADEG * sind (sunpos_M d) * (1 + sunpos_e d * cosd (sunpos_M d))

/-- The function `sunpos` of lines 363-392; the result is the pair
`(*lon, *r)`. -/
def sunpos (d : ℝ) : Option (ℝ × ℝ) :=
  let w := sunpos_w d
  let e := sunpos_e d
  let E := sunpos_E d
  let x := cosd E - e
  (csqrt (1 - e * e)).bind fun q =>
  let y := q * sind E
  (csqrt (x * x + y * y)).bind fun r =>
  let v := atan2d y x
  let lon := v + w
  some (if lon ≥ 360 then lon - 360 else lon, r)

/-- The function `sun_RA_dec` of lines 394-421; the result is the triple
`(*RA, *dec, *r)`. -/
def sun_RA_dec (d : ℝ) : Option (ℝ × ℝ × ℝ) :=
  (sunpos d).bind fun p =>
  let lon := p.1
  let r := p.2
  let x := r * cosd lon
  let y := r * sind lon
  let obl := obl_ecl d
  let z := y * sind obl
  let y' := y * cosd obl
  (csqrt (x * x + y' * y')).bind fun rho =>
  some (atan2d y' x, atan2d z rho, r)

/-! ## The rise/set solver (`sunstat.c`, lines 218-298) -/

/-- The upper-limb correction of lines 272-277 and 340-345: the apparent
radius `0.2666 / sr` is subtracted from `altit` when `upper_limb` is
non-zero. -/
def limb_altit (altit : ℝ) (upper_limb : ℤ) (sr : ℝ) : Option ℝ :=
  let sradius := cdiv 0.2666 sr
  if upper_limb ≠ 0 then sradius.map fun s => altit - s else some altit

/-- The local `tsouth` of `__sunriset__`, lines 261-270. -/
def sunriset_tsouth (N : ℤ) (lon : ℝ) : Option ℝ :=
  let d := epoch N lon
  let sidtime := revolution (GMST0 d + 180 + lon)
  (sun_RA_dec d).map fun p => 12 - rev180 (sidtime - p.1) / 15

/-- The C quotient `a / b` of a value that is only compared, with the
infinities of IEEE arithmetic: over a zero divisor a positive dividend gives
`+∞`, a negative one `-∞`, and `0 / 0` is a NaN (`none`).  The zero divisor is
taken as `+0`: the divisor of `cost` vanishes only through `cosd lat` at a
pole, where the binary64 cosine is a tiny positive number. -/
def cdiv_ext (a b : ℝ) : Option EReal :=
  if b = 0 then (if a = 0 then none else if 0 < a then some ⊤ else some ⊥)
  else some ((a / b : ℝ) : EReal)

/-- The macro `acosd` on a C `double` that may be an infinity or a NaN
(`none`): such an argument gives a NaN. -/
def acosd_dbl (c : Option EReal) : Option ℝ :=
  c.bind fun v => if v = ⊤ ∨ v = ⊥ then none else acosd v.toReal

/-- The local `cost` of `__sunriset__`, lines 261-284: a real number, an
infinity, or a NaN (`none`). -/
def sunriset_cost (N : ℤ) (lon lat altit : ℝ) (upper_limb : ℤ) : Option EReal :=
  let d := epoch N lon
  (sun_RA_dec d).bind fun p =>
  let sdec := p.2.1
  let sr := p.2.2
  (limb_altit altit upper_limb sr).bind fun a =>
  cdiv_ext (sind a - sind lat * sind sdec) (cosd lat * cosd sdec)

/-- The function `__sunriset__` of lines 218-298; the result is the triple
`(rc, *trise, *tset)`, and `none` when a stored time is a NaN.  A NaN `cost`
fails both comparisons of lines 285-288 and reaches the `else` branch. -/
def __sunriset__ (N : ℤ) (lon lat altit : ℝ) (upper_limb : ℤ) : Option (ℤ × ℝ × ℝ) :=
  let cost := sunriset_cost N lon lat altit upper_limb
  let rct : Option (ℤ × ℝ) :=
    match cost with
    | some c =>
      if c ≥ 1 then some (-1, 0)
      else if c ≤ -1 then some (1, 12)
      else (acosd_dbl cost).map fun a => (0, a / 15)
    | none => (acosd_dbl cost).map fun a => (0, a / 15)
  (sunriset_tsouth N lon).bind fun tsouth =>
  rct.map fun q => (q.1, tsouth - q.2, tsouth + q.2)

/-! ## The day-length solver (`sunstat.c`, lines 300-361) -/

/-- The local `cost` of `__daylen__`, lines 328-352: a real number, an
infinity, or a NaN (`none`). -/
def daylen_cost (N : ℤ) (lon lat altit : ℝ) (upper_limb : ℤ) : Option EReal :=
  let d := epoch N lon
  let obl := obl_ecl d
  (sunpos d).bind fun p =>
  let slon := p.1
  let sr := p.2
  let sin_sdecl := sind obl * sind slon
  (csqrt (1 - sin_sdecl * sin_sdecl)).bind fun cos_sdecl =>
  (limb_altit altit upper_limb sr).bind fun a =>
  cdiv_ext (sind a - sind lat * sin_sdecl) (cosd lat * cos_sdecl)

/-- The function `__daylen__` of lines 300-361; `none` when the returned value
is a NaN.  A NaN `cost` fails both comparisons of lines 353-356 and reaches the
`else` branch. -/
def __daylen__ (N : ℤ) (lon lat altit : ℝ) (upper_limb : ℤ) : Option ℝ :=
  let cost := daylen_cost N lon lat altit upper_limb
  match cost with
  | some c =>
    if c ≥ 1 then some 0
    else if c ≤ -1 then some 24
    else (acosd_dbl cost).map fun a => (2 / 15) * a
  | none => (acosd_dbl cost).map fun a => (2 / 15) * a

/-- The function `__sunriset__` of lines 218-298 with the macro `acosd` of
the absent header taken as the parameter `ac`. -/
def sunriset_with (ac : Option EReal → Option ℝ) (N : ℤ) (lon lat altit : ℝ)
    (upper_limb : ℤ) : Option (ℤ × ℝ × ℝ) :=
  let cost := sunriset_cost N lon lat altit upper_limb
  let rct : Option (ℤ × ℝ) :=
    match cost with
    | some c =>
      if c ≥ 1 then some (-1, 0)
      else if c ≤ -1 then some (1, 12)
      else (ac cost).map fun a => (0, a / 15)
    | none => (ac cost).map fun a => (0, a / 15)
  (sunriset_tsouth N lon).bind fun tsouth =>
  rct.map fun q => (q.1, tsouth - q.2, tsouth + q.2)

/-- The function `__daylen__` of lines 300-361 with the macro `acosd` of the
absent header taken as the parameter `ac`. -/
def daylen_with (ac : Option EReal → Option ℝ) (N : ℤ) (lon lat altit : ℝ)
    (upper_limb : ℤ) : Option ℝ :=
  let cost := daylen_cost N lon lat altit upper_limb
  match cost with
  | some c =>
    if c ≥ 1 then some 0
    else if c ≤ -1 then some 24
    else (ac cost).map fun a => (2 / 15) * a
  | none => (ac cost).map fun a => (2 / 15) * a

end

/-! ## Binary64 arithmetic

A finite `double` is a rational number `m * 2 ^ j` with `|m| < 2 ^ 53` and
`-1074 ≤ j ≤ 971`.  An arithmetic operation of the C code computes the exact
rational result and rounds it to the nearest such number, a tie going to the
one with an even significand (the default rounding of IEEE 754, with neither
excess precision nor fused operations); when the rounded value is not below
`2 ^ 1024` the operation overflows and has no value here.  The sign of a zero
is not tracked: no operation of the functions below distinguishes `-0` from
`+0`.  The function `floor` is exact on a `double`. -/

namespace B64

/-- Rounding of a rational to the nearest integer, a tie going to the even
one. -/
def rne (q : ℚ) : ℤ :=
  if q - ⌊q⌋ < 1 / 2 then ⌊q⌋
  else if 1 / 2 < q - ⌊q⌋ then ⌊q⌋ + 1
  else if ⌊q⌋ % 2 = 0 then ⌊q⌋ else ⌊q⌋ + 1

/-- The exponent `e` of the binade `2 ^ e ≤ |q| < 2 ^ (e + 1)` of a rational,
not below the exponent -1022 of the subnormal numbers, which is also that of
zero. -/
def expo (q : ℚ) : ℤ := if q = 0 then -1022 else max (Int.log 2 |q|) (-1022)

/-- Rounding of a rational to binary64, to nearest, ties to even, with 53
significant bits; the exponent is not bounded above here. -/
def fl (q : ℚ) : ℚ := (rne (q / 2 ^ (expo q - 52)) : ℚ) * 2 ^ (expo q - 52)

/-- The result of a binary64 operation whose exact value is `q`: the rounded
value, or `none` when it overflows to an infinity. -/
def rnd (q : ℚ) : Option ℚ :=
  if |fl q| < 2 ^ (1024 : ℤ) then some (fl q) else none

/-- The finite binary64 numbers. -/
def IsDouble (q : ℚ) : Prop :=
  ∃ m j : ℤ, |m| < 2 ^ 53 ∧ -1074 ≤ j ∧ j ≤ 971 ∧ q = m * 2 ^ j

/-! ### The angle reductions and the formatting layer in binary64

A decimal literal of the C source denotes the nearest binary64 number; the
constant sub-expressions are evaluated by the same rounded operations. -/

/-- The constant `INV360` of line 423: the quotient `1.0 / 360.0`, rounded. -/
def INV360 : ℚ := fl (1 / 360)

/-- The function `revolution` of lines 425-431 in binary64 arithmetic. -/
def revolution (x : ℚ) : Option ℚ :=
  (rnd (x * INV360)).bind fun p =>
  (rnd (360 * (⌊p⌋ : ℚ))).bind fun t =>
  rnd (x - t)

/-- The function `rev180` of lines 433-439 in binary64 arithmetic. -/
def rev180 (x : ℚ) : Option ℚ :=
  (rnd (x * INV360)).bind fun p =>
  (rnd (p + 0.5)).bind fun p2 =>
  (rnd (360 * (⌊p2⌋ : ℚ))).bind fun t =>
  rnd (x - t)

/-- The function `GMST0` of lines 441-475 in binary64 arithmetic; a decimal
literal denotes the nearest binary64 number. -/
def GMST0 (d : ℚ) : Option ℚ :=
  (rnd (fl (fl 0.9856002585 + fl 4.70935E-5) * d)).bind fun a =>
  (rnd (fl (fl (180 + fl 356.0470) + fl 282.9404) + a)).bind fun s =>
  revolution s

/-- The mean anomaly `M` of `sunpos`, line 379, in binary64 arithmetic. -/
def sunpos_M (d : ℚ) : Option ℚ :=
  (rnd (fl 0.9856002585 * d)).bind fun a =>
  (rnd (fl 356.0470 + a)).bind fun s =>
  revolution s

/-- The mean longitude of perihelion `w` of `sunpos`, line 380, in binary64
arithmetic. -/
def sunpos_w (d : ℚ) : Option ℚ :=
  (rnd (fl 4.70935E-5 * d)).bind fun a =>
  rnd (fl 282.9404 + a)

/-- The function `convert` of lines 49-63 in binary64 arithmetic; the result
is the pair `(*h, *m)`.  The operators `/` and `%` on `time_t` truncate toward
zero. -/
def convert (tm_gmtoff : ℤ) (ut : ℚ) : Option ℤ × Option ℤ :=
  let h0 := to_int (⌊ut⌋ : ℚ)
  let m0 := (rnd (ut - (⌊ut⌋ : ℚ))).bind fun f => (rnd (60 * f)).bind fun p => to_int p
  let m := m0.bind fun m => int_of_long (m + Int.tdiv (Int.tmod (timediff tm_gmtoff) 3600) 60)
  let h := h0.bind fun h => int_of_long (h + Int.tdiv (timediff tm_gmtoff) 3600)
  (h, m)

/-- The function `hours_to_s` of lines 82-93 in binary64 arithmetic; the
result is the triple `(h, m, s)` that it formats. -/
def hours_to_s (ut : ℚ) : Option ℤ × Option ℤ × Option ℤ :=
  let h := to_int (⌊ut⌋ : ℚ)
  let p := (rnd (ut - (⌊ut⌋ : ℚ))).bind fun f => rnd (60 * f)
  let m := p.bind fun p => to_int p
  let s := p.bind fun p => m.bind fun m =>
    (rnd (p - (m : ℚ))).bind fun q => (rnd (60 * q)).bind fun v => to_int v
  (h, m, s)

/-- The expression `revolution(x + 180) - 180`, to which the specification
equates `rev180(x)`, in binary64 arithmetic. -/
def rev180_spec (x : ℚ) : Option ℚ :=
  (rnd (x + 180)).bind fun a =>
  (revolution a).bind fun b =>
  rnd (b - 180)

end B64
/-! ## Conjunctions proved in sequence

The auxiliary facts of each section are gathered in one theorem, a conjunction
whose parts are proved in order, each with the earlier ones at hand. -/

/-- A conjunction whose second part may use the first. -/
theorem and_of_imp {a b : Prop} (ha : a) (hb : a → b) : a ∧ b := ⟨ha, hb ha⟩

/-! ## Facts about the angle reductions in exact arithmetic -/

set_option maxHeartbeats 3200000 in
/-- Facts about `revolution` and `rev180` in exact arithmetic. -/
theorem angle_facts :
    -- `revolution_sub`
    (∀ (x : ℝ), x - revolution x = 360 * ((⌊x * INV360⌋ : ℤ) : ℝ)) ∧
    -- `rev180_ge`
    (∀ (x : ℝ), -180 ≤ rev180 x) ∧
    -- `rev180_lt`
    (∀ (x : ℝ), rev180 x < 180) := by
  refine and_of_imp ?_ ?_
  · intro x
    unfold revolution
    ring
  intro revolution_sub
  refine and_of_imp ?_ ?_
  · intro x
    unfold rev180 INV360
    have h := Int.floor_le (x * (1 / 360) + 0.5)
    have e : (0.5 : ℝ) = 1 / 2 := by norm_num
    rw [e] at h ⊢
    linarith
  intro rev180_ge
  intro x
  unfold rev180 INV360
  have h := Int.lt_floor_add_one (x * (1 / 360) + 0.5)
  have e : (0.5 : ℝ) = 1 / 2 := by norm_num
  rw [e] at h ⊢
  linarith

/-! ## Facts about the degree-based trigonometry -/

set_option maxHeartbeats 3200000 in
/-- Facts about the sine, cosine and arctangent in degrees. -/
theorem trig_facts :
    -- `radeg_mul_degrad`
    (∀ (a : ℝ), RADEG * a * DEGRAD = a) ∧
    -- `sind_sq_add_cosd_sq`
    (∀ (x : ℝ), sind x * sind x + cosd x * cosd x = 1) ∧
    -- `sind_le_one`
    (∀ (x : ℝ), sind x ≤ 1) ∧
    -- `neg_one_le_sind`
    (∀ (x : ℝ), -1 ≤ sind x) ∧
    -- `cosd_le_one`
    (∀ (x : ℝ), cosd x ≤ 1) ∧
    -- `neg_one_le_cosd`
    (∀ (x : ℝ), -1 ≤ cosd x) ∧
    -- `sind_sub_turns`
    (∀ (x : ℝ) (k : ℤ), sind (x - 360 * (k : ℝ)) = sind x) ∧
    -- `cosd_sub_turns`
    (∀ (x : ℝ) (k : ℤ), cosd (x - 360 * (k : ℝ)) = cosd x) ∧
    -- `sind_revolution`
    (∀ (x : ℝ), sind (revolution x) = sind x) ∧
    -- `cosd_revolution`
    (∀ (x : ℝ), cosd (revolution x) = cosd x) ∧
    -- `sind_add`
    (∀ (x y : ℝ), sind (x + y) = sind x * cosd y + cosd x * sind y) ∧
    -- `cosd_add`
    (∀ (x y : ℝ), cosd (x + y) = cosd x * cosd y - sind x * sind y) ∧
    -- `cosd_sub`
    (∀ (x y : ℝ), cosd (x - y) = cosd x * cosd y + sind x * sind y) ∧
    -- `abs_mk`
    (∀ (x y : ℝ), Complex.abs ⟨x, y⟩ = Real.sqrt (x * x + y * y)) ∧
    -- `sind_atan2d`
    (∀ (y x : ℝ), sind (atan2d y x) = y / Real.sqrt (x * x + y * y)) ∧
    -- `cosd_atan2d`
    (∀ (y x : ℝ) (h : 0 < x * x + y * y), cosd (atan2d y x) = x / Real.sqrt (x * x + y * y)) ∧
    -- `atan2d_abs_le`
    (∀ (y x : ℝ) (hx : 0 ≤ x), |atan2d y x| ≤ 90) := by
  refine and_of_imp ?_ ?_
  · intro a
    unfold RADEG DEGRAD
    field_simp
  intro radeg_mul_degrad
  refine and_of_imp ?_ ?_
  · intro x
    unfold sind cosd
    have := Real.sin_sq_add_cos_sq (x * DEGRAD)
    nlinarith
  intro sind_sq_add_cosd_sq
  refine and_of_imp ?_ ?_
  · intro x
    exact Real.sin_le_one _
  intro sind_le_one
  refine and_of_imp ?_ ?_
  · intro x
    exact Real.neg_one_le_sin _
  intro neg_one_le_sind
  refine and_of_imp ?_ ?_
  · intro x
    exact Real.cos_le_one _
  intro cosd_le_one
  refine and_of_imp ?_ ?_
  · intro x
    exact Real.neg_one_le_cos _
  intro neg_one_le_cosd
  refine and_of_imp ?_ ?_
  · intro x k
    unfold sind DEGRAD
    have h : (x - 360 * (k : ℝ)) * (Real.pi / 180) = x * (Real.pi / 180) - (k : ℝ) * (2 * Real.pi) := by
      ring
    rw [h, Real.sin_sub_int_mul_two_pi]
  intro sind_sub_turns
  refine and_of_imp ?_ ?_
  · intro x k
    unfold cosd DEGRAD
    have h : (x - 360 * (k : ℝ)) * (Real.pi / 180) = x * (Real.pi / 180) - (k : ℝ) * (2 * Real.pi) := by
      ring
    rw [h, Real.cos_sub_int_mul_two_pi]
  intro cosd_sub_turns
  refine and_of_imp ?_ ?_
  · intro x
    unfold revolution
    exact sind_sub_turns x _
  intro sind_revolution
  refine and_of_imp ?_ ?_
  · intro x
    unfold revolution
    exact cosd_sub_turns x _
  intro cosd_revolution
  refine and_of_imp ?_ ?_
  · intro x y
    unfold sind cosd
    rw [add_mul, Real.sin_add]
  intro sind_add
  refine and_of_imp ?_ ?_
  · intro x y
    unfold sind cosd
    rw [add_mul, Real.cos_add]
  intro cosd_add
  refine and_of_imp ?_ ?_
  · intro x y
    unfold sind cosd
    rw [sub_mul, Real.cos_sub]
  intro cosd_sub
  refine and_of_imp ?_ ?_
  · intro x y
    rw [Complex.abs_apply, Complex.normSq_apply]
  intro abs_mk
  refine and_of_imp ?_ ?_
  · intro y x
    unfold sind atan2d
    rw [radeg_mul_degrad, Complex.sin_arg, abs_mk]
  intro sind_atan2d
  refine and_of_imp ?_ ?_
  · intro y x h
    unfold cosd atan2d
    have hne : (⟨x, y⟩ : ℂ) ≠ 0 := by
      intro h0
      have hx : x = 0 := congrArg Complex.re h0
      have hy : y = 0 := congrArg Complex.im h0
      rw [hx, hy] at h
      simp at h
    rw [radeg_mul_degrad, Complex.cos_arg hne, abs_mk]
  intro cosd_atan2d
  intro y x hx
  unfold atan2d RADEG
  have h : |Complex.arg ⟨x, y⟩| ≤ Real.pi / 2 := Complex.abs_arg_le_pi_div_two_iff.mpr hx
  have hpi := Real.pi_pos
  rw [abs_mul, abs_of_pos (div_pos (by norm_num) hpi)]
  calc 180 / Real.pi * |Complex.arg ⟨x, y⟩| ≤ 180 / Real.pi * (Real.pi / 2) :=
        mul_le_mul_of_nonneg_left h (le_of_lt (div_pos (by norm_num) hpi))
    _ = 90 := by field_simp; ring

/-! ## Facts about the solar position -/

set_option maxHeartbeats 3200000 in
/-- Facts about the library calls and the locals of `sunpos`. -/
theorem sunpos_facts :
    -- `csqrt_of_nonneg`
    (∀ (x : ℝ) (h : 0 ≤ x), csqrt x = some (Real.sqrt x)) ∧
    -- `csqrt_of_neg`
    (∀ (x : ℝ) (h : x < 0), csqrt x = none) ∧
    -- `cdiv_of_ne`
    (∀ (a b : ℝ) (h : b ≠ 0), cdiv a b = some (a / b)) ∧
    -- `cdiv_ext_of_ne`
    (∀ (a b : ℝ) (h : b ≠ 0), cdiv_ext a b = some ((a / b : ℝ) : EReal)) ∧
    -- `sind_wrap`
    (∀ (l : ℝ), sind (if l ≥ 360 then l - 360 else l) = sind l) ∧
    -- `cosd_wrap`
    (∀ (l : ℝ), cosd (if l ≥ 360 then l - 360 else l) = cosd l) ∧
    -- `abs_lt_one_of_sq`
    (∀ (e : ℝ) (he : e * e < 1), -1 < e ∧ e < 1) ∧
    -- `ecc_mul_cos_lt`
    (∀ (e c : ℝ) (he : e * e < 1) (h1 : -1 ≤ c) (h2 : c ≤ 1), e * c < 1) ∧
    -- `orbit_radius_sq`
    (∀ (e sE cE q : ℝ) (hq : q * q = 1 - e * e) (h : sE * sE + cE * cE = 1),
      (cE - e) * (cE - e) + q * sE * (q * sE) = (1 - e * cE) ^ 2) ∧
    -- `sunpos_spec`
    -- The values stored by `sunpos` when the eccentricity is below one in
    -- absolute value: the distance is `1 - e cos E > 0`, and the sine and cosine of
    -- the longitude are those of `v + w`.
    (∀ (d : ℝ) (he : sunpos_e d * sunpos_e d < 1),
      ∃ lon r, sunpos d = some (lon, r) ∧ r = 1 - sunpos_e d * cosd (sunpos_E d) ∧ 0 < r ∧
      r * sind lon = Real.sqrt (1 - sunpos_e d * sunpos_e d) * sind (sunpos_E d) * cosd (sunpos_w d)
      + (cosd (sunpos_E d) - sunpos_e d) * sind (sunpos_w d) ∧
      r * cosd lon = (cosd (sunpos_E d) - sunpos_e d) * cosd (sunpos_w d)
      - Real.sqrt (1 - sunpos_e d * sunpos_e d) * sind (sunpos_E d) * sind (sunpos_w d)) := by
  obtain ⟨-, sind_sq_add_cosd_sq, -, -, cosd_le_one, neg_one_le_cosd, sind_sub_turns,
      cosd_sub_turns, -, -, sind_add, cosd_add, -, -, sind_atan2d, cosd_atan2d, -⟩ := trig_facts
  refine and_of_imp ?_ ?_
  · intro x h
    unfold csqrt
    rw [if_pos h]
  intro csqrt_of_nonneg
  refine and_of_imp ?_ ?_
  · intro x h
    unfold csqrt
    rw [if_neg (not_le.mpr h)]
  intro csqrt_of_neg
  refine and_of_imp ?_ ?_
  · intro a b h
    unfold cdiv
    rw [if_neg h]
  intro cdiv_of_ne
  refine and_of_imp ?_ ?_
  · intro a b h
    unfold cdiv_ext
    rw [if_neg h]
  intro cdiv_ext_of_ne
  refine and_of_imp ?_ ?_
  · intro l
    split_ifs
    · have := sind_sub_turns l 1
      simpa using this
    · rfl
  intro sind_wrap
  refine and_of_imp ?_ ?_
  · intro l
    split_ifs
    · have := cosd_sub_turns l 1
      simpa using this
    · rfl
  intro cosd_wrap
  refine and_of_imp ?_ ?_
  · intro e he
    constructor <;> nlinarith
  intro abs_lt_one_of_sq
  refine and_of_imp ?_ ?_
  · intro e c he h1 h2
    obtain ⟨ha, hb⟩ := abs_lt_one_of_sq e he
    by_cases h : 0 ≤ e
    · nlinarith
    · push_neg at h
      nlinarith
  intro ecc_mul_cos_lt
  refine and_of_imp ?_ ?_
  · intro e sE cE q hq h
    have : q * sE * (q * sE) = (1 - e * e) * (sE * sE) := by rw [← hq]; ring
    rw [this]
    have h2 : sE * sE = 1 - cE * cE := by linarith
    rw [h2]
    ring
  intro orbit_radius_sq
  intro d he
  set e := sunpos_e d with he_def
  set E := sunpos_E d with hE_def
  set w := sunpos_w d with hw_def
  set q := Real.sqrt (1 - e * e) with hq_def
  have hq0 : 0 ≤ 1 - e * e := by linarith
  have hqq : q * q = 1 - e * e := Real.mul_self_sqrt hq0
  have hr : 0 < 1 - e * cosd E := by
    have := ecc_mul_cos_lt e (cosd E) he (neg_one_le_cosd E) (cosd_le_one E)
    linarith
  have hsq : (cosd E - e) * (cosd E - e) + q * sind E * (q * sind E) = (1 - e * cosd E) ^ 2 :=
    orbit_radius_sq e (sind E) (cosd E) q hqq (sind_sq_add_cosd_sq E)
  have hsqrt : Real.sqrt ((cosd E - e) * (cosd E - e) + q * sind E * (q * sind E))
      = 1 - e * cosd E := by
    rw [hsq, Real.sqrt_sq (le_of_lt hr)]
  have hpos : 0 < (cosd E - e) * (cosd E - e) + q * sind E * (q * sind E) := by
    rw [hsq]; positivity
  refine ⟨if atan2d (q * sind E) (cosd E - e) + w ≥ 360
      then atan2d (q * sind E) (cosd E - e) + w - 360
      else atan2d (q * sind E) (cosd E - e) + w, 1 - e * cosd E, ?_, rfl, hr, ?_, ?_⟩
  · unfold sunpos
    simp only [← he_def, ← hE_def, ← hw_def]
    rw [csqrt_of_nonneg _ hq0]
    simp only [Option.some_bind, ← hq_def]
    rw [csqrt_of_nonneg _ (le_of_lt hpos), hsqrt]
    simp only [Option.some_bind]
  · rw [sind_wrap, sind_add, sind_atan2d, cosd_atan2d _ _ hpos, hsqrt]
    field_simp
  · rw [cosd_wrap, cosd_add, sind_atan2d, cosd_atan2d _ _ hpos, hsqrt]
    field_simp

set_option maxHeartbeats 3200000 in
/-- Facts about the locals of `sun_RA_dec`. -/
theorem radec_facts :
    -- `one_sub_sq_nonneg`
    (∀ (a b : ℝ) (ha1 : -1 ≤ a) (ha2 : a ≤ 1) (hb1 : -1 ≤ b) (hb2 : b ≤ 1),
      0 ≤ 1 - a * b * (a * b)) ∧
    -- `sin_sdecl_sq_le`
    (∀ (o l : ℝ), 0 ≤ 1 - sind o * sind l * (sind o * sind l)) ∧
    -- `sun_RA_dec_spec`
    -- The values stored by `sun_RA_dec` from a solar position of positive
    -- distance: the sine of the declination is `sin obl_ecl * sin lon`, its cosine the
    -- non-negative root of one minus the square of that.
    (∀ (d lon r : ℝ) (h : sunpos d = some (lon, r)) (hr : 0 < r),
      ∃ RA dec, sun_RA_dec d = some (RA, dec, r) ∧ sind dec = sind (obl_ecl d) * sind lon ∧
      cosd dec = Real.sqrt (1 - sind (obl_ecl d) * sind lon * (sind (obl_ecl d) * sind lon)) ∧
      |dec| ≤ 90) := by
  obtain ⟨-, sind_sq_add_cosd_sq, sind_le_one, neg_one_le_sind, -, -, -, -, -, -, -, -, -, -,
      sind_atan2d, cosd_atan2d, atan2d_abs_le⟩ := trig_facts
  obtain ⟨csqrt_of_nonneg, -⟩ := sunpos_facts
  refine and_of_imp ?_ ?_
  · intro a b ha1 ha2 hb1 hb2
    have h1 : a * a ≤ 1 := by nlinarith
    have h2 : b * b ≤ 1 := by nlinarith
    have h3 : 0 ≤ a * a := mul_self_nonneg a
    have h4 : 0 ≤ b * b := mul_self_nonneg b
    nlinarith
  intro one_sub_sq_nonneg
  refine and_of_imp ?_ ?_
  · intro o l
    exact one_sub_sq_nonneg _ _ (neg_one_le_sind o) (sind_le_one o) (neg_one_le_sind l) (sind_le_one l)
  intro sin_sdecl_sq_le
  intro d lon r h hr
  set o := obl_ecl d with ho_def
  set s := sind o * sind lon with hs_def
  have hs0 : 0 ≤ 1 - s * s := sin_sdecl_sq_le o lon
  have hcl := sind_sq_add_cosd_sq lon
  have hco := sind_sq_add_cosd_sq o
  have hrho : r * cosd lon * (r * cosd lon) + r * sind lon * cosd o * (r * sind lon * cosd o)
      = r ^ 2 * (1 - s * s) := by
    have e1 : cosd lon * cosd lon = 1 - sind lon * sind lon := by linarith
    have e2 : cosd o * cosd o = 1 - sind o * sind o := by linarith
    calc r * cosd lon * (r * cosd lon) + r * sind lon * cosd o * (r * sind lon * cosd o)
        = r ^ 2 * (cosd lon * cosd lon + sind lon * sind lon * (cosd o * cosd o)) := by ring
      _ = r ^ 2 * (1 - s * s) := by rw [e1, e2, hs_def]; ring
  have hrho0 : 0 ≤ r * cosd lon * (r * cosd lon) + r * sind lon * cosd o * (r * sind lon * cosd o) := by
    rw [hrho]; positivity
  set rho := Real.sqrt (r * cosd lon * (r * cosd lon) + r * sind lon * cosd o * (r * sind lon * cosd o))
    with hrho_def
  have hrho_nn : 0 ≤ rho := Real.sqrt_nonneg _
  have hrho_eq : rho = r * Real.sqrt (1 - s * s) := by
    rw [hrho_def, hrho, Real.sqrt_mul (by positivity), Real.sqrt_sq (le_of_lt hr)]
  have hsum : rho * rho + r * sind lon * sind o * (r * sind lon * sind o) = r ^ 2 := by
    rw [hrho_def, Real.mul_self_sqrt hrho0, hrho, hs_def]; ring
  have hsqrt : Real.sqrt (rho * rho + r * sind lon * sind o * (r * sind lon * sind o)) = r := by
    rw [hsum, Real.sqrt_sq (le_of_lt hr)]
  have hpos : 0 < rho * rho + r * sind lon * sind o * (r * sind lon * sind o) := by
    rw [hsum]; positivity
  refine ⟨atan2d (r * sind lon * cosd o) (r * cosd lon), atan2d (r * sind lon * sind o) rho,
    ?_, ?_, ?_, atan2d_abs_le _ _ hrho_nn⟩
  · unfold sun_RA_dec
    rw [h]
    simp only [Option.some_bind, ← ho_def]
    rw [csqrt_of_nonneg _ hrho0]
    simp only [Option.some_bind, ← hrho_def]
  · rw [sind_atan2d, hsqrt]
    field_simp
    ring
  · rw [cosd_atan2d _ _ hpos, hsqrt, hrho_eq]
    field_simp

/-! ## Facts about the two solvers -/

set_option maxHeartbeats 3200000 in
/-- Facts about the locals of `__sunriset__` and `__daylen__`. -/
theorem solver_facts :
    -- `limb_altit_of_ne`
    (∀ (altit : ℝ) (upper_limb : ℤ) (sr : ℝ) (h : sr ≠ 0), limb_altit altit upper_limb sr
      = some (if upper_limb ≠ 0 then altit - 0.2666 / sr else altit)) ∧
    -- `cos_sdecl_pos`
    (∀ (o l : ℝ) (ho : cosd o ≠ 0), 0 < Real.sqrt (1 - sind o * sind l * (sind o * sind l))) ∧
    -- `solver_locals_ext`
    -- On the domain where the eccentricity is below one in absolute value and
    -- the obliquity has a non-zero cosine, the locals of `__sunriset__` and
    -- `__daylen__` up to the quotient `cost` all have a real value, and the two
    -- functions form the same quotient.
    (∀ (N : ℤ) (lon lat altit : ℝ) (upper_limb : ℤ) (he : sunpos_e (epoch N lon) * sunpos_e (epoch N lon) < 1) (ho : cosd (obl_ecl (epoch N lon)) ≠ 0),
      ∃ slon sr RA sdec a, sunpos (epoch N lon) = some (slon, sr) ∧
      sr = 1 - sunpos_e (epoch N lon) * cosd (sunpos_E (epoch N lon)) ∧ 0 < sr ∧
      sun_RA_dec (epoch N lon) = some (RA, sdec, sr) ∧
      sind sdec = sind (obl_ecl (epoch N lon)) * sind slon ∧ 0 < cosd sdec ∧ |sdec| ≤ 90 ∧
      limb_altit altit upper_limb sr = some a ∧
      a = (if upper_limb ≠ 0 then altit - 0.2666 / sr else altit) ∧
      sunriset_tsouth N lon = some (12 - rev180
      (revolution (GMST0 (epoch N lon) + 180 + lon) - RA) / 15) ∧
      sunriset_cost N lon lat altit upper_limb
      = cdiv_ext (sind a - sind lat * sind sdec) (cosd lat * cosd sdec) ∧
      daylen_cost N lon lat altit upper_limb
      = cdiv_ext (sind a - sind lat * sind sdec) (cosd lat * cosd sdec)) ∧
    -- `solver_locals`
    -- On the domain where the eccentricity is below one in absolute value and
    -- neither the obliquity nor the latitude has a vanishing cosine, the locals of
    -- `__sunriset__` and `__daylen__` all have a real value, and the two functions
    -- compute the same `cost`.
    (∀ (N : ℤ) (lon lat altit : ℝ) (upper_limb : ℤ) (he : sunpos_e (epoch N lon) * sunpos_e (epoch N lon) < 1) (ho : cosd (obl_ecl (epoch N lon)) ≠ 0) (hlat : cosd lat ≠ 0),
      ∃ slon sr RA sdec a, sunpos (epoch N lon) = some (slon, sr) ∧
      sr = 1 - sunpos_e (epoch N lon) * cosd (sunpos_E (epoch N lon)) ∧ 0 < sr ∧
      sun_RA_dec (epoch N lon) = some (RA, sdec, sr) ∧
      sind sdec = sind (obl_ecl (epoch N lon)) * sind slon ∧ 0 < cosd sdec ∧ |sdec| ≤ 90 ∧
      limb_altit altit upper_limb sr = some a ∧
      a = (if upper_limb ≠ 0 then altit - 0.2666 / sr else altit) ∧
      sunriset_tsouth N lon = some (12 - rev180
      (revolution (GMST0 (epoch N lon) + 180 + lon) - RA) / 15) ∧
      sunriset_cost N lon lat altit upper_limb
      = some (((sind a - sind lat * sind sdec) / (cosd lat * cosd sdec) : ℝ) : EReal) ∧
      daylen_cost N lon lat altit upper_limb
      = some (((sind a - sind lat * sind sdec) / (cosd lat * cosd sdec) : ℝ) : EReal)) ∧
    -- `acosd_of_mem`
    (∀ (c : ℝ) (h1 : -1 < c) (h2 : c < 1), acosd c = some (RADEG * Real.arccos c)) ∧
    -- `radeg_pos`
    (0 < RADEG) ∧
    -- `radeg_arccos_pos`
    (∀ (c : ℝ) (h2 : c < 1), 0 < RADEG * Real.arccos c) ∧
    -- `radeg_arccos_lt`
    (∀ (c : ℝ) (h1 : -1 < c), RADEG * Real.arccos c < 180) ∧
    -- `acosd_dbl_coe`
    (∀ (c : ℝ), acosd_dbl (some (c : EReal)) = acosd c) ∧
    -- `sunriset_of_locals`
    (∀ (N : ℤ) (lon lat altit : ℝ) (upper_limb : ℤ) (ts c : ℝ) (h1 : sunriset_tsouth N lon = some ts) (h2 : sunriset_cost N lon lat altit upper_limb = some (c : EReal)),
      __sunriset__ N lon lat altit upper_limb = some (if 1 ≤ c then (-1, ts, ts)
      else if c ≤ -1 then (1, ts - 12, ts + 12)
      else (0, ts - RADEG * Real.arccos c / 15, ts + RADEG * Real.arccos c / 15))) ∧
    -- `daylen_of_cost`
    (∀ (N : ℤ) (lon lat altit : ℝ) (upper_limb : ℤ) (c : ℝ) (h : daylen_cost N lon lat altit upper_limb = some (c : EReal)),
      __daylen__ N lon lat altit upper_limb
      = some (if 1 ≤ c then 0 else if c ≤ -1 then 24 else 2 / 15 * (RADEG * Real.arccos c))) := by
  obtain ⟨csqrt_of_nonneg, -, cdiv_of_ne, cdiv_ext_of_ne, -, -, -, -, -,
      sunpos_spec⟩ := sunpos_facts
  obtain ⟨-, sind_sq_add_cosd_sq, -⟩ := trig_facts
  obtain ⟨-, sin_sdecl_sq_le, sun_RA_dec_spec⟩ := radec_facts
  refine and_of_imp ?_ ?_
  · intro altit upper_limb sr h
    unfold limb_altit
    rw [cdiv_of_ne _ _ h]
    split_ifs <;> rfl
  intro limb_altit_of_ne
  refine and_of_imp ?_ ?_
  · intro o l ho
    apply Real.sqrt_pos.mpr
    have h1 := sind_sq_add_cosd_sq o
    have h2 : 0 < cosd o * cosd o := mul_self_pos.mpr ho
    have h3 : sind l * sind l ≤ 1 := by
      have := sind_sq_add_cosd_sq l
      nlinarith [mul_self_nonneg (cosd l)]
    have h4 : 0 ≤ sind o * sind o := mul_self_nonneg _
    have h5 : sind o * sind l * (sind o * sind l) = sind o * sind o * (sind l * sind l) := by ring
    rw [h5]
    nlinarith
  intro cos_sdecl_pos
  refine and_of_imp ?_ ?_
  · intro N lon lat altit upper_limb he ho
    obtain ⟨slon, sr, hpos, hsr, hsr0, -, -⟩ := sunpos_spec (epoch N lon) he
    obtain ⟨RA, sdec, hrd, hsin, hcos, habs⟩ := sun_RA_dec_spec (epoch N lon) slon sr hpos hsr0
    have hc0 : 0 < cosd sdec := by
      rw [hcos]; exact cos_sdecl_pos _ _ ho
    have hlimb := limb_altit_of_ne altit upper_limb sr (ne_of_gt hsr0)
    refine ⟨slon, sr, RA, sdec, _, hpos, hsr, hsr0, hrd, hsin, hc0, habs, hlimb, rfl, ?_, ?_, ?_⟩
    · unfold sunriset_tsouth
      simp only [hrd, Option.map_some']
    · unfold sunriset_cost
      simp only [hrd, Option.some_bind, hlimb]
    · unfold daylen_cost
      simp only [hpos, Option.some_bind]
      rw [csqrt_of_nonneg _ (sin_sdecl_sq_le _ _)]
      simp only [Option.some_bind, hlimb]
      rw [← hcos, ← hsin]
  intro solver_locals_ext
  refine and_of_imp ?_ ?_
  · intro N lon lat altit upper_limb he ho hlat
    obtain ⟨slon, sr, RA, sdec, a, h1, h2, h3, h4, h5, h6, h7, h8, h9, h10, h11, h12⟩ :=
      solver_locals_ext N lon lat altit upper_limb he ho
    have hden : cosd lat * cosd sdec ≠ 0 := mul_ne_zero hlat (ne_of_gt h6)
    rw [cdiv_ext_of_ne _ _ hden] at h11 h12
    exact ⟨slon, sr, RA, sdec, a, h1, h2, h3, h4, h5, h6, h7, h8, h9, h10, h11, h12⟩
  intro solver_locals
  refine and_of_imp ?_ ?_
  · intro c h1 h2
    unfold acosd
    rw [if_pos ⟨le_of_lt h1, le_of_lt h2⟩]
  intro acosd_of_mem
  refine and_of_imp ?_ ?_
  · exact div_pos (by norm_num) Real.pi_pos
  intro radeg_pos
  refine and_of_imp ?_ ?_
  · intro c h2
    exact mul_pos radeg_pos (Real.arccos_pos.mpr h2)
  intro radeg_arccos_pos
  refine and_of_imp ?_ ?_
  · intro c h1
    have h : Real.arccos c < Real.pi := by
      rcases lt_or_eq_of_le (Real.arccos_le_pi c) with h | h
      · exact h
      · exact absurd (Real.arccos_eq_pi.mp h) (not_le.mpr h1)
    have hpi := Real.pi_pos
    unfold RADEG
    calc 180 / Real.pi * Real.arccos c < 180 / Real.pi * Real.pi :=
          mul_lt_mul_of_pos_left h (div_pos (by norm_num) hpi)
      _ = 180 := by field_simp
  intro radeg_arccos_lt
  refine and_of_imp ?_ ?_
  · intro c
    unfold acosd_dbl
    simp
  intro acosd_dbl_coe
  refine and_of_imp ?_ ?_
  · intro N lon lat altit upper_limb ts c h1 h2
    unfold __sunriset__
    simp only [h1, h2, Option.some_bind, ge_iff_le, acosd_dbl_coe]
    have e1 : ((1 : EReal) ≤ (c : EReal)) ↔ 1 ≤ c := by
      rw [← EReal.coe_one, EReal.coe_le_coe_iff]
    have e2 : ((c : EReal) ≤ -1) ↔ c ≤ -1 := by
      rw [← EReal.coe_one, ← EReal.coe_neg, EReal.coe_le_coe_iff]
    simp only [e1, e2]
    by_cases ha : 1 ≤ c
    · simp [ha]
    · by_cases hb : c ≤ -1
      · simp [ha, hb]
      · push_neg at ha hb
        rw [acosd_of_mem c hb ha]
        simp [not_le.mpr ha, not_le.mpr hb]
  intro sunriset_of_locals
  intro N lon lat altit upper_limb c h
  unfold __daylen__
  simp only [h, Option.some_bind, ge_iff_le, acosd_dbl_coe]
  have e1 : ((1 : EReal) ≤ (c : EReal)) ↔ 1 ≤ c := by
    rw [← EReal.coe_one, EReal.coe_le_coe_iff]
  have e2 : ((c : EReal) ≤ -1) ↔ c ≤ -1 := by
    rw [← EReal.coe_one, ← EReal.coe_neg, EReal.coe_le_coe_iff]
  simp only [e1, e2]
  by_cases ha : 1 ≤ c
  · simp [ha]
  · by_cases hb : c ≤ -1
    · simp [ha, hb]
    · push_neg at ha hb
      rw [acosd_of_mem c hb ha]
      simp [not_le.mpr ha, not_le.mpr hb]

/-! ## The documented domain: dates 1801-2099 -/

set_option maxHeartbeats 3200000 in
/-- Facts about the mean elements on the dates 1801-2099 and far outside them. -/
theorem domain_facts :
    -- `ecc_bounds_of_range`
    (∀ (d : ℝ) (h1 : -73000 ≤ d) (h2 : d ≤ 37000), 0.0166 < sunpos_e d ∧ sunpos_e d < 0.0168) ∧
    -- `ecc_sq_lt_one_of_range`
    (∀ (d : ℝ) (h1 : -73000 ≤ d) (h2 : d ≤ 37000), sunpos_e d * sunpos_e d < 1) ∧
    -- `obl_bounds_of_range`
    (∀ (d : ℝ) (h1 : -73000 ≤ d) (h2 : d ≤ 37000), 23.42 < obl_ecl d ∧ obl_ecl d < 23.47) ∧
    -- `cosd_pos_of_abs_lt`
    (∀ (x : ℝ) (h : |x| < 90), 0 < cosd x) ∧
    -- `cosd_obl_ne_zero_of_range`
    (∀ (d : ℝ) (h1 : -73000 ≤ d) (h2 : d ≤ 37000), cosd (obl_ecl d) ≠ 0) ∧
    -- `epoch_173_range`
    (-73000 ≤ epoch 173 (0 : ℝ) ∧ epoch 173 (0 : ℝ) ≤ 37000) ∧
    -- `epoch_356_range`
    (-73000 ≤ epoch 356 (0 : ℝ) ∧ epoch 356 (0 : ℝ) ≤ 37000) ∧
    -- `sunpos_none_of_ecc`
    (∀ (d : ℝ) (h : 1 < sunpos_e d * sunpos_e d), sunpos d = none) ∧
    -- `ecc_far_future`
    (1 < sunpos_e (epoch 900000000 (0 : ℝ)) * sunpos_e (epoch 900000000 (0 : ℝ))) ∧
    -- `sunriset_cost_far_future`
    (∀ (lat altit : ℝ) (upper_limb : ℤ), sunriset_cost 900000000 0 lat altit upper_limb = none) ∧
    -- `sunriset_far_future`
    (∀ (lat altit : ℝ) (upper_limb : ℤ), __sunriset__ 900000000 0 lat altit upper_limb = none) ∧
    -- `daylen_far_future`
    (∀ (lat altit : ℝ) (upper_limb : ℤ), __daylen__ 900000000 0 lat altit upper_limb = none) := by
  obtain ⟨-, csqrt_of_neg, -⟩ := sunpos_facts
  refine and_of_imp ?_ ?_
  · intro d h1 h2
    unfold sunpos_e
    constructor <;> norm_num <;> linarith
  intro ecc_bounds_of_range
  refine and_of_imp ?_ ?_
  · intro d h1 h2
    obtain ⟨ha, hb⟩ := ecc_bounds_of_range d h1 h2
    nlinarith
  intro ecc_sq_lt_one_of_range
  refine and_of_imp ?_ ?_
  · intro d h1 h2
    unfold obl_ecl
    constructor <;> norm_num <;> linarith
  intro obl_bounds_of_range
  refine and_of_imp ?_ ?_
  · intro x h
    unfold cosd DEGRAD
    obtain ⟨ha, hb⟩ := abs_lt.mp h
    have hpi := Real.pi_pos
    apply Real.cos_pos_of_mem_Ioo
    constructor <;> nlinarith
  intro cosd_pos_of_abs_lt
  refine and_of_imp ?_ ?_
  · intro d h1 h2
    obtain ⟨ha, hb⟩ := obl_bounds_of_range d h1 h2
    apply ne_of_gt
    apply cosd_pos_of_abs_lt
    rw [abs_lt]
    constructor <;> linarith
  intro cosd_obl_ne_zero_of_range
  refine and_of_imp ?_ ?_
  · unfold epoch; constructor <;> norm_num
  intro epoch_173_range
  refine and_of_imp ?_ ?_
  · unfold epoch; constructor <;> norm_num
  intro epoch_356_range
  refine and_of_imp ?_ ?_
  · intro d h
    unfold sunpos
    simp only
    rw [csqrt_of_neg _ (by linarith)]
    rfl
  intro sunpos_none_of_ecc
  refine and_of_imp ?_ ?_
  · unfold sunpos_e epoch
    norm_num
  intro ecc_far_future
  refine and_of_imp ?_ ?_
  · intro lat altit upper_limb
    unfold sunriset_cost sun_RA_dec
    simp only [sunpos_none_of_ecc _ ecc_far_future, Option.none_bind]
  intro sunriset_cost_far_future
  refine and_of_imp ?_ ?_
  · intro lat altit upper_limb
    unfold __sunriset__
    rw [sunriset_cost_far_future]
    cases sunriset_tsouth 900000000 0 <;> rfl
  intro sunriset_far_future
  intro lat altit upper_limb
  unfold __daylen__ daylen_cost
  simp only [sunpos_none_of_ecc _ ecc_far_future, Option.none_bind]
  rfl

/-! ## Elementary bounds on the degree-based sine and cosine -/

set_option maxHeartbeats 3200000 in
/-- Elementary bounds on the sine and cosine in degrees. -/
theorem degree_facts :
    -- `degrad_pos`
    (0 < DEGRAD) ∧
    -- `degrad_lt`
    (DEGRAD < 0.0175) ∧
    -- `degrad_gt`
    (0.01744 < DEGRAD) ∧
    -- `cosd_ge_chord`
    -- Jordan's inequality in degrees: `cos x ≥ 1 - |x| / 90` for `|x| ≤ 90`.
    (∀ (x : ℝ) (h : |x| ≤ 90), 1 - |x| / 90 ≤ cosd x) ∧
    -- `sind_ge_of_nonpos`
    -- For a non-positive angle, `sin x ≥ x` (in radians).
    (∀ (x : ℝ) (h : x ≤ 0), x * DEGRAD ≤ sind x) ∧
    -- `sind_neg_of_neg`
    (∀ (x : ℝ) (h : x < 0) (h2 : -180 < x), sind x < 0) ∧
    -- `deg_quarter`
    (90 * DEGRAD = Real.pi / 2) ∧
    -- `deg_half`
    (180 * DEGRAD = Real.pi) ∧
    -- `deg_le`
    (∀ (x y : ℝ) (h : x ≤ y), x * DEGRAD ≤ y * DEGRAD) ∧
    -- `deg_lt`
    (∀ (x y : ℝ) (h : x < y), x * DEGRAD < y * DEGRAD) ∧
    -- `sind_neg`
    (∀ (x : ℝ), sind (-x) = -sind x) ∧
    -- `cosd_neg`
    (∀ (x : ℝ), cosd (-x) = cosd x) ∧
    -- `abs_dec_le_obl`
    -- The declination is at most the obliquity in absolute value.
    (∀ (dec obl l : ℝ) (hs : sind dec = sind obl * sind l) (hd : |dec| ≤ 90) (ho0 : 0 ≤ obl) (ho1 : obl ≤ 90),
      |dec| ≤ obl) := by
  obtain ⟨-, -, sind_le_one, neg_one_le_sind, -⟩ := trig_facts
  refine and_of_imp ?_ ?_
  · exact div_pos Real.pi_pos (by norm_num)
  intro degrad_pos
  refine and_of_imp ?_ ?_
  · unfold DEGRAD
    have := Real.pi_lt_d2
    linarith
  intro degrad_lt
  refine and_of_imp ?_ ?_
  · unfold DEGRAD
    have := Real.pi_gt_d2
    linarith
  intro degrad_gt
  refine and_of_imp ?_ ?_
  · intro x h
    unfold cosd DEGRAD
    have hpi := Real.pi_pos
    have h0 : 0 ≤ |x| := abs_nonneg x
    have e1 : Real.cos (x * (Real.pi / 180)) = Real.sin (Real.pi / 2 - |x| * (Real.pi / 180)) := by
      rw [Real.sin_pi_div_two_sub, ← Real.cos_abs (x * (Real.pi / 180)), abs_mul,
        abs_of_pos (div_pos hpi (by norm_num : (0 : ℝ) < 180))]
    rw [e1]
    have h1 : 0 ≤ Real.pi / 2 - |x| * (Real.pi / 180) := by nlinarith
    have h2 : Real.pi / 2 - |x| * (Real.pi / 180) ≤ Real.pi / 2 := by nlinarith
    have h3 := Real.mul_le_sin h1 h2
    have e2 : 2 / Real.pi * (Real.pi / 2 - |x| * (Real.pi / 180)) = 1 - |x| / 90 := by
      field_simp
      ring
    linarith
  intro cosd_ge_chord
  refine and_of_imp ?_ ?_
  · intro x h
    unfold sind
    have h1 : 0 ≤ -(x * DEGRAD) := by
      have := degrad_pos
      nlinarith
    have h2 := Real.sin_le h1
    rw [Real.sin_neg] at h2
    linarith
  intro sind_ge_of_nonpos
  refine and_of_imp ?_ ?_
  · intro x h h2
    unfold sind DEGRAD
    have hpi := Real.pi_pos
    apply Real.sin_neg_of_neg_of_neg_pi_lt
    · nlinarith
    · nlinarith
  intro sind_neg_of_neg
  refine and_of_imp ?_ ?_
  · unfold DEGRAD
    ring
  intro deg_quarter
  refine and_of_imp ?_ ?_
  · unfold DEGRAD
    ring
  intro deg_half
  refine and_of_imp ?_ ?_
  · intro x y h
    exact mul_le_mul_of_nonneg_right h (le_of_lt degrad_pos)
  intro deg_le
  refine and_of_imp ?_ ?_
  · intro x y h
    exact mul_lt_mul_of_pos_right h degrad_pos
  intro deg_lt
  refine and_of_imp ?_ ?_
  · intro x
    unfold sind
    rw [neg_mul, Real.sin_neg]
  intro sind_neg
  refine and_of_imp ?_ ?_
  · intro x
    unfold cosd
    rw [neg_mul, Real.cos_neg]
  intro cosd_neg
  intro dec obl l hs hd ho0 ho1
  obtain ⟨hd1, hd2⟩ := abs_le.mp hd
  have hD := degrad_pos
  have hso : 0 ≤ sind obl := by
    unfold sind
    apply Real.sin_nonneg_of_nonneg_of_le_pi (mul_nonneg ho0 (le_of_lt hD))
    rw [← deg_half]
    exact deg_le _ _ (le_trans ho1 (by norm_num))
  have hl1 := mul_le_mul_of_nonneg_left (sind_le_one l) hso
  have hl2 := mul_le_mul_of_nonneg_left (neg_one_le_sind l) hso
  rw [mul_one] at hl1
  rw [mul_neg, mul_one] at hl2
  rw [abs_le]
  constructor
  · by_contra hc
    push_neg at hc
    have h1 : sind dec < sind (-obl) := by
      unfold sind
      apply Real.sin_lt_sin_of_lt_of_le_pi_div_two
      · rw [← deg_quarter, ← neg_mul]
        exact deg_le _ _ hd1
      · rw [← deg_quarter]
        exact deg_le _ _ (le_trans (neg_nonpos.mpr ho0) (by norm_num))
      · exact deg_lt _ _ hc
    rw [sind_neg, hs] at h1
    exact absurd hl2 (not_le.mpr h1)
  · by_contra hc
    push_neg at hc
    have h1 : sind obl < sind dec := by
      unfold sind
      apply Real.sin_lt_sin_of_lt_of_le_pi_div_two
      · rw [← deg_quarter, ← neg_mul]
        exact deg_le _ _ (le_trans (by norm_num) ho0)
      · rw [← deg_quarter]
        exact deg_le _ _ hd2
      · exact deg_lt _ _ hc
    rw [hs] at h1
    exact absurd hl1 (not_le.mpr h1)

/-! ## The ordinary threshold on the documented domain -/

set_option maxHeartbeats 3200000 in
/-- Facts about `cost` at the ordinary threshold up to latitude 60. -/
theorem midlat_facts :
    -- `sr_bounds_of_range`
    -- The solar distance lies within `1 ± 0.0168` on the documented domain.
    (∀ (d sr : ℝ) (h1 : -73000 ≤ d) (h2 : d ≤ 37000) (hsr : sr = 1 - sunpos_e d * cosd (sunpos_E d)),
      0.9832 < sr ∧ sr < 1.0168) ∧
    -- `ordinary_altit_bounds`
    -- The upper-limb-corrected ordinary threshold lies in `(-0.86, -0.84)`
    -- degrees when the distance lies within `1 ± 0.0168`.
    (∀ (sr : ℝ) (h1 : 0.9832 < sr) (h2 : sr < 1.0168),
      -0.86 < -35 / 60 - 0.2666 / sr ∧ -35 / 60 - 0.2666 / sr < -0.84) ∧
    -- `sind_small_neg`
    (∀ (a : ℝ) (h1 : -0.86 < a) (h2 : a < 0), -0.0151 < sind a ∧ sind a < 0) ∧
    -- `cost_mem_of_midlat`
    -- The quotient `cost` lies strictly between -1 and 1 when the threshold is
    -- slightly negative and latitude and declination add up to less than 83.5
    -- degrees.
    (∀ (a lat dec : ℝ) (ha1 : -0.86 < a) (ha2 : a < 0) (hc : 0 < cosd dec) (hsum : |lat| + |dec| ≤ 83.5),
      -1 < (sind a - sind lat * sind dec) / (cosd lat * cosd dec) ∧
      (sind a - sind lat * sind dec) / (cosd lat * cosd dec) < 1) ∧
    -- `sunriset_normal_of_midlat`
    -- With the ordinary threshold, on the documented domain and up to 60 degrees
    -- of latitude, the Sun rises and sets.
    (∀ (N : ℤ) (lon lat : ℝ) (hd1 : -73000 ≤ epoch N lon) (hd2 : epoch N lon ≤ 37000) (hlat : |lat| ≤ 60),
      ∃ trise tset, __sunriset__ N lon lat (-35 / 60) 1 = some (0, trise, tset) ∧ trise < tset) := by
  obtain ⟨-, -, -, -, cosd_le_one, neg_one_le_cosd, -, -, -, -, -, cosd_add, cosd_sub,
      -⟩ := trig_facts
  obtain ⟨ecc_bounds_of_range, ecc_sq_lt_one_of_range, obl_bounds_of_range, cosd_pos_of_abs_lt,
      cosd_obl_ne_zero_of_range, -⟩ := domain_facts
  obtain ⟨degrad_pos, degrad_lt, -, cosd_ge_chord, sind_ge_of_nonpos, sind_neg_of_neg, -, -, -, -,
      -, -, abs_dec_le_obl⟩ := degree_facts
  obtain ⟨-, -, -, solver_locals, -, -, radeg_arccos_pos, -, -, sunriset_of_locals,
      -⟩ := solver_facts
  refine and_of_imp ?_ ?_
  · intro d sr h1 h2 hsr
    obtain ⟨ha, hb⟩ := ecc_bounds_of_range d h1 h2
    have hc1 := cosd_le_one (sunpos_E d)
    have hc2 := neg_one_le_cosd (sunpos_E d)
    rw [hsr]
    constructor <;> nlinarith
  intro sr_bounds_of_range
  refine and_of_imp ?_ ?_
  · intro sr h1 h2
    have hpos : 0 < sr := by linarith
    have ha : 0.2666 / sr < 0.2766 := by
      rw [div_lt_iff₀ hpos]; nlinarith
    have hb : 0.26 < 0.2666 / sr := by
      rw [lt_div_iff₀ hpos]; nlinarith
    constructor <;> linarith
  intro ordinary_altit_bounds
  refine and_of_imp ?_ ?_
  · intro a h1 h2
    refine ⟨?_, sind_neg_of_neg a h2 (by linarith)⟩
    have h := sind_ge_of_nonpos a (le_of_lt h2)
    have hD := degrad_lt
    have hD0 := degrad_pos
    nlinarith
  intro sind_small_neg
  refine and_of_imp ?_ ?_
  · intro a lat dec ha1 ha2 hc hsum
    obtain ⟨hs1, hs2⟩ := sind_small_neg a ha1 ha2
    have hl0 := abs_nonneg lat
    have hd0 := abs_nonneg dec
    have hlat : 0 < cosd lat := cosd_pos_of_abs_lt lat (by linarith)
    have hden : 0 < cosd lat * cosd dec := mul_pos hlat hc
    have hplus : |lat + dec| ≤ 83.5 := le_trans (abs_add lat dec) hsum
    have hminus : |lat - dec| ≤ 83.5 := le_trans (abs_sub lat dec) hsum
    have h1 := cosd_ge_chord (lat + dec) (by linarith)
    have h2 := cosd_ge_chord (lat - dec) (by linarith)
    rw [cosd_add] at h1
    rw [cosd_sub] at h2
    constructor
    · rw [lt_div_iff₀ hden]
      linarith
    · rw [div_lt_one hden]
      linarith
  intro cost_mem_of_midlat
  intro N lon lat hd1 hd2 hlat
  have hlat' : |lat| < 90 := by linarith
  obtain ⟨slon, sr, RA, sdec, a, -, hsr, -, -, hsin, hcos, habs, -, ha, hts, hc, -⟩ :=
    solver_locals N lon lat (-35 / 60) 1 (ecc_sq_lt_one_of_range _ hd1 hd2)
      (cosd_obl_ne_zero_of_range _ hd1 hd2) (ne_of_gt (cosd_pos_of_abs_lt lat hlat'))
  have hs := sunriset_of_locals N lon lat (-35 / 60) 1 _ _ hts hc
  obtain ⟨hr1, hr2⟩ := sr_bounds_of_range _ sr hd1 hd2 hsr
  rw [if_pos (by norm_num : (1 : ℤ) ≠ 0)] at ha
  obtain ⟨ha1, ha2⟩ := ordinary_altit_bounds sr hr1 hr2
  rw [← ha] at ha1 ha2
  obtain ⟨ho1, ho2⟩ := obl_bounds_of_range _ hd1 hd2
  have hdec := abs_dec_le_obl sdec _ slon hsin habs (by linarith) (by linarith)
  obtain ⟨hc1, hc2⟩ := cost_mem_of_midlat a lat sdec ha1 (by linarith) hcos (by linarith)
  rw [if_neg (not_le.mpr hc2), if_neg (not_le.mpr hc1)] at hs
  refine ⟨_, _, hs, ?_⟩
  have := radeg_arccos_pos _ hc2
  linarith

/-! ## Bounds on the solar longitude on the documented domain -/

set_option maxHeartbeats 3200000 in
/-- Bounds on the equation of the centre and on the solar longitude. -/
theorem orbit_facts :
    -- `radeg_lt`
    (RADEG < 57.33) ∧
    -- `abs_mul_le_one`
    (∀ (a b : ℝ) (ha : |a| ≤ 1) (hb : |b| ≤ 1), |a * b| ≤ 1) ∧
    -- `abs_sind_le_one`
    (∀ (x : ℝ), |sind x| ≤ 1) ∧
    -- `abs_cosd_le_one`
    (∀ (x : ℝ), |cosd x| ≤ 1) ∧
    -- `ecc_anomaly_offset`
    -- The eccentric anomaly is within one degree of the mean anomaly.
    (∀ (d : ℝ) (h1 : -73000 ≤ d) (h2 : d ≤ 37000), |sunpos_E d - sunpos_M d| < 1) ∧
    -- `sind_ecc_longitude`
    -- The sine of `E + w` is that of the unreduced mean longitude plus the
    -- offset of the eccentric anomaly.
    (∀ (d : ℝ), sind (sunpos_E d + sunpos_w d)
      = sind (356.0470 + 0.9856002585 * d + sunpos_w d + (sunpos_E d - sunpos_M d))) ∧
    -- `sqrt_one_sub_sq_ge`
    (∀ (e : ℝ) (he : e * e < 1), 1 - e * e ≤ Real.sqrt (1 - e * e) ∧ Real.sqrt (1 - e * e) ≤ 1) ∧
    -- `dist_mul_sind_lon`
    -- The product of distance and sine of the true longitude is within 0.0171
    -- of the sine of `E + w`.
    (∀ (d lon r : ℝ) (h1 : -73000 ≤ d) (h2 : d ≤ 37000) (h : r * sind lon = Real.sqrt (1 - sunpos_e d * sunpos_e d) * sind (sunpos_E d) * cosd (sunpos_w d) + (cosd (sunpos_E d) - sunpos_e d) * sind (sunpos_w d)),
      |r * sind lon - sind (sunpos_E d + sunpos_w d)| ≤ 0.0171) ∧
    -- `cosd_ge_quad`
    (∀ (x : ℝ), 1 - (x * DEGRAD) ^ 2 / 2 ≤ cosd x) ∧
    -- `sind_eq_cosd_compl`
    (∀ (x : ℝ), sind x = cosd (90 - x)) ∧
    -- `cosd_eq_sind_compl`
    (∀ (x : ℝ), cosd x = sind (90 - x)) ∧
    -- `sind_add_180`
    (∀ (x : ℝ), sind (x + 180) = -sind x) ∧
    -- `sind_near_90`
    (∀ (x : ℝ) (h : |x - 90| ≤ 1.5), 0.999 ≤ sind x) ∧
    -- `sind_near_270`
    (∀ (x : ℝ) (h : |x - 270| ≤ 1.5), sind x ≤ -0.999) ∧
    -- `sind_obl_bounds_of_range`
    (∀ (d : ℝ) (h1 : -73000 ≤ d) (h2 : d ≤ 37000),
      0.39 < sind (obl_ecl d) ∧ sind (obl_ecl d) < 0.4108) := by
  obtain ⟨-, -, -, -, cosd_le_one, neg_one_le_cosd, sind_sub_turns, -, -, -, sind_add,
      -⟩ := trig_facts
  obtain ⟨-, -, -, -, -, radeg_pos, -⟩ := solver_facts
  obtain ⟨ecc_bounds_of_range, ecc_sq_lt_one_of_range, obl_bounds_of_range, -⟩ := domain_facts
  obtain ⟨revolution_sub, -⟩ := angle_facts
  obtain ⟨degrad_pos, degrad_lt, degrad_gt, -⟩ := degree_facts
  refine and_of_imp ?_ ?_
  · unfold RADEG
    have h := Real.pi_gt_d2
    rw [div_lt_iff₀ Real.pi_pos]
    nlinarith
  intro radeg_lt
  refine and_of_imp ?_ ?_
  · intro a b ha hb
    rw [abs_mul]
    calc |a| * |b| ≤ 1 * 1 := mul_le_mul ha hb (abs_nonneg b) (by norm_num)
      _ = 1 := by norm_num
  intro abs_mul_le_one
  refine and_of_imp ?_ ?_
  · intro x
    exact Real.abs_sin_le_one _
  intro abs_sind_le_one
  refine and_of_imp ?_ ?_
  · intro x
    exact Real.abs_cos_le_one _
  intro abs_cosd_le_one
  refine and_of_imp ?_ ?_
  · intro d h1 h2
    obtain ⟨ha, hb⟩ := ecc_bounds_of_range d h1 h2
    have hR := radeg_lt
    have hR0 := radeg_pos
    have hs := abs_sind_le_one (sunpos_M d)
    have hc1 := cosd_le_one (sunpos_M d)
    have hc2 := neg_one_le_cosd (sunpos_M d)
    have e1 : sunpos_E d - sunpos_M d
        = sunpos_e d * RADEG * (sind (sunpos_M d) * (1 + sunpos_e d * cosd (sunpos_M d))) := by
      unfold sunpos_E; ring
    have hA0 : 0 ≤ sunpos_e d * RADEG := by nlinarith
    have hA : sunpos_e d * RADEG ≤ 0.9632 := by nlinarith
    have hB : |sind (sunpos_M d) * (1 + sunpos_e d * cosd (sunpos_M d))| ≤ 1.0168 := by
      rw [abs_mul]
      have hf : |1 + sunpos_e d * cosd (sunpos_M d)| ≤ 1.0168 := by
        rw [abs_le]; constructor <;> nlinarith
      calc |sind (sunpos_M d)| * |1 + sunpos_e d * cosd (sunpos_M d)| ≤ 1 * 1.0168 :=
            mul_le_mul hs hf (abs_nonneg _) (by norm_num)
        _ = 1.0168 := by norm_num
    rw [e1, abs_mul, abs_of_nonneg hA0]
    calc sunpos_e d * RADEG * |sind (sunpos_M d) * (1 + sunpos_e d * cosd (sunpos_M d))|
        ≤ 0.9632 * 1.0168 := mul_le_mul hA hB (abs_nonneg _) (by norm_num)
      _ < 1 := by norm_num
  intro ecc_anomaly_offset
  refine and_of_imp ?_ ?_
  · intro d
    have h := revolution_sub (356.0470 + 0.9856002585 * d)
    have e : sunpos_E d + sunpos_w d
        = 356.0470 + 0.9856002585 * d + sunpos_w d + (sunpos_E d - sunpos_M d)
          - 360 * ((⌊(356.0470 + 0.9856002585 * d) * INV360⌋ : ℤ) : ℝ) := by
      rw [← h]
      unfold sunpos_M
      ring
    rw [e, sind_sub_turns]
  intro sind_ecc_longitude
  refine and_of_imp ?_ ?_
  · intro e he
    have h0 : 0 ≤ 1 - e * e := by linarith
    have hq := Real.mul_self_sqrt h0
    have hq0 := Real.sqrt_nonneg (1 - e * e)
    have hq1 : Real.sqrt (1 - e * e) ≤ 1 := by
      by_contra hc
      push_neg at hc
      nlinarith [mul_self_nonneg e]
    exact ⟨by nlinarith, hq1⟩
  intro sqrt_one_sub_sq_ge
  refine and_of_imp ?_ ?_
  · intro d lon r h1 h2 h
    obtain ⟨ha, hb⟩ := ecc_bounds_of_range d h1 h2
    obtain ⟨hq1, hq2⟩ := sqrt_one_sub_sq_ge (sunpos_e d) (ecc_sq_lt_one_of_range d h1 h2)
    set q := Real.sqrt (1 - sunpos_e d * sunpos_e d)
    have e1 : r * sind lon - sind (sunpos_E d + sunpos_w d)
        = (q - 1) * (sind (sunpos_E d) * cosd (sunpos_w d)) - sunpos_e d * sind (sunpos_w d) := by
      rw [h, sind_add]; ring
    have hp := abs_mul_le_one _ _ (abs_sind_le_one (sunpos_E d)) (abs_cosd_le_one (sunpos_w d))
    have hw := abs_sind_le_one (sunpos_w d)
    have t1 : |(q - 1) * (sind (sunpos_E d) * cosd (sunpos_w d))| ≤ 0.0003 := by
      rw [abs_mul]
      have hq : |q - 1| ≤ 0.0003 := by
        rw [abs_le]; constructor <;> nlinarith
      calc |q - 1| * |sind (sunpos_E d) * cosd (sunpos_w d)| ≤ 0.0003 * 1 :=
            mul_le_mul hq hp (abs_nonneg _) (by norm_num)
        _ = 0.0003 := by norm_num
    have t2 : |sunpos_e d * sind (sunpos_w d)| ≤ 0.0168 := by
      rw [abs_mul, abs_of_pos (by linarith : 0 < sunpos_e d)]
      calc sunpos_e d * |sind (sunpos_w d)| ≤ 0.0168 * 1 :=
            mul_le_mul (le_of_lt hb) hw (abs_nonneg _) (by norm_num)
        _ = 0.0168 := by norm_num
    rw [e1]
    calc |(q - 1) * (sind (sunpos_E d) * cosd (sunpos_w d)) - sunpos_e d * sind (sunpos_w d)|
        ≤ |(q - 1) * (sind (sunpos_E d) * cosd (sunpos_w d))| + |sunpos_e d * sind (sunpos_w d)| :=
          abs_sub _ _
      _ ≤ 0.0171 := by linarith
  intro dist_mul_sind_lon
  refine and_of_imp ?_ ?_
  · intro x
    exact Real.one_sub_sq_div_two_le_cos
  intro cosd_ge_quad
  refine and_of_imp ?_ ?_
  · intro x
    unfold sind cosd DEGRAD
    have e : (90 - x) * (Real.pi / 180) = Real.pi / 2 - x * (Real.pi / 180) := by ring
    rw [e, Real.cos_pi_div_two_sub]
  intro sind_eq_cosd_compl
  refine and_of_imp ?_ ?_
  · intro x
    rw [sind_eq_cosd_compl]
    congr 1
    ring
  intro cosd_eq_sind_compl
  refine and_of_imp ?_ ?_
  · intro x
    unfold sind DEGRAD
    have e : (x + 180) * (Real.pi / 180) = x * (Real.pi / 180) + Real.pi := by ring
    rw [e, Real.sin_add_pi]
  intro sind_add_180
  refine and_of_imp ?_ ?_
  · intro x h
    rw [sind_eq_cosd_compl]
    have h1 := cosd_ge_quad (90 - x)
    obtain ⟨ha, hb⟩ := abs_le.mp h
    have hD := degrad_lt
    have hD0 := degrad_pos
    have h2 : ((90 - x) * DEGRAD) ^ 2 ≤ 0.001 := by
      have h3 : |(90 - x) * DEGRAD| ≤ 0.03 := by
        rw [abs_le]; constructor <;> nlinarith
      have := sq_le_sq' (abs_le.mp h3).1 (abs_le.mp h3).2
      nlinarith
    linarith
  intro sind_near_90
  refine and_of_imp ?_ ?_
  · intro x h
    have e : x = (x - 180) + 180 := by ring
    rw [e, sind_add_180]
    have := sind_near_90 (x - 180) (by
      have e2 : x - 180 - 90 = x - 270 := by ring
      rw [e2]; exact h)
    linarith
  intro sind_near_270
  intro d h1 h2
  obtain ⟨ha, hb⟩ := obl_bounds_of_range d h1 h2
  have hD := degrad_lt
  have hD' := degrad_gt
  have hx0 : 0.4084 < obl_ecl d * DEGRAD := by nlinarith
  have hx1 : obl_ecl d * DEGRAD < 0.4108 := by nlinarith
  unfold sind
  constructor
  · have h := Real.sin_gt_sub_cube (by linarith : 0 < obl_ecl d * DEGRAD) (by linarith)
    have hc : (obl_ecl d * DEGRAD) ^ 3 ≤ 0.4108 ^ 3 :=
      pow_le_pow_left₀ (by linarith) (le_of_lt hx1) 3
    norm_num at hc
    linarith
  · have h := Real.sin_lt (by linarith : 0 < obl_ecl d * DEGRAD)
    linarith

/-! ## The solstices at latitude 78 -/

set_option maxHeartbeats 3200000 in
/-- Facts about `cost` at the solstices, at latitude 78 and at the pole. -/
theorem polar_facts :
    -- `sind_lon_ge_of_mean`
    -- Near the June solstice (mean longitude within half a degree of 90) the sine
    -- of the true longitude is at least 0.96.
    (∀ (d lon r : ℝ) (h1 : -73000 ≤ d) (h2 : d ≤ 37000) (hr : 0 < r) (hr2 : r < 1.0168) (h : r * sind lon = Real.sqrt (1 - sunpos_e d * sunpos_e d) * sind (sunpos_E d) * cosd (sunpos_w d) + (cosd (sunpos_E d) - sunpos_e d) * sind (sunpos_w d)) (k : ℤ) (hk : |356.0470 + 0.9856002585 * d + sunpos_w d - 360 * (k : ℝ) - 90| ≤ 0.5),
      0.96 ≤ sind lon) ∧
    -- `sind_lon_le_of_mean`
    -- Near the December solstice (mean longitude within half a degree of 270)
    -- the sine of the true longitude is at most -0.96.
    (∀ (d lon r : ℝ) (h1 : -73000 ≤ d) (h2 : d ≤ 37000) (hr : 0 < r) (hr2 : r < 1.0168) (h : r * sind lon = Real.sqrt (1 - sunpos_e d * sunpos_e d) * sind (sunpos_E d) * cosd (sunpos_w d) + (cosd (sunpos_E d) - sunpos_e d) * sind (sunpos_w d)) (k : ℤ) (hk : |356.0470 + 0.9856002585 * d + sunpos_w d - 360 * (k : ℝ) - 270| ≤ 0.5),
      sind lon ≤ -0.96) ∧
    -- `sind_78_ge`
    (0.97 ≤ sind 78) ∧
    -- `cosd_78_bounds`
    (0 < cosd 78 ∧ cosd 78 < 0.21) ∧
    -- `polar_day_cost`
    -- At latitude 78 a declination of sine at least 0.37 keeps the Sun above
    -- the ordinary threshold.
    (∀ (a dec : ℝ) (ha1 : -0.86 < a) (ha2 : a < 0) (hs : 0.37 ≤ sind dec) (hc : 0 < cosd dec),
      (sind a - sind 78 * sind dec) / (cosd 78 * cosd dec) ≤ -1) ∧
    -- `polar_night_cost`
    -- At latitude 78 a declination of sine at most -0.37 keeps the Sun below
    -- the ordinary threshold.
    (∀ (a dec : ℝ) (ha1 : -0.86 < a) (ha2 : a < 0) (hs : sind dec ≤ -0.37) (hc : 0 < cosd dec),
      1 ≤ (sind a - sind 78 * sind dec) / (cosd 78 * cosd dec)) ∧
    -- `cost_june_78`
    -- The cost of both solvers on 2000-06-21 at latitude 78 is at most -1.
    (∃ ts c : ℝ, sunriset_tsouth 173 0 = some ts ∧
      sunriset_cost 173 0 78 (-35 / 60) 1 = some (c : EReal) ∧
      daylen_cost 173 0 78 (-35 / 60) 1 = some (c : EReal) ∧ c ≤ -1) ∧
    -- `cost_december_78`
    -- The cost of both solvers on 2000-12-21 at latitude 78 is at least 1.
    (∃ ts c : ℝ, sunriset_tsouth 356 0 = some ts ∧
      sunriset_cost 356 0 78 (-35 / 60) 1 = some (c : EReal) ∧
      daylen_cost 356 0 78 (-35 / 60) 1 = some (c : EReal) ∧ 1 ≤ c) ∧
    -- `sind_cosd_90`
    (sind 90 = 1 ∧ cosd 90 = 0) ∧
    -- `cost_june_pole`
    -- On 2000-06-21 at the north pole the divisor of `cost` is zero and its
    -- dividend negative: the cost of both solvers is `-∞`.
    (∃ ts : ℝ, sunriset_tsouth 173 0 = some ts ∧ sunriset_cost 173 0 90 (-35 / 60) 1 = some ⊥ ∧
      daylen_cost 173 0 90 (-35 / 60) 1 = some ⊥) := by
  obtain ⟨-, -, -, -, cosd_le_one, -, sind_sub_turns, -⟩ := trig_facts
  obtain ⟨-, -, -, -, ecc_anomaly_offset, sind_ecc_longitude, -, dist_mul_sind_lon, cosd_ge_quad,
      sind_eq_cosd_compl, cosd_eq_sind_compl, -, sind_near_90, sind_near_270,
      sind_obl_bounds_of_range⟩ := orbit_facts
  obtain ⟨degrad_pos, degrad_lt, -, -, -, -, deg_quarter, -⟩ := degree_facts
  obtain ⟨-, ecc_sq_lt_one_of_range, -, cosd_pos_of_abs_lt, cosd_obl_ne_zero_of_range,
      epoch_173_range, epoch_356_range, -⟩ := domain_facts
  obtain ⟨sr_bounds_of_range, ordinary_altit_bounds, sind_small_neg, -⟩ := midlat_facts
  obtain ⟨-, -, -, -, -, -, -, -, -, sunpos_spec⟩ := sunpos_facts
  obtain ⟨-, -, solver_locals_ext, solver_locals, -⟩ := solver_facts
  refine and_of_imp ?_ ?_
  · intro d lon r h1 h2 hr hr2 h k hk
    have hoff := ecc_anomaly_offset d h1 h2
    have hprod := dist_mul_sind_lon d lon r h1 h2 h
    rw [sind_ecc_longitude] at hprod
    have hnear : |356.0470 + 0.9856002585 * d + sunpos_w d + (sunpos_E d - sunpos_M d)
        - 360 * (k : ℝ) - 90| ≤ 1.5 := by
      obtain ⟨a1, a2⟩ := abs_le.mp hk
      obtain ⟨b1, b2⟩ := abs_lt.mp hoff
      rw [abs_le]; constructor <;> linarith only [a1, a2, b1, b2]
    have hs := sind_near_90 _ hnear
    rw [sind_sub_turns] at hs
    obtain ⟨c1, c2⟩ := abs_le.mp hprod
    have hlo : 0.9819 ≤ r * sind lon := by linarith only [c1, hs]
    by_contra hc
    push_neg at hc
    have g1 : r * sind lon ≤ r * 0.96 := mul_le_mul_of_nonneg_left (le_of_lt hc) (le_of_lt hr)
    have g2 : r * 0.96 ≤ 1.0168 * 0.96 :=
      mul_le_mul_of_nonneg_right (le_of_lt hr2) (by norm_num)
    norm_num at g2
    linarith only [hlo, g1, g2]
  intro sind_lon_ge_of_mean
  refine and_of_imp ?_ ?_
  · intro d lon r h1 h2 hr hr2 h k hk
    have hoff := ecc_anomaly_offset d h1 h2
    have hprod := dist_mul_sind_lon d lon r h1 h2 h
    rw [sind_ecc_longitude] at hprod
    have hnear : |356.0470 + 0.9856002585 * d + sunpos_w d + (sunpos_E d - sunpos_M d)
        - 360 * (k : ℝ) - 270| ≤ 1.5 := by
      obtain ⟨a1, a2⟩ := abs_le.mp hk
      obtain ⟨b1, b2⟩ := abs_lt.mp hoff
      rw [abs_le]; constructor <;> linarith only [a1, a2, b1, b2]
    have hs := sind_near_270 _ hnear
    rw [sind_sub_turns] at hs
    obtain ⟨c1, c2⟩ := abs_le.mp hprod
    have hhi : r * sind lon ≤ -0.9819 := by linarith only [c2, hs]
    by_contra hc
    push_neg at hc
    have g1 : r * (-0.96) ≤ r * sind lon := mul_le_mul_of_nonneg_left (le_of_lt hc) (le_of_lt hr)
    have g2 : r * 0.96 ≤ 1.0168 * 0.96 :=
      mul_le_mul_of_nonneg_right (le_of_lt hr2) (by norm_num)
    norm_num at g2
    linarith only [hhi, g1, g2]
  intro sind_lon_le_of_mean
  refine and_of_imp ?_ ?_
  · rw [sind_eq_cosd_compl]
    have h := cosd_ge_quad (90 - 78)
    have hD := degrad_lt
    have hD0 := degrad_pos
    have h2 : ((90 - 78) * DEGRAD) ^ 2 ≤ 0.05 := by nlinarith
    linarith
  intro sind_78_ge
  refine and_of_imp ?_ ?_
  · refine ⟨cosd_pos_of_abs_lt 78 (by rw [abs_lt]; constructor <;> norm_num), ?_⟩
    rw [cosd_eq_sind_compl]
    unfold sind
    have hD := degrad_lt
    have hD0 := degrad_pos
    have e : (90 - 78 : ℝ) = 12 := by norm_num
    rw [e]
    have h := Real.sin_lt (by linarith : 0 < 12 * DEGRAD)
    linarith
  intro cosd_78_bounds
  refine and_of_imp ?_ ?_
  · intro a dec ha1 ha2 hs hc
    obtain ⟨hs1, hs2⟩ := sind_small_neg a ha1 ha2
    obtain ⟨hk1, hk2⟩ := cosd_78_bounds
    have h78 := sind_78_ge
    have hc1 := cosd_le_one dec
    rw [div_le_iff₀ (mul_pos hk1 hc)]
    nlinarith
  intro polar_day_cost
  refine and_of_imp ?_ ?_
  · intro a dec ha1 ha2 hs hc
    obtain ⟨hs1, hs2⟩ := sind_small_neg a ha1 ha2
    obtain ⟨hk1, hk2⟩ := cosd_78_bounds
    have h78 := sind_78_ge
    have hc1 := cosd_le_one dec
    rw [le_div_iff₀ (mul_pos hk1 hc)]
    nlinarith
  intro polar_night_cost
  refine and_of_imp ?_ ?_
  · obtain ⟨hd1, hd2⟩ := epoch_173_range
    have he := ecc_sq_lt_one_of_range _ hd1 hd2
    obtain ⟨slon, sr, hpos, hsr, hsr0, hprod, -⟩ := sunpos_spec (epoch 173 0) he
    obtain ⟨slon', sr', RA, sdec, a, hpos', -, -, -, hsin, hcos, -, -, ha, hts, hc, hdc⟩ :=
      solver_locals 173 0 78 (-35 / 60) 1 he (cosd_obl_ne_zero_of_range _ hd1 hd2)
        (ne_of_gt cosd_78_bounds.1)
    rw [hpos] at hpos'
    have e1 : slon = slon' := congrArg Prod.fst (Option.some.inj hpos')
    have e2 : sr = sr' := congrArg Prod.snd (Option.some.inj hpos')
    subst e1 e2
    obtain ⟨hr1, hr2⟩ := sr_bounds_of_range _ sr hd1 hd2 hsr
    rw [if_pos (by norm_num : (1 : ℤ) ≠ 0)] at ha
    obtain ⟨ha1, ha2⟩ := ordinary_altit_bounds sr hr1 hr2
    rw [← ha] at ha1 ha2
    have hl := sind_lon_ge_of_mean _ slon sr hd1 hd2 hsr0 hr2 hprod 2 (by
      unfold sunpos_w epoch
      rw [abs_le]; constructor <;> norm_num)
    obtain ⟨ho1, ho2⟩ := sind_obl_bounds_of_range _ hd1 hd2
    have hs : 0.37 ≤ sind sdec := by
      rw [hsin]; nlinarith
    exact ⟨_, _, hts, hc, hdc, polar_day_cost a sdec ha1 (by linarith) hs hcos⟩
  intro cost_june_78
  refine and_of_imp ?_ ?_
  · obtain ⟨hd1, hd2⟩ := epoch_356_range
    have he := ecc_sq_lt_one_of_range _ hd1 hd2
    obtain ⟨slon, sr, hpos, hsr, hsr0, hprod, -⟩ := sunpos_spec (epoch 356 0) he
    obtain ⟨slon', sr', RA, sdec, a, hpos', -, -, -, hsin, hcos, -, -, ha, hts, hc, hdc⟩ :=
      solver_locals 356 0 78 (-35 / 60) 1 he (cosd_obl_ne_zero_of_range _ hd1 hd2)
        (ne_of_gt cosd_78_bounds.1)
    rw [hpos] at hpos'
    have e1 : slon = slon' := congrArg Prod.fst (Option.some.inj hpos')
    have e2 : sr = sr' := congrArg Prod.snd (Option.some.inj hpos')
    subst e1 e2
    obtain ⟨hr1, hr2⟩ := sr_bounds_of_range _ sr hd1 hd2 hsr
    rw [if_pos (by norm_num : (1 : ℤ) ≠ 0)] at ha
    obtain ⟨ha1, ha2⟩ := ordinary_altit_bounds sr hr1 hr2
    rw [← ha] at ha1 ha2
    have hl := sind_lon_le_of_mean _ slon sr hd1 hd2 hsr0 hr2 hprod 2 (by
      unfold sunpos_w epoch
      rw [abs_le]; constructor <;> norm_num)
    obtain ⟨ho1, ho2⟩ := sind_obl_bounds_of_range _ hd1 hd2
    have hs : sind sdec ≤ -0.37 := by
      rw [hsin]; nlinarith
    exact ⟨_, _, hts, hc, hdc, polar_night_cost a sdec ha1 (by linarith) hs hcos⟩
  intro cost_december_78
  refine and_of_imp ?_ ?_
  · unfold sind cosd
    rw [deg_quarter]
    exact ⟨Real.sin_pi_div_two, Real.cos_pi_div_two⟩
  intro sind_cosd_90
  obtain ⟨hd1, hd2⟩ := epoch_173_range
  have he := ecc_sq_lt_one_of_range _ hd1 hd2
  obtain ⟨slon, sr, hpos, hsr, hsr0, hprod, -⟩ := sunpos_spec (epoch 173 0) he
  obtain ⟨slon', sr', RA, sdec, a, hpos', -, -, -, hsin, hcos, -, -, ha, hts, hc, hdc⟩ :=
    solver_locals_ext 173 0 90 (-35 / 60) 1 he (cosd_obl_ne_zero_of_range _ hd1 hd2)
  rw [hpos] at hpos'
  have e1 : slon = slon' := congrArg Prod.fst (Option.some.inj hpos')
  have e2 : sr = sr' := congrArg Prod.snd (Option.some.inj hpos')
  subst e1 e2
  obtain ⟨hr1, hr2⟩ := sr_bounds_of_range _ sr hd1 hd2 hsr
  rw [if_pos (by norm_num : (1 : ℤ) ≠ 0)] at ha
  obtain ⟨ha1, ha2⟩ := ordinary_altit_bounds sr hr1 hr2
  rw [← ha] at ha1 ha2
  have hl := sind_lon_ge_of_mean _ slon sr hd1 hd2 hsr0 hr2 hprod 2 (by
    unfold sunpos_w epoch
    rw [abs_le]; constructor <;> norm_num)
  obtain ⟨ho1, ho2⟩ := sind_obl_bounds_of_range _ hd1 hd2
  have hs : 0.37 ≤ sind sdec := by
    rw [hsin]; nlinarith
  obtain ⟨hs1, hs2⟩ := sind_small_neg a ha1 (by linarith)
  obtain ⟨h90s, h90c⟩ := sind_cosd_90
  have hnum : sind a - sind 90 * sind sdec < 0 := by
    rw [h90s]; linarith
  have hq : cdiv_ext (sind a - sind 90 * sind sdec) (cosd 90 * cosd sdec) = some ⊥ := by
    unfold cdiv_ext
    rw [h90c, zero_mul, if_pos rfl, if_neg (ne_of_lt hnum), if_neg (not_lt.mpr (le_of_lt hnum))]
  rw [hq] at hc hdc
  exact ⟨_, hts, hc, hdc⟩

/-! ## The civil-twilight threshold at the equator -/

set_option maxHeartbeats 3200000 in
/-- Facts about `cost` with the civil-twilight threshold at the equator. -/
theorem equator_facts :
    -- `cosd_add_90`
    (∀ (x : ℝ), cosd (x + 90) = -sind x) ∧
    -- `arccos_anti`
    (∀ (x y : ℝ) (h : x ≤ y), Real.arccos y ≤ Real.arccos x) ∧
    -- `radeg_arccos_cosd`
    (∀ (x : ℝ) (h0 : 0 ≤ x) (h1 : x ≤ 180), RADEG * Real.arccos (cosd x) = x) ∧
    -- `radeg_arccos_bounds`
    -- The inverse cosine in degrees of a value between the cosines of two
    -- angles lies between these angles.
    (∀ (c x y : ℝ) (hx0 : 0 ≤ x) (hx1 : x ≤ 180) (hy0 : 0 ≤ y) (hy1 : y ≤ 180) (h1 : cosd y ≤ c) (h2 : c ≤ cosd x),
      x ≤ RADEG * Real.arccos c ∧ RADEG * Real.arccos c ≤ y) ∧
    -- `sind_6_bounds`
    (0 < sind 6 ∧ sind 6 < 0.105) ∧
    -- `sind_7_5_gt`
    (0.13 < sind (15 / 2)) ∧
    -- `cosd_dec_ge`
    (∀ (dec : ℝ) (h : |dec| ≤ 23.47), 0.91 ≤ cosd dec) ∧
    -- `daylen_civil_equator`
    -- With the civil-twilight threshold at the equator, on the documented
    -- domain, `__daylen__` returns between 12.8 and 13 hours: the length of the day
    -- including civil twilight.
    (∀ (N : ℤ) (lon : ℝ) (hd1 : -73000 ≤ epoch N lon) (hd2 : epoch N lon ≤ 37000),
      ∃ t, __daylen__ N lon 0 (-6) 0 = some t ∧ 12.8 ≤ t ∧ t ≤ 13) := by
  obtain ⟨radeg_mul_degrad, -, -, -, cosd_le_one, -⟩ := trig_facts
  obtain ⟨degrad_pos, degrad_lt, degrad_gt, -, -, -, -, -, -, -, -, -,
      abs_dec_le_obl⟩ := degree_facts
  obtain ⟨-, -, -, solver_locals, -, radeg_pos, -, -, -, -, daylen_of_cost⟩ := solver_facts
  obtain ⟨-, -, -, -, -, -, -, -, cosd_ge_quad, -⟩ := orbit_facts
  obtain ⟨-, ecc_sq_lt_one_of_range, obl_bounds_of_range, -, cosd_obl_ne_zero_of_range,
      -⟩ := domain_facts
  refine and_of_imp ?_ ?_
  · intro x
    unfold sind cosd DEGRAD
    have e : (x + 90) * (Real.pi / 180) = x * (Real.pi / 180) + Real.pi / 2 := by ring
    rw [e, Real.cos_add_pi_div_two]
  intro cosd_add_90
  refine and_of_imp ?_ ?_
  · intro x y h
    rw [Real.arccos_eq_pi_div_two_sub_arcsin, Real.arccos_eq_pi_div_two_sub_arcsin]
    have := Real.monotone_arcsin h
    linarith
  intro arccos_anti
  refine and_of_imp ?_ ?_
  · intro x h0 h1
    unfold cosd
    have hD := degrad_pos
    rw [Real.arccos_cos (by positivity) (by unfold DEGRAD; nlinarith [Real.pi_pos])]
    have := radeg_mul_degrad x
    linarith
  intro radeg_arccos_cosd
  refine and_of_imp ?_ ?_
  · intro c x y hx0 hx1 hy0 hy1 h1 h2
    have hR := radeg_pos
    have a1 := mul_le_mul_of_nonneg_left (arccos_anti _ _ h2) (le_of_lt hR)
    have a2 := mul_le_mul_of_nonneg_left (arccos_anti _ _ h1) (le_of_lt hR)
    rw [radeg_arccos_cosd x hx0 hx1] at a1
    rw [radeg_arccos_cosd y hy0 hy1] at a2
    exact ⟨a1, a2⟩
  intro radeg_arccos_bounds
  refine and_of_imp ?_ ?_
  · unfold sind
    have hD := degrad_lt
    have hD0 := degrad_pos
    have hpos : 0 < 6 * DEGRAD := by linarith
    refine ⟨Real.sin_pos_of_pos_of_lt_pi hpos ?_, ?_⟩
    · have := Real.pi_gt_d2
      linarith
    · have h := Real.sin_lt hpos
      linarith
  intro sind_6_bounds
  refine and_of_imp ?_ ?_
  · unfold sind
    have hD := degrad_lt
    have hD' := degrad_gt
    have hx0 : 0.1308 ≤ 15 / 2 * DEGRAD := by linarith
    have hx1 : 15 / 2 * DEGRAD ≤ 0.13125 := by linarith
    have h := Real.sin_gt_sub_cube (by linarith : 0 < 15 / 2 * DEGRAD) (by linarith)
    have hc : (15 / 2 * DEGRAD) ^ 3 ≤ 0.13125 ^ 3 := pow_le_pow_left₀ (by linarith) hx1 3
    norm_num at hc
    linarith
  intro sind_7_5_gt
  refine and_of_imp ?_ ?_
  · intro dec h
    have h1 := cosd_ge_quad dec
    have hD := degrad_lt
    have hD0 := degrad_pos
    obtain ⟨a1, a2⟩ := abs_le.mp h
    have h3 : |dec * DEGRAD| ≤ 0.411 := by
      rw [abs_le]; constructor <;> nlinarith
    have := sq_le_sq' (abs_le.mp h3).1 (abs_le.mp h3).2
    nlinarith
  intro cosd_dec_ge
  intro N lon hd1 hd2
  have hlat0 : cosd 0 = 1 := by unfold cosd; simp
  have hsin0 : sind 0 = 0 := by unfold sind; simp
  obtain ⟨slon, sr, RA, sdec, a, -, -, -, -, hsin, hcos, habs, -, ha, -, -, hdc⟩ :=
    solver_locals N lon 0 (-6) 0 (ecc_sq_lt_one_of_range _ hd1 hd2)
      (cosd_obl_ne_zero_of_range _ hd1 hd2) (by rw [hlat0]; norm_num)
  have hdl := daylen_of_cost N lon 0 (-6) 0 _ hdc
  rw [if_neg (by norm_num : ¬ ((0 : ℤ) ≠ 0))] at ha
  obtain ⟨ho1, ho2⟩ := obl_bounds_of_range _ hd1 hd2
  have hdec := abs_dec_le_obl sdec _ slon hsin habs (by linarith) (by linarith)
  have hc91 := cosd_dec_ge sdec (by linarith)
  have hc1 := cosd_le_one sdec
  obtain ⟨s1, s2⟩ := sind_6_bounds
  have s3 := sind_7_5_gt
  have hm6 : sind (-6) = -sind 6 := by
    unfold sind; rw [neg_mul, Real.sin_neg]
  have e96 : cosd 96 = -sind 6 := by
    have := cosd_add_90 6
    norm_num at this
    exact this
  have e975 : cosd (195 / 2) = -sind (15 / 2) := by
    have := cosd_add_90 (15 / 2)
    norm_num at this
    exact this
  have hcost : (sind a - sind 0 * sind sdec) / (cosd 0 * cosd sdec) = -sind 6 / cosd sdec := by
    rw [ha, hsin0, hlat0, hm6]; ring
  rw [hcost] at hdl
  have hup : -sind 6 / cosd sdec ≤ cosd 96 := by
    rw [e96, div_le_iff₀ hcos]
    have g := mul_le_mul_of_nonneg_left hc1 (le_of_lt s1)
    linarith only [g]
  have hlo : cosd (195 / 2) ≤ -sind 6 / cosd sdec := by
    rw [e975, le_div_iff₀ hcos]
    have g : 0.13 * 0.91 ≤ sind (15 / 2) * cosd sdec :=
      mul_le_mul (le_of_lt s3) hc91 (by norm_num) (le_trans (by norm_num) (le_of_lt s3))
    norm_num at g
    linarith only [g, s2]
  have hlt1 : -sind 6 / cosd sdec < 1 := by
    rw [div_lt_one hcos]; linarith
  have hgt1 : -1 < -sind 6 / cosd sdec := by
    rw [lt_div_iff₀ hcos]; linarith
  rw [if_neg (not_le.mpr hlt1), if_neg (not_le.mpr hgt1)] at hdl
  obtain ⟨b1, b2⟩ := radeg_arccos_bounds (-sind 6 / cosd sdec) 96 (195 / 2)
    (by norm_num) (by norm_num) (by norm_num) (by norm_num) hlo hup
  refine ⟨_, hdl, ?_, ?_⟩ <;> linarith

/-! ## The branches of the two solvers on a cost that is not a NaN -/

set_option maxHeartbeats 3200000 in
/-- The branches of the two solvers on a cost that is not a NaN. -/
theorem branch_facts :
    -- `cost_trichotomy`
    -- The comparisons of lines 285-288 and 353-356 on an extended cost: outside
    -- both, the cost is a real number strictly between -1 and 1.
    (∀ (c : EReal), (1 ≤ c ∧ ¬ c ≤ -1) ∨ (c ≤ -1 ∧ ¬ 1 ≤ c) ∨
      (¬ 1 ≤ c ∧ ¬ c ≤ -1 ∧ ∃ x : ℝ, c = (x : EReal) ∧ -1 < x ∧ x < 1)) ∧
    -- `daylen_of_ext_cost`
    -- The value of `__daylen__` on a cost that is not a NaN.
    (∀ (N : ℤ) (lon lat altit : ℝ) (upper_limb : ℤ) (c : EReal) (h : daylen_cost N lon lat altit upper_limb = some c),
      __daylen__ N lon lat altit upper_limb = some (if 1 ≤ c then 0 else if c ≤ -1 then 24
      else 2 / 15 * (RADEG * Real.arccos c.toReal))) ∧
    -- `sunriset_of_ext_cost`
    -- The value of `__sunriset__` on a cost that is not a NaN.
    (∀ (N : ℤ) (lon lat altit : ℝ) (upper_limb : ℤ) (ts : ℝ) (c : EReal) (h1 : sunriset_tsouth N lon = some ts) (h2 : sunriset_cost N lon lat altit upper_limb = some c),
      __sunriset__ N lon lat altit upper_limb = some (if 1 ≤ c then (-1, ts, ts)
      else if c ≤ -1 then (1, ts - 12, ts + 12) else (0, ts - RADEG * Real.arccos c.toReal / 15,
      ts + RADEG * Real.arccos c.toReal / 15))) ∧
    -- `sunriset_cost_locals`
    -- A cost of `__sunriset__` that is not a NaN comes from values of
    -- `sun_RA_dec` and of the upper-limb correction, and then `tsouth` has a value
    -- too.
    (∀ (N : ℤ) (lon lat altit : ℝ) (upper_limb : ℤ) (c : EReal) (h : sunriset_cost N lon lat altit upper_limb = some c),
      ∃ sRA sdec sr a, sun_RA_dec (epoch N lon) = some (sRA, sdec, sr) ∧
      limb_altit altit upper_limb sr = some a ∧
      cdiv_ext (sind a - sind lat * sind sdec) (cosd lat * cosd sdec) = some c ∧
      sunriset_tsouth N lon
      = some (12 - rev180 (revolution (GMST0 (epoch N lon) + 180 + lon) - sRA) / 15)) := by
  obtain ⟨-, -, -, -, acosd_of_mem, -, -, -, acosd_dbl_coe, -⟩ := solver_facts
  refine and_of_imp ?_ ?_
  · intro c
    induction c using EReal.rec with
    | h_bot =>
      right; left
      have h : (⊥ : EReal) < ((1 : ℝ) : EReal) := EReal.bot_lt_coe 1
      rw [EReal.coe_one] at h
      exact ⟨bot_le, not_le.mpr h⟩
    | h_top =>
      left
      have h : ((-1 : ℝ) : EReal) < ⊤ := EReal.coe_lt_top _
      rw [EReal.coe_neg, EReal.coe_one] at h
      exact ⟨le_top, not_le.mpr h⟩
    | h_real x =>
      have e1 : ((1 : EReal) ≤ (x : EReal)) ↔ 1 ≤ x := by
        rw [← EReal.coe_one, EReal.coe_le_coe_iff]
      have e2 : ((x : EReal) ≤ -1) ↔ x ≤ -1 := by
        rw [← EReal.coe_one, ← EReal.coe_neg, EReal.coe_le_coe_iff]
      rw [e1, e2]
      by_cases ha : 1 ≤ x
      · left; exact ⟨ha, by linarith⟩
      · by_cases hb : x ≤ -1
        · right; left; exact ⟨hb, ha⟩
        · right; right
          push_neg at ha hb
          exact ⟨not_le.mpr ha, not_le.mpr hb, x, rfl, hb, ha⟩
  intro cost_trichotomy
  refine and_of_imp ?_ ?_
  · intro N lon lat altit upper_limb c h
    unfold __daylen__
    simp only [h, ge_iff_le]
    rcases cost_trichotomy c with ⟨h1, -⟩ | ⟨h1, h2⟩ | ⟨h1, h2, x, hx, hx1, hx2⟩
    · rw [if_pos h1, if_pos h1]
    · rw [if_neg h2, if_pos h1, if_neg h2, if_pos h1]
    · rw [if_neg h1, if_neg h2, if_neg h1, if_neg h2, hx, acosd_dbl_coe, EReal.toReal_coe,
        acosd_of_mem x hx1 hx2]
      rfl
  intro daylen_of_ext_cost
  refine and_of_imp ?_ ?_
  · intro N lon lat altit upper_limb ts c h1 h2
    unfold __sunriset__
    simp only [h1, h2, ge_iff_le, Option.some_bind]
    rcases cost_trichotomy c with ⟨g1, -⟩ | ⟨g1, g2⟩ | ⟨g1, g2, x, hx, hx1, hx2⟩
    · rw [if_pos g1, if_pos g1]
      simp
    · rw [if_neg g2, if_pos g1, if_neg g2, if_pos g1]
      simp
    · rw [if_neg g1, if_neg g2, if_neg g1, if_neg g2, hx, acosd_dbl_coe, EReal.toReal_coe,
        acosd_of_mem x hx1 hx2]
      simp
  intro sunriset_of_ext_cost
  intro N lon lat altit upper_limb c h
  unfold sunriset_cost at h
  dsimp only at h
  cases hrd : sun_RA_dec (epoch N lon) with
  | none =>
    rw [hrd] at h
    exact absurd h (by simp)
  | some p =>
    obtain ⟨sRA, sdec, sr⟩ := p
    rw [hrd] at h
    simp only [Option.some_bind] at h
    cases hl : limb_altit altit upper_limb sr with
    | none =>
      rw [hl] at h
      exact absurd h (by simp)
    | some a =>
      rw [hl] at h
      simp only [Option.some_bind] at h
      refine ⟨sRA, sdec, sr, a, rfl, hl, h, ?_⟩
      unfold sunriset_tsouth
      simp only [hrd, Option.map_some']


/-- C1: for an epoch `d = N + 0.5 - lon / 360` of a date in 1801-2099
(`-73000 ≤ d ≤ 37000`), every longitude, every latitude with `|lat| < 90` and
every threshold `(altit, upper_limb)`: if `__sunriset__` returns 0 with the
times `trise` and `tset`, then `__daylen__` on the same arguments returns
exactly `tset - trise`. -/
theorem C1_daylen_eq_set_sub_rise (N : ℤ) (lon lat altit : ℝ) (upper_limb : ℤ)
    (hd1 : -73000 ≤ epoch N lon) (hd2 : epoch N lon ≤ 37000) (hlat : |lat| < 90)
    (trise tset : ℝ)
    (h : __sunriset__ N lon lat altit upper_limb = some (0, trise, tset)) :
    __daylen__ N lon lat altit upper_limb = some (tset - trise) := by
  obtain ⟨-, -, -, solver_locals, -, -, -, -, -, sunriset_of_locals, daylen_of_cost⟩ := solver_facts
  obtain ⟨-, ecc_sq_lt_one_of_range, -, cosd_pos_of_abs_lt, cosd_obl_ne_zero_of_range,
      -⟩ := domain_facts
  obtain ⟨slon, sr, RA, sdec, a, -, -, -, -, -, -, -, -, -, hts, hc, hdc⟩ :=
    solver_locals N lon lat altit upper_limb (ecc_sq_lt_one_of_range _ hd1 hd2)
      (cosd_obl_ne_zero_of_range _ hd1 hd2) (ne_of_gt (cosd_pos_of_abs_lt lat hlat))
  have hs := sunriset_of_locals N lon lat altit upper_limb _ _ hts hc
  have hdl := daylen_of_cost N lon lat altit upper_limb _ hdc
  rw [hdl]
  rw [hs] at h
  set c := (sind a - sind lat * sind sdec) / (cosd lat * cosd sdec)
  by_cases ha : 1 ≤ c
  · rw [if_pos ha] at h
    have := congrArg (fun o => o.map Prod.fst) h
    simp at this
  · by_cases hb : c ≤ -1
    · rw [if_neg ha, if_pos hb] at h
      have := congrArg (fun o => o.map Prod.fst) h
      simp at this
    · rw [if_neg ha, if_neg hb] at h ⊢
      have h1 := Option.some.inj h
      have h2 : trise = _ := (congrArg (fun q => q.2.1) h1).symm
      have h3 : tset = _ := (congrArg (fun q => q.2.2) h1).symm
      simp only at h2 h3
      rw [h2, h3]
      congr 1
      ring

/-- The hypotheses of C1 hold on 2000-06-21 in New York City with the ordinary
threshold, where the Sun rises and sets. -/
theorem C1_daylen_eq_set_sub_rise_witness :
    -73000 ≤ epoch 173 (-73.9439 : ℝ) ∧ epoch 173 (-73.9439 : ℝ) ≤ 37000 ∧
    |(40.6611 : ℝ)| < 90 ∧
    ∃ trise tset, __sunriset__ 173 (-73.9439) 40.6611 (-35 / 60) 1 = some (0, trise, tset) ∧
      __daylen__ 173 (-73.9439) 40.6611 (-35 / 60) 1 = some (tset - trise) := by
  obtain ⟨-, -, -, -, sunriset_normal_of_midlat⟩ := midlat_facts
  have h1 : -73000 ≤ epoch 173 (-73.9439 : ℝ) := by unfold epoch; norm_num
  have h2 : epoch 173 (-73.9439 : ℝ) ≤ 37000 := by unfold epoch; norm_num
  have h3 : |(40.6611 : ℝ)| < 90 := by rw [abs_lt]; constructor <;> norm_num
  have h4 : |(40.6611 : ℝ)| ≤ 60 := by rw [abs_le]; constructor <;> norm_num
  obtain ⟨trise, tset, h, -⟩ := sunriset_normal_of_midlat 173 (-73.9439) 40.6611 h1 h2 h4
  exact ⟨h1, h2, h3, trise, tset, h,
    C1_daylen_eq_set_sub_rise 173 (-73.9439) 40.6611 (-35 / 60) 1 h1 h2 h3 trise tset h⟩


/-- C5, as stated, fails: on 2000-03-20 at latitude 0, longitude 0,
`__daylen__` with the civil-twilight threshold does not return a value in
`[19/60, 29/60]` hours. -/
theorem C5_equator_twilight_counterexample :
    ¬ ∃ t, __daylen__ 80 0 0 (-6) 0 = some t ∧ 19 / 60 ≤ t ∧ t ≤ 29 / 60 := by
  obtain ⟨-, -, -, -, -, -, -, daylen_civil_equator⟩ := equator_facts
  obtain ⟨t, ht, h1, -⟩ := daylen_civil_equator 80 0 (by unfold epoch; norm_num)
    (by unfold epoch; norm_num)
  rintro ⟨t', ht', -, h2⟩
  rw [ht] at ht'
  have e : t = t' := Option.some.inj ht'
  rw [← e] at h2
  norm_num at h1 h2
  linarith


/-- C5, amended: on 2000-03-20 (day number 80) at latitude 0, longitude 0,
`__daylen__` with the civil-twilight threshold (`altit = -6`,
`upper_limb = 0`) returns the length of the day including civil twilight, a
value in `[12.8, 13]` hours. -/
theorem C5_equator_day_with_twilight :
    ∃ t, __daylen__ 80 0 0 (-6) 0 = some t ∧ 12.8 ≤ t ∧ t ≤ 13 := by
  obtain ⟨-, -, -, -, -, -, -, daylen_civil_equator⟩ := equator_facts
  exact daylen_civil_equator 80 0 (by unfold epoch; norm_num) (by unfold epoch; norm_num)


/-- C6: for every date in 1801-2099 (`-73000 ≤ d ≤ 37000` with
`d = N + 0.5 - lon / 360`), every longitude and every latitude with
`|lat| ≤ 60`, `__sunriset__` with the ordinary threshold (`altit = -35/60`,
`upper_limb = 1`) returns 0 with `*trise < *tset`. -/
theorem C6_midlat_sun_rises_and_sets (N : ℤ) (lon lat : ℝ)
    (hd1 : -73000 ≤ epoch N lon) (hd2 : epoch N lon ≤ 37000) (hlat : |lat| ≤ 60) :
    ∃ trise tset, __sunriset__ N lon lat (-35 / 60) 1 = some (0, trise, tset) ∧ trise < tset := by
  obtain ⟨-, -, -, -, sunriset_normal_of_midlat⟩ := midlat_facts
  exact sunriset_normal_of_midlat N lon lat hd1 hd2 hlat


/-- The New York City scenario: 2000-06-21, latitude 40.6611, longitude
-73.9439. -/
theorem C6_midlat_sun_rises_and_sets_witness :
    -73000 ≤ epoch 173 (-73.9439 : ℝ) ∧ epoch 173 (-73.9439 : ℝ) ≤ 37000 ∧
    |(40.6611 : ℝ)| ≤ 60 ∧
    ∃ trise tset, __sunriset__ 173 (-73.9439) 40.6611 (-35 / 60) 1 = some (0, trise, tset) ∧
      trise < tset := by
  have h1 : -73000 ≤ epoch 173 (-73.9439 : ℝ) := by unfold epoch; norm_num
  have h2 : epoch 173 (-73.9439 : ℝ) ≤ 37000 := by unfold epoch; norm_num
  have h3 : |(40.6611 : ℝ)| ≤ 60 := by rw [abs_le]; constructor <;> norm_num
  exact ⟨h1, h2, h3, C6_midlat_sun_rises_and_sets 173 (-73.9439) 40.6611 h1 h2 h3⟩


/-- C7: on 2000-06-21 (day number 173) at latitude 78, longitude 0,
`__sunriset__` with the ordinary threshold returns +1, with times 24 hours
apart, and `__daylen__` on the same arguments returns 24. -/
theorem C7_midnight_sun :
    ∃ trise tset, __sunriset__ 173 0 78 (-35 / 60) 1 = some (1, trise, tset) ∧
      tset - trise = 24 ∧ __daylen__ 173 0 78 (-35 / 60) 1 = some 24 := by
  obtain ⟨-, -, -, -, -, -, -, -, -, sunriset_of_locals, daylen_of_cost⟩ := solver_facts
  obtain ⟨-, -, -, -, -, -, cost_june_78, -⟩ := polar_facts
  obtain ⟨ts, c, hts, hc, hdc, hle⟩ := cost_june_78
  have hs := sunriset_of_locals 173 0 78 (-35 / 60) 1 ts c hts hc
  have hd := daylen_of_cost 173 0 78 (-35 / 60) 1 c hdc
  have hn : ¬ 1 ≤ c := by linarith
  rw [if_neg hn, if_pos hle] at hs hd
  exact ⟨ts - 12, ts + 12, hs, by ring, hd⟩


/-- C8: on 2000-12-21 (day number 356) at latitude 78, longitude 0,
`__sunriset__` with the ordinary threshold returns -1 with `*trise = *tset`,
and `__daylen__` on the same arguments returns 0. -/
theorem C8_polar_night :
    ∃ trise tset, __sunriset__ 356 0 78 (-35 / 60) 1 = some (-1, trise, tset) ∧
      trise = tset ∧ __daylen__ 356 0 78 (-35 / 60) 1 = some 0 := by
  obtain ⟨-, -, -, -, -, -, -, -, -, sunriset_of_locals, daylen_of_cost⟩ := solver_facts
  obtain ⟨-, -, -, -, -, -, -, cost_december_78, -⟩ := polar_facts
  obtain ⟨ts, c, hts, hc, hdc, hge⟩ := cost_december_78
  have hs := sunriset_of_locals 356 0 78 (-35 / 60) 1 ts c hts hc
  have hd := daylen_of_cost 356 0 78 (-35 / 60) 1 c hdc
  rw [if_pos hge] at hs hd
  exact ⟨ts, ts, hs, rfl, hd⟩

/-! ## Range of the stored longitude and distance -/

set_option maxHeartbeats 3200000 in
/-- Facts about the true anomaly and the stored longitude. -/
theorem lon_facts :
    -- `atan2d_bounds`
    (∀ (y x : ℝ), -180 < atan2d y x ∧ atan2d y x ≤ 180) ∧
    -- `sunpos_lon_spec`
    -- The longitude stored by `sunpos` is `v + w`, less 360 when that is at
    -- least 360, for a true anomaly `v` in `(-180, 180]`.
    (∀ (d : ℝ) (he : sunpos_e d * sunpos_e d < 1), ∃ v r, -180 < v ∧ v ≤ 180 ∧
      sunpos d = some (if v + sunpos_w d ≥ 360 then v + sunpos_w d - 360 else v + sunpos_w d, r) ∧
      r = 1 - sunpos_e d * cosd (sunpos_E d)) ∧
    -- `w_bounds_of_range`
    (∀ (d : ℝ) (h1 : -73000 ≤ d) (h2 : d ≤ 37000), 279 < sunpos_w d ∧ sunpos_w d < 285) ∧
    -- `one_sub_abs_le`
    (∀ (e c : ℝ) (h1 : -1 ≤ c) (h2 : c ≤ 1), 1 - |e| ≤ 1 - e * c ∧ 1 - e * c ≤ 1 + |e|) ∧
    -- `abs_ecc_lt_one_of_range`
    -- On the documented domain the eccentricity is below one in absolute
    -- value.
    (∀ (d : ℝ) (h1 : -73000 ≤ d) (h2 : d ≤ 37000), |sunpos_e d| < 1) := by
  obtain ⟨-, sind_sq_add_cosd_sq, -, -, cosd_le_one, neg_one_le_cosd, -⟩ := trig_facts
  obtain ⟨csqrt_of_nonneg, -, -, -, -, -, -, ecc_mul_cos_lt, orbit_radius_sq, -⟩ := sunpos_facts
  obtain ⟨ecc_bounds_of_range, -⟩ := domain_facts
  refine and_of_imp ?_ ?_
  · intro y x
    unfold atan2d RADEG
    have h1 := Complex.neg_pi_lt_arg ⟨x, y⟩
    have h2 := Complex.arg_le_pi ⟨x, y⟩
    have hpi := Real.pi_pos
    have hR : 0 < 180 / Real.pi := div_pos (by norm_num) hpi
    have e : 180 / Real.pi * Real.pi = 180 := by field_simp
    constructor
    · have := mul_lt_mul_of_pos_left h1 hR
      rw [mul_neg, e] at this
      exact this
    · have := mul_le_mul_of_nonneg_left h2 (le_of_lt hR)
      rw [e] at this
      exact this
  intro atan2d_bounds
  refine and_of_imp ?_ ?_
  · intro d he
    set e := sunpos_e d with he_def
    set E := sunpos_E d with hE_def
    set w := sunpos_w d with hw_def
    set q := Real.sqrt (1 - e * e) with hq_def
    have hq0 : 0 ≤ 1 - e * e := by linarith
    have hqq : q * q = 1 - e * e := Real.mul_self_sqrt hq0
    have hr : 0 < 1 - e * cosd E := by
      have := ecc_mul_cos_lt e (cosd E) he (neg_one_le_cosd E) (cosd_le_one E)
      linarith
    have hsq : (cosd E - e) * (cosd E - e) + q * sind E * (q * sind E) = (1 - e * cosd E) ^ 2 :=
      orbit_radius_sq e (sind E) (cosd E) q hqq (sind_sq_add_cosd_sq E)
    have hsqrt : Real.sqrt ((cosd E - e) * (cosd E - e) + q * sind E * (q * sind E))
        = 1 - e * cosd E := by
      rw [hsq, Real.sqrt_sq (le_of_lt hr)]
    have hpos : 0 < (cosd E - e) * (cosd E - e) + q * sind E * (q * sind E) := by
      rw [hsq]; positivity
    obtain ⟨hv1, hv2⟩ := atan2d_bounds (q * sind E) (cosd E - e)
    refine ⟨atan2d (q * sind E) (cosd E - e), 1 - e * cosd E, hv1, hv2, ?_, rfl⟩
    unfold sunpos
    simp only [← he_def, ← hE_def, ← hw_def]
    rw [csqrt_of_nonneg _ hq0]
    simp only [Option.some_bind, ← hq_def]
    rw [csqrt_of_nonneg _ (le_of_lt hpos), hsqrt]
    simp only [Option.some_bind]
  intro sunpos_lon_spec
  refine and_of_imp ?_ ?_
  · intro d h1 h2
    unfold sunpos_w
    constructor <;> norm_num <;> linarith
  intro w_bounds_of_range
  refine and_of_imp ?_ ?_
  · intro e c h1 h2
    have h : |e * c| ≤ |e| := by
      rw [abs_mul]
      calc |e| * |c| ≤ |e| * 1 :=
            mul_le_mul_of_nonneg_left (abs_le.mpr ⟨h1, h2⟩) (abs_nonneg e)
        _ = |e| := mul_one _
    obtain ⟨a, b⟩ := abs_le.mp h
    constructor <;> linarith
  intro one_sub_abs_le
  intro d h1 h2
  obtain ⟨ha, hb⟩ := ecc_bounds_of_range d h1 h2
  rw [abs_lt]
  constructor <;> linarith


/-- C11: for every epoch `d` of the documented range (`-73000 ≤ d ≤ 37000`),
`sunpos` stores a longitude `*lon` with `0 ≤ *lon < 360`, although it
normalises by a single conditional subtraction of 360. -/
theorem C11_sunpos_lon_range (d : ℝ) (h1 : -73000 ≤ d) (h2 : d ≤ 37000) :
    ∃ lon r, sunpos d = some (lon, r) ∧ 0 ≤ lon ∧ lon < 360 := by
  obtain ⟨-, ecc_sq_lt_one_of_range, -⟩ := domain_facts
  obtain ⟨-, sunpos_lon_spec, w_bounds_of_range, -⟩ := lon_facts
  obtain ⟨v, r, hv1, hv2, hs, -⟩ := sunpos_lon_spec d (ecc_sq_lt_one_of_range d h1 h2)
  obtain ⟨hw1, hw2⟩ := w_bounds_of_range d h1 h2
  refine ⟨_, r, hs, ?_, ?_⟩
  · split_ifs with h
    · linarith
    · linarith
  · split_ifs with h
    · linarith
    · push_neg at h
      exact h


/-- The hypotheses of C11 hold for the epoch 173.5 (2000-06-21, longitude 0). -/
theorem C11_sunpos_lon_range_witness :
    (-73000 : ℝ) ≤ 173.5 ∧ (173.5 : ℝ) ≤ 37000 ∧
    ∃ lon r, sunpos 173.5 = some (lon, r) ∧ 0 ≤ lon ∧ lon < 360 :=
  ⟨by norm_num, by norm_num, C11_sunpos_lon_range 173.5 (by norm_num) (by norm_num)⟩


/-- C15: for every epoch `d` with `|e d| < 1`, the distance `*r` stored by
`sunpos` is `1 - e * cosd E` for the eccentric anomaly `E` of line 384, hence
`1 - |e| ≤ *r ≤ 1 + |e|` and `*r > 0`, and the quotient `0.2666 / *r` of
`__sunriset__` and `__daylen__` has a non-zero divisor: the upper-limb
correction has a value for every threshold. -/
theorem C15_solar_distance_positive (d : ℝ) (he : |sunpos_e d| < 1) :
    ∃ lon r, sunpos d = some (lon, r) ∧
      r = 1 - sunpos_e d * cosd (sunpos_E d) ∧
      1 - |sunpos_e d| ≤ r ∧ r ≤ 1 + |sunpos_e d| ∧ 0 < r ∧
      cdiv 0.2666 r = some (0.2666 / r) ∧
      ∀ (altit : ℝ) (upper_limb : ℤ), ∃ a, limb_altit altit upper_limb r = some a := by
  obtain ⟨-, -, -, -, cosd_le_one, neg_one_le_cosd, -⟩ := trig_facts
  obtain ⟨-, -, cdiv_of_ne, -, -, -, -, -, -, sunpos_spec⟩ := sunpos_facts
  obtain ⟨limb_altit_of_ne, -⟩ := solver_facts
  obtain ⟨-, -, -, one_sub_abs_le, -⟩ := lon_facts
  obtain ⟨ha, hb⟩ := abs_lt.mp he
  have he2 : sunpos_e d * sunpos_e d < 1 := by nlinarith
  obtain ⟨lon, r, hs, hr, hr0, -, -⟩ := sunpos_spec d he2
  obtain ⟨b1, b2⟩ := one_sub_abs_le (sunpos_e d) (cosd (sunpos_E d))
    (neg_one_le_cosd _) (cosd_le_one _)
  rw [← hr] at b1 b2
  exact ⟨lon, r, hs, hr, b1, b2, hr0, cdiv_of_ne _ _ (ne_of_gt hr0),
    fun altit upper_limb => ⟨_, limb_altit_of_ne altit upper_limb r (ne_of_gt hr0)⟩⟩


/-- The hypothesis of C15 holds for the epoch 173.5 (2000-06-21, longitude 0). -/
theorem C15_solar_distance_positive_witness :
    |sunpos_e (173.5 : ℝ)| < 1 ∧
    ∃ lon r, sunpos 173.5 = some (lon, r) ∧
      r = 1 - sunpos_e 173.5 * cosd (sunpos_E 173.5) ∧
      1 - |sunpos_e (173.5 : ℝ)| ≤ r ∧ r ≤ 1 + |sunpos_e (173.5 : ℝ)| ∧ 0 < r ∧
      cdiv 0.2666 r = some (0.2666 / r) ∧
      ∀ (altit : ℝ) (upper_limb : ℤ), ∃ a, limb_altit altit upper_limb r = some a := by
  obtain ⟨-, -, -, -, abs_ecc_lt_one_of_range⟩ := lon_facts
  have h := abs_ecc_lt_one_of_range 173.5 (by norm_num) (by norm_num)
  exact ⟨h, C15_solar_distance_positive 173.5 h⟩

/-! ## Where the inverse cosine is evaluated -/

set_option maxHeartbeats 3200000 in
/-- The solvers with the inverse cosine as a parameter. -/
theorem acosd_facts :
    -- `sunriset_with_congr`
    (∀ (ac : Option EReal → Option ℝ) (N : ℤ) (lon lat altit : ℝ) (upper_limb : ℤ) (hac : ∀ c : ℝ, -1 < c → c < 1 → ac (some (c : EReal)) = acosd_dbl (some (c : EReal))) (hnan : ac none = acosd_dbl none),
      sunriset_with ac N lon lat altit upper_limb = __sunriset__ N lon lat altit upper_limb) ∧
    -- `daylen_with_congr`
    (∀ (ac : Option EReal → Option ℝ) (N : ℤ) (lon lat altit : ℝ) (upper_limb : ℤ) (hac : ∀ c : ℝ, -1 < c → c < 1 → ac (some (c : EReal)) = acosd_dbl (some (c : EReal))) (hnan : ac none = acosd_dbl none),
      daylen_with ac N lon lat altit upper_limb = __daylen__ N lon lat altit upper_limb) ∧
    -- `sunriset_with_const`
    (∀ (ac : Option EReal → Option ℝ) (N : ℤ) (lon lat altit : ℝ) (upper_limb : ℤ) (ts : ℝ) (c : EReal) (h1 : sunriset_tsouth N lon = some ts) (h2 : sunriset_cost N lon lat altit upper_limb = some c) (hc : 1 ≤ c ∨ c ≤ -1),
      sunriset_with ac N lon lat altit upper_limb
      = some (if 1 ≤ c then (-1, ts - 0, ts + 0) else (1, ts - 12, ts + 12))) ∧
    -- `daylen_with_const`
    (∀ (ac : Option EReal → Option ℝ) (N : ℤ) (lon lat altit : ℝ) (upper_limb : ℤ) (c : EReal) (h : daylen_cost N lon lat altit upper_limb = some c) (hc : 1 ≤ c ∨ c ≤ -1),
      daylen_with ac N lon lat altit upper_limb = some (if 1 ≤ c then 0 else 24)) := by
  obtain ⟨cost_trichotomy, -⟩ := branch_facts
  refine and_of_imp ?_ ?_
  · intro ac N lon lat altit upper_limb hac hnan
    unfold sunriset_with __sunriset__
    cases sunriset_cost N lon lat altit upper_limb with
    | none =>
      simp only [hnan]
    | some c =>
      simp only [ge_iff_le]
      rcases cost_trichotomy c with ⟨h1, -⟩ | ⟨h1, h2⟩ | ⟨h1, h2, x, hx, hx1, hx2⟩
      · rw [if_pos h1, if_pos h1]
      · rw [if_neg h2, if_pos h1, if_neg h2, if_pos h1]
      · rw [if_neg h1, if_neg h2, if_neg h1, if_neg h2, hx, hac x hx1 hx2]
  intro sunriset_with_congr
  refine and_of_imp ?_ ?_
  · intro ac N lon lat altit upper_limb hac hnan
    unfold daylen_with __daylen__
    cases daylen_cost N lon lat altit upper_limb with
    | none =>
      simp only [hnan]
    | some c =>
      simp only [ge_iff_le]
      rcases cost_trichotomy c with ⟨h1, -⟩ | ⟨h1, h2⟩ | ⟨h1, h2, x, hx, hx1, hx2⟩
      · rw [if_pos h1, if_pos h1]
      · rw [if_neg h2, if_pos h1, if_neg h2, if_pos h1]
      · rw [if_neg h1, if_neg h2, if_neg h1, if_neg h2, hx, hac x hx1 hx2]
  intro daylen_with_congr
  refine and_of_imp ?_ ?_
  · intro ac N lon lat altit upper_limb ts c h1 h2 hc
    unfold sunriset_with
    simp only [h1, h2, Option.some_bind, ge_iff_le]
    by_cases ha : 1 ≤ c
    · simp [ha]
    · have hb : c ≤ -1 := hc.resolve_left ha
      simp [ha, hb]
  intro sunriset_with_const
  intro ac N lon lat altit upper_limb c h hc
  unfold daylen_with
  simp only [h, ge_iff_le]
  by_cases ha : 1 ≤ c
  · simp [ha]
  · have hb : c ≤ -1 := hc.resolve_left ha
    simp [ha, hb]


/-- C13, as stated, fails: for the day number 900000000 `cost` is a NaN, both
comparisons of lines 353-356 fail and the inverse cosine is applied to the
NaN: an inverse cosine that differs from `acosd` at a NaN only changes what
`__daylen__` returns. -/
theorem C13_acosd_counterexample :
    daylen_cost 900000000 0 0 (-35 / 60) 1 = none ∧
    (∀ c : EReal, (fun x : Option EReal => x.elim (some 0) fun v => acosd_dbl (some v)) (some c)
      = acosd_dbl (some c)) ∧
    daylen_with acosd_dbl 900000000 0 0 (-35 / 60) 1 = none ∧
    daylen_with (fun x : Option EReal => x.elim (some 0) fun v => acosd_dbl (some v))
      900000000 0 0 (-35 / 60) 1 = some (2 / 15 * 0) := by
  obtain ⟨-, -, -, -, -, -, -, sunpos_none_of_ecc, ecc_far_future, -⟩ := domain_facts
  have h : daylen_cost 900000000 0 0 (-35 / 60) 1 = none := by
    unfold daylen_cost
    simp only [sunpos_none_of_ecc _ ecc_far_future, Option.none_bind]
  refine ⟨h, fun c => rfl, ?_, ?_⟩
  · unfold daylen_with
    rw [h]
    rfl
  · unfold daylen_with
    rw [h]
    rfl


/-- C13, amended: in both `__sunriset__` and `__daylen__` the inverse cosine
is evaluated only with an argument `cost` that is strictly between -1 and 1,
where it has a value, or that is a NaN: replacing `acosd` by any function `ac`
that agrees with it on the open interval `(-1, 1)` and at a NaN changes neither
result; and on the branches `cost ≥ 1` and `cost ≤ -1`, infinite costs
included, the result is a constant whatever `ac` is. -/
theorem C13_acosd_inside_domain_or_nan (N : ℤ) (lon lat altit : ℝ) (upper_limb : ℤ)
    (ac : Option EReal → Option ℝ)
    (hac : ∀ c : ℝ, -1 < c → c < 1 → ac (some (c : EReal)) = acosd_dbl (some (c : EReal)))
    (hnan : ac none = acosd_dbl none) :
    __sunriset__ N lon lat altit upper_limb
      = sunriset_with acosd_dbl N lon lat altit upper_limb ∧
    __daylen__ N lon lat altit upper_limb = daylen_with acosd_dbl N lon lat altit upper_limb ∧
    sunriset_with ac N lon lat altit upper_limb = __sunriset__ N lon lat altit upper_limb ∧
    daylen_with ac N lon lat altit upper_limb = __daylen__ N lon lat altit upper_limb ∧
    (∀ c : ℝ, -1 < c → c < 1 → ∃ a, acosd_dbl (some (c : EReal)) = some a) ∧
    (∀ (f : Option EReal → Option ℝ) (ts : ℝ) (c : EReal), sunriset_tsouth N lon = some ts →
      sunriset_cost N lon lat altit upper_limb = some c → (1 ≤ c ∨ c ≤ -1) →
      sunriset_with f N lon lat altit upper_limb
        = some (if 1 ≤ c then (-1, ts - 0, ts + 0) else (1, ts - 12, ts + 12))) ∧
    (∀ (f : Option EReal → Option ℝ) (c : EReal),
      daylen_cost N lon lat altit upper_limb = some c → (1 ≤ c ∨ c ≤ -1) →
      daylen_with f N lon lat altit upper_limb = some (if 1 ≤ c then 0 else 24)) := by
  obtain ⟨-, -, -, -, acosd_of_mem, -, -, -, acosd_dbl_coe, -⟩ := solver_facts
  obtain ⟨sunriset_with_congr, daylen_with_congr, sunriset_with_const,
      daylen_with_const⟩ := acosd_facts
  exact ⟨rfl, rfl, sunriset_with_congr ac N lon lat altit upper_limb hac hnan,
      daylen_with_congr ac N lon lat altit upper_limb hac hnan,
      fun c h1 h2 => ⟨_, (acosd_dbl_coe c).trans (acosd_of_mem c h1 h2)⟩,
      fun f ts c h1 h2 hc => sunriset_with_const f N lon lat altit upper_limb ts c h1 h2 hc,
      fun f c h hc => daylen_with_const f N lon lat altit upper_limb c h hc⟩


/-- An inverse cosine that has no value outside the open interval `(-1, 1)`
agrees with `acosd` on that interval and at a NaN: the hypotheses of C13 at the
midnight-sun input of 2000-06-21, latitude 78. -/
theorem C13_acosd_inside_domain_or_nan_witness :
    (∀ c : ℝ, -1 < c → c < 1 →
      (fun x : Option EReal => x.bind fun v =>
          if -1 < v ∧ v < 1 then acosd_dbl (some v) else none) (some (c : EReal))
        = acosd_dbl (some (c : EReal))) ∧
    (fun x : Option EReal => x.bind fun v =>
        if -1 < v ∧ v < 1 then acosd_dbl (some v) else none) none = acosd_dbl none ∧
    __sunriset__ 173 0 78 (-35 / 60) 1 = sunriset_with acosd_dbl 173 0 78 (-35 / 60) 1 ∧
    __daylen__ 173 0 78 (-35 / 60) 1 = daylen_with acosd_dbl 173 0 78 (-35 / 60) 1 ∧
    sunriset_with (fun x : Option EReal => x.bind fun v =>
        if -1 < v ∧ v < 1 then acosd_dbl (some v) else none) 173 0 78 (-35 / 60) 1
      = __sunriset__ 173 0 78 (-35 / 60) 1 ∧
    daylen_with (fun x : Option EReal => x.bind fun v =>
        if -1 < v ∧ v < 1 then acosd_dbl (some v) else none) 173 0 78 (-35 / 60) 1
      = __daylen__ 173 0 78 (-35 / 60) 1 ∧
    (∀ c : ℝ, -1 < c → c < 1 → ∃ a, acosd_dbl (some (c : EReal)) = some a) ∧
    (∀ (f : Option EReal → Option ℝ) (ts : ℝ) (c : EReal), sunriset_tsouth 173 0 = some ts →
      sunriset_cost 173 0 78 (-35 / 60) 1 = some c → (1 ≤ c ∨ c ≤ -1) →
      sunriset_with f 173 0 78 (-35 / 60) 1
        = some (if 1 ≤ c then (-1, ts - 0, ts + 0) else (1, ts - 12, ts + 12))) ∧
    (∀ (f : Option EReal → Option ℝ) (c : EReal),
      daylen_cost 173 0 78 (-35 / 60) 1 = some c → (1 ≤ c ∨ c ≤ -1) →
      daylen_with f 173 0 78 (-35 / 60) 1 = some (if 1 ≤ c then 0 else 24)) := by
  have h : ∀ c : ℝ, -1 < c → c < 1 →
      (fun x : Option EReal => x.bind fun v =>
          if -1 < v ∧ v < 1 then acosd_dbl (some v) else none) (some (c : EReal))
        = acosd_dbl (some (c : EReal)) := by
    intro c h1 h2
    have e1 : (-1 : EReal) < (c : EReal) := by
      rw [← EReal.coe_one, ← EReal.coe_neg, EReal.coe_lt_coe_iff]; exact h1
    have e2 : (c : EReal) < 1 := by
      rw [← EReal.coe_one, EReal.coe_lt_coe_iff]; exact h2
    simp only [Option.some_bind]
    rw [if_pos ⟨e1, e2⟩]
  exact ⟨h, rfl, C13_acosd_inside_domain_or_nan 173 0 78 (-35 / 60) 1 _ h rfl⟩

/-! ## Enclosures of sine and cosine at concrete angles -/

set_option maxHeartbeats 3200000 in
/-- Enclosures of the sine and cosine by rational numbers. -/
theorem encl_facts :
    -- `degrad_bounds`
    (0.017453 < DEGRAD ∧ DEGRAD < 0.017454) ∧
    -- `radeg_bounds`
    (57.295 < RADEG ∧ RADEG < 57.296) ∧
    -- `sin_poly_mono`
    -- The cubic Taylor polynomial of the sine is increasing on `[-1, 1]`.
    (∀ (a b : ℝ) (h : a ≤ b) (ha : -1 ≤ a) (hb : b ≤ 1), a - a ^ 3 / 6 ≤ b - b ^ 3 / 6) ∧
    -- `sin_encl`
    -- An enclosure of the sine on an interval `[a, b]` inside `[-c, c]`,
    -- `c ≤ 1`.
    (∀ (x a b c : ℝ) (ha : a ≤ x) (hb : x ≤ b) (hc1 : -c ≤ a) (hc2 : b ≤ c) (hc : c ≤ 1),
      a - a ^ 3 / 6 - c ^ 4 * (5 / 96) ≤ Real.sin x ∧
      Real.sin x ≤ b - b ^ 3 / 6 + c ^ 4 * (5 / 96)) ∧
    -- `cos_encl`
    -- An enclosure of the cosine for `c0 ≤ |x| ≤ c ≤ 1`.
    (∀ (x c0 c : ℝ) (h0 : 0 ≤ c0) (h1 : c0 ≤ |x|) (h2 : |x| ≤ c) (hc : c ≤ 1),
      1 - c ^ 2 / 2 - c ^ 4 * (5 / 96) ≤ Real.cos x ∧
      Real.cos x ≤ 1 - c0 ^ 2 / 2 + c ^ 4 * (5 / 96)) ∧
    -- `mul_encl`
    -- Bounds on a product from bounds on its factors: the four corner products
    -- enclose it.
    (∀ (x y a b c d lo hi : ℝ) (hx1 : a ≤ x) (hx2 : x ≤ b) (hy1 : c ≤ y) (hy2 : y ≤ d) (l1 : lo ≤ a * c) (l2 : lo ≤ a * d) (l3 : lo ≤ b * c) (l4 : lo ≤ b * d) (u1 : a * c ≤ hi) (u2 : a * d ≤ hi) (u3 : b * c ≤ hi) (u4 : b * d ≤ hi),
      lo ≤ x * y ∧ x * y ≤ hi) ∧
    -- `sind_add_90`
    (∀ (x : ℝ), sind (x + 90) = cosd x) ∧
    -- `cosd_add_180`
    (∀ (x : ℝ), cosd (x + 180) = -cosd x) ∧
    -- `sind_add_270`
    (∀ (x : ℝ), sind (x + 270) = -cosd x) ∧
    -- `cosd_add_270`
    (∀ (x : ℝ), cosd (x + 270) = sind x) ∧
    -- `sind_encl`
    -- An enclosure of the sine in degrees for an angle between `a` and `b`
    -- radians in absolute measure, inside `[-c, c]` with `c ≤ 1`.
    (∀ (p a b c lo hi : ℝ) (ha : a ≤ p * DEGRAD) (hb : p * DEGRAD ≤ b) (hc1 : -c ≤ a) (hc2 : b ≤ c) (hc : c ≤ 1) (hlo : lo ≤ a - a ^ 3 / 6 - c ^ 4 * (5 / 96)) (hhi : b - b ^ 3 / 6 + c ^ 4 * (5 / 96) ≤ hi),
      lo ≤ sind p ∧ sind p ≤ hi) ∧
    -- `cosd_encl`
    -- An enclosure of the cosine in degrees for an angle of absolute measure
    -- between `c0` and `c` radians, `c ≤ 1`.
    (∀ (p c0 c lo hi : ℝ) (h0 : 0 ≤ c0) (h1 : c0 ≤ |p * DEGRAD|) (h2 : |p * DEGRAD| ≤ c) (hc : c ≤ 1) (hlo : lo ≤ 1 - c ^ 2 / 2 - c ^ 4 * (5 / 96)) (hhi : 1 - c0 ^ 2 / 2 + c ^ 4 * (5 / 96) ≤ hi),
      lo ≤ cosd p ∧ cosd p ≤ hi) := by
  obtain ⟨-, -, -, -, -, -, -, -, -, -, -, sind_add_180, -⟩ := orbit_facts
  obtain ⟨cosd_add_90, -⟩ := equator_facts
  refine and_of_imp ?_ ?_
  · unfold DEGRAD
    have h1 := Real.pi_gt_d6
    have h2 := Real.pi_lt_d6
    constructor <;> linarith
  intro degrad_bounds
  refine and_of_imp ?_ ?_
  · unfold RADEG
    have h1 := Real.pi_gt_d6
    have h2 := Real.pi_lt_d6
    have hpi := Real.pi_pos
    constructor
    · rw [lt_div_iff₀ hpi]; nlinarith
    · rw [div_lt_iff₀ hpi]; nlinarith
  intro radeg_bounds
  refine and_of_imp ?_ ?_
  · intro a b h ha hb
    have h1 : a ^ 2 + a * b + b ^ 2 ≤ 3 := by nlinarith
    have e : (b - b ^ 3 / 6) - (a - a ^ 3 / 6) = (b - a) * (1 - (a ^ 2 + a * b + b ^ 2) / 6) := by
      ring
    have h2 : 0 ≤ (b - a) * (1 - (a ^ 2 + a * b + b ^ 2) / 6) :=
      mul_nonneg (by linarith) (by linarith)
    linarith
  intro sin_poly_mono
  refine and_of_imp ?_ ?_
  · intro x a b c ha hb hc1 hc2 hc
    have hx : |x| ≤ c := abs_le.mpr ⟨by linarith, by linarith⟩
    have hx1 : |x| ≤ 1 := le_trans hx hc
    have hb4 : |x| ^ 4 ≤ c ^ 4 := pow_le_pow_left₀ (abs_nonneg x) hx 4
    obtain ⟨t1, t2⟩ := abs_le.mp (Real.sin_bound hx1)
    have m1 := sin_poly_mono a x ha (by linarith) (by linarith [(abs_le.mp hx1).2])
    have m2 := sin_poly_mono x b hb (by linarith [(abs_le.mp hx1).1]) (by linarith)
    constructor <;> linarith
  intro sin_encl
  refine and_of_imp ?_ ?_
  · intro x c0 c h0 h1 h2 hc
    have hx1 : |x| ≤ 1 := le_trans h2 hc
    have hb4 : |x| ^ 4 ≤ c ^ 4 := pow_le_pow_left₀ (abs_nonneg x) h2 4
    have hb2 : |x| ^ 2 ≤ c ^ 2 := pow_le_pow_left₀ (abs_nonneg x) h2 2
    have hb0 : c0 ^ 2 ≤ |x| ^ 2 := pow_le_pow_left₀ h0 h1 2
    rw [sq_abs] at hb2 hb0
    obtain ⟨t1, t2⟩ := abs_le.mp (Real.cos_bound hx1)
    constructor <;> linarith
  intro cos_encl
  refine and_of_imp ?_ ?_
  · intro x y a b c d lo hi hx1 hx2 hy1 hy2 l1 l2 l3 l4 u1 u2 u3 u4
    rcases le_total 0 y with hy | hy
    · have p1 : a * y ≤ x * y := mul_le_mul_of_nonneg_right hx1 hy
      have p2 : x * y ≤ b * y := mul_le_mul_of_nonneg_right hx2 hy
      rcases le_total 0 a with ha | ha
      · rcases le_total 0 b with hb | hb
        · constructor
          · linarith [mul_le_mul_of_nonneg_left hy1 ha]
          · linarith [mul_le_mul_of_nonneg_left hy2 hb]
        · constructor
          · linarith [mul_le_mul_of_nonneg_left hy1 ha]
          · linarith [mul_le_mul_of_nonpos_left hy1 hb]
      · rcases le_total 0 b with hb | hb
        · constructor
          · linarith [mul_le_mul_of_nonpos_left hy2 ha]
          · linarith [mul_le_mul_of_nonneg_left hy2 hb]
        · constructor
          · linarith [mul_le_mul_of_nonpos_left hy2 ha]
          · linarith [mul_le_mul_of_nonpos_left hy1 hb]
    · have p1 : x * y ≤ a * y := mul_le_mul_of_nonpos_right hx1 hy
      have p2 : b * y ≤ x * y := mul_le_mul_of_nonpos_right hx2 hy
      rcases le_total 0 a with ha | ha
      · rcases le_total 0 b with hb | hb
        · constructor
          · linarith [mul_le_mul_of_nonneg_left hy1 hb]
          · linarith [mul_le_mul_of_nonneg_left hy2 ha]
        · constructor
          · linarith [mul_le_mul_of_nonpos_left hy2 hb]
          · linarith [mul_le_mul_of_nonneg_left hy2 ha]
      · rcases le_total 0 b with hb | hb
        · constructor
          · linarith [mul_le_mul_of_nonneg_left hy1 hb]
          · linarith [mul_le_mul_of_nonpos_left hy1 ha]
        · constructor
          · linarith [mul_le_mul_of_nonpos_left hy2 hb]
          · linarith [mul_le_mul_of_nonpos_left hy1 ha]
  intro mul_encl
  refine and_of_imp ?_ ?_
  · intro x
    unfold sind cosd DEGRAD
    have e : (x + 90) * (Real.pi / 180) = x * (Real.pi / 180) + Real.pi / 2 := by ring
    rw [e, Real.sin_add_pi_div_two]
  intro sind_add_90
  refine and_of_imp ?_ ?_
  · intro x
    unfold cosd DEGRAD
    have e : (x + 180) * (Real.pi / 180) = x * (Real.pi / 180) + Real.pi := by ring
    rw [e, Real.cos_add_pi]
  intro cosd_add_180
  refine and_of_imp ?_ ?_
  · intro x
    have e : x + 270 = (x + 90) + 180 := by ring
    rw [e, sind_add_180, sind_add_90]
  intro sind_add_270
  refine and_of_imp ?_ ?_
  · intro x
    have e : x + 270 = (x + 90) + 180 := by ring
    rw [e, cosd_add_180, cosd_add_90, neg_neg]
  intro cosd_add_270
  refine and_of_imp ?_ ?_
  · intro p a b c lo hi ha hb hc1 hc2 hc hlo hhi
    obtain ⟨h1, h2⟩ := sin_encl (p * DEGRAD) a b c ha hb hc1 hc2 hc
    unfold sind
    constructor <;> linarith
  intro sind_encl
  intro p c0 c lo hi h0 h1 h2 hc hlo hhi
  obtain ⟨t1, t2⟩ := cos_encl (p * DEGRAD) c0 c h0 h1 h2 hc
  unfold cosd
  constructor <;> linarith

set_option maxHeartbeats 3200000 in
/-- Enclosures propagated through the steps of `sunpos`. -/
theorem encl_step_facts :
    -- `sincos_encl`
    -- Enclosures of the sine and the cosine in degrees of an angle `p` whose
    -- radian measure lies in `[a, b]`, inside `[-c, c]` with `c ≤ 1` and outside
    -- `(-c0, c0)`.
    (∀ (p a b c c0 sl sh cl ch : ℝ) (ha : a ≤ p * DEGRAD) (hb : p * DEGRAD ≤ b) (hc1 : -c ≤ a) (hc2 : b ≤ c) (hc : c ≤ 1) (h0 : 0 ≤ c0) (h1 : c0 ≤ a ∨ c0 ≤ -b ∨ c0 ≤ 0) (hsl : sl ≤ a - a ^ 3 / 6 - c ^ 4 * (5 / 96)) (hsh : b - b ^ 3 / 6 + c ^ 4 * (5 / 96) ≤ sh) (hcl : cl ≤ 1 - c ^ 2 / 2 - c ^ 4 * (5 / 96)) (hch : 1 - c0 ^ 2 / 2 + c ^ 4 * (5 / 96) ≤ ch),
      (sl ≤ sind p ∧ sind p ≤ sh) ∧ (cl ≤ cosd p ∧ cosd p ≤ ch)) ∧
    -- `sind_shift_90`
    (∀ (t : ℝ), sind t = cosd (t - 90)) ∧
    -- `cosd_shift_90`
    (∀ (t : ℝ), cosd t = -sind (t - 90)) ∧
    -- `sind_shift_180`
    (∀ (t : ℝ), sind t = -sind (t - 180)) ∧
    -- `cosd_shift_180`
    (∀ (t : ℝ), cosd t = -cosd (t - 180)) ∧
    -- `sind_shift_270`
    (∀ (t : ℝ), sind t = -cosd (t - 270)) ∧
    -- `cosd_shift_270`
    (∀ (t : ℝ), cosd t = sind (t - 270)) ∧
    -- `sqrt_encl`
    (∀ (y lo hi : ℝ) (h0 : 0 ≤ lo) (h1 : lo ^ 2 ≤ y) (h2 : y ≤ hi ^ 2) (h3 : 0 ≤ hi),
      lo ≤ Real.sqrt y ∧ Real.sqrt y ≤ hi) ∧
    -- `add_encl`
    -- Bounds on a sum from bounds on its terms.
    (∀ (x y a b c d lo hi : ℝ) (hx : a ≤ x ∧ x ≤ b) (hy : c ≤ y ∧ y ≤ d) (hn : lo ≤ a + c ∧ b + d ≤ hi),
      lo ≤ x + y ∧ x + y ≤ hi) ∧
    -- `sub_encl`
    -- Bounds on a difference from bounds on its terms.
    (∀ (x y a b c d lo hi : ℝ) (hx : a ≤ x ∧ x ≤ b) (hy : c ≤ y ∧ y ≤ d) (hn : lo ≤ a - d ∧ b - c ≤ hi),
      lo ≤ x - y ∧ x - y ≤ hi) ∧
    -- `neg_encl`
    -- Bounds on an opposite.
    (∀ (x a b lo hi : ℝ) (hx : a ≤ x ∧ x ≤ b) (hn : lo ≤ -b ∧ -a ≤ hi), lo ≤ -x ∧ -x ≤ hi) ∧
    -- `const_encl`
    (∀ (c : ℝ), c ≤ c ∧ c ≤ c) ∧
    -- `mul_encl_of`
    -- The product enclosure `mul_encl` with its numerical side conditions
    -- gathered.
    (∀ (x y a b c d lo hi : ℝ) (hx : a ≤ x ∧ x ≤ b) (hy : c ≤ y ∧ y ≤ d) (hn : (lo ≤ a * c ∧ lo ≤ a * d ∧ lo ≤ b * c ∧ lo ≤ b * d) ∧ (a * c ≤ hi ∧ a * d ≤ hi ∧ b * c ≤ hi ∧ b * d ≤ hi)),
      lo ≤ x * y ∧ x * y ≤ hi) ∧
    -- `sincos_encl_of`
    -- The enclosure `sincos_encl` with its numerical side conditions gathered.
    (∀ (p a b c c0 sl sh cl ch : ℝ) (hx : a ≤ p * DEGRAD ∧ p * DEGRAD ≤ b) (hn : (-c ≤ a ∧ b ≤ c ∧ c ≤ 1 ∧ 0 ≤ c0 ∧ (c0 ≤ a ∨ c0 ≤ -b ∨ c0 ≤ 0)) ∧ (sl ≤ a - a ^ 3 / 6 - c ^ 4 * (5 / 96) ∧ b - b ^ 3 / 6 + c ^ 4 * (5 / 96) ≤ sh ∧ cl ≤ 1 - c ^ 2 / 2 - c ^ 4 * (5 / 96) ∧ 1 - c0 ^ 2 / 2 + c ^ 4 * (5 / 96) ≤ ch)),
      (sl ≤ sind p ∧ sind p ≤ sh) ∧ (cl ≤ cosd p ∧ cosd p ≤ ch)) ∧
    -- `sqrt_encl_of`
    -- The enclosure `sqrt_encl` from an enclosure of the argument.
    (∀ (y a b lo hi : ℝ) (hy : a ≤ y ∧ y ≤ b) (hn : 0 ≤ lo ∧ lo ^ 2 ≤ a ∧ b ≤ hi ^ 2 ∧ 0 ≤ hi),
      lo ≤ Real.sqrt y ∧ Real.sqrt y ≤ hi) ∧
    -- `ecc_offset_eq`
    -- The offset of the eccentric anomaly from the mean anomaly, line 384.
    (∀ (d : ℝ), sunpos_E d - sunpos_M d
      = sunpos_e d * RADEG * (sind (sunpos_M d) * (1 + sunpos_e d * cosd (sunpos_M d)))) ∧
    -- `sind_mean_anomaly`
    (∀ (d : ℝ) (k : ℤ), sind (sunpos_M d) = sind (356.0470 + 0.9856002585 * d - 360 * (k : ℝ))) ∧
    -- `cosd_mean_anomaly`
    (∀ (d : ℝ) (k : ℤ), cosd (sunpos_M d) = cosd (356.0470 + 0.9856002585 * d - 360 * (k : ℝ))) ∧
    -- `ecc_anomaly_shift`
    (∀ (d : ℝ) (k : ℤ), 356.0470 + 0.9856002585 * d - 360 * (k : ℝ) + (sunpos_E d - sunpos_M d)
      = sunpos_E d - 360 * (((k - ⌊(356.0470 + 0.9856002585 * d) * INV360⌋ : ℤ)) : ℝ)) ∧
    -- `sind_ecc_anomaly`
    (∀ (d : ℝ) (k : ℤ), sind (sunpos_E d)
      = sind (356.0470 + 0.9856002585 * d - 360 * (k : ℝ) + (sunpos_E d - sunpos_M d))) ∧
    -- `cosd_ecc_anomaly`
    (∀ (d : ℝ) (k : ℤ), cosd (sunpos_E d)
      = cosd (356.0470 + 0.9856002585 * d - 360 * (k : ℝ) + (sunpos_E d - sunpos_M d))) ∧
    -- `cosd_lon_ne_zero_of_core`
    -- The product of distance and cosine of the true longitude, written with the
    -- mean anomaly and the longitude of perihelion reduced by whole turns.
    (∀ (d lon r : ℝ) (kM kw : ℤ) (hprod : r * cosd lon = (cosd (sunpos_E d) - sunpos_e d) * cosd (sunpos_w d) - Real.sqrt (1 - sunpos_e d * sunpos_e d) * sind (sunpos_E d) * sind (sunpos_w d)) (hcore : (cosd (356.0470 + 0.9856002585 * d - 360 * (kM : ℝ) + sunpos_e d * RADEG * (sind (356.0470 + 0.9856002585 * d - 360 * (kM : ℝ)) * (1 + sunpos_e d * cosd (356.0470 + 0.9856002585 * d - 360 * (kM : ℝ))))) - sunpos_e d) * cosd (sunpos_w d - 360 * (kw : ℝ)) - Real.sqrt (1 - sunpos_e d * sunpos_e d) * (sind (356.0470 + 0.9856002585 * d - 360 * (kM : ℝ) + sunpos_e d * RADEG * (sind (356.0470 + 0.9856002585 * d - 360 * (kM : ℝ)) * (1 + sunpos_e d * cosd (356.0470 + 0.9856002585 * d - 360 * (kM : ℝ))))) * sind (sunpos_w d - 360 * (kw : ℝ))) ≠ 0),
      cosd lon ≠ 0) := by
  obtain ⟨-, -, -, -, -, mul_encl, sind_add_90, cosd_add_180, sind_add_270, cosd_add_270, sind_encl,
      cosd_encl⟩ := encl_facts
  obtain ⟨cosd_add_90, -⟩ := equator_facts
  obtain ⟨-, -, -, -, -, -, -, -, -, -, -, sind_add_180, -⟩ := orbit_facts
  obtain ⟨-, -, -, -, -, -, sind_sub_turns, cosd_sub_turns, sind_revolution, cosd_revolution,
      -⟩ := trig_facts
  obtain ⟨revolution_sub, -⟩ := angle_facts
  refine and_of_imp ?_ ?_
  · intro p a b c c0 sl sh cl ch ha hb hc1 hc2 hc h0 h1 hsl hsh hcl hch
    refine ⟨sind_encl p a b c sl sh ha hb hc1 hc2 hc hsl hsh, ?_⟩
    apply cosd_encl p c0 c cl ch h0 _ _ hc hcl hch
    · rcases h1 with h | h | h
      · exact le_trans (le_trans h ha) (le_abs_self _)
      · exact le_trans (le_trans h (by linarith)) (neg_le_abs _)
      · exact le_trans h (abs_nonneg _)
    · rw [abs_le]
      constructor <;> linarith
  intro sincos_encl
  refine and_of_imp ?_ ?_
  · intro t
    have := sind_add_90 (t - 90)
    rw [sub_add_cancel] at this
    exact this
  intro sind_shift_90
  refine and_of_imp ?_ ?_
  · intro t
    have := cosd_add_90 (t - 90)
    rw [sub_add_cancel] at this
    exact this
  intro cosd_shift_90
  refine and_of_imp ?_ ?_
  · intro t
    have := sind_add_180 (t - 180)
    rw [sub_add_cancel] at this
    exact this
  intro sind_shift_180
  refine and_of_imp ?_ ?_
  · intro t
    have := cosd_add_180 (t - 180)
    rw [sub_add_cancel] at this
    exact this
  intro cosd_shift_180
  refine and_of_imp ?_ ?_
  · intro t
    have := sind_add_270 (t - 270)
    rw [sub_add_cancel] at this
    exact this
  intro sind_shift_270
  refine and_of_imp ?_ ?_
  · intro t
    have := cosd_add_270 (t - 270)
    rw [sub_add_cancel] at this
    exact this
  intro cosd_shift_270
  refine and_of_imp ?_ ?_
  · intro y lo hi h0 h1 h2 h3
    constructor
    · have := Real.sqrt_le_sqrt h1
      rw [Real.sqrt_sq h0] at this
      exact this
    · have := Real.sqrt_le_sqrt h2
      rw [Real.sqrt_sq h3] at this
      exact this
  intro sqrt_encl
  refine and_of_imp ?_ ?_
  · intro x y a b c d lo hi hx hy hn
    constructor <;> linarith [hx.1, hx.2, hy.1, hy.2, hn.1, hn.2]
  intro add_encl
  refine and_of_imp ?_ ?_
  · intro x y a b c d lo hi hx hy hn
    constructor <;> linarith [hx.1, hx.2, hy.1, hy.2, hn.1, hn.2]
  intro sub_encl
  refine and_of_imp ?_ ?_
  · intro x a b lo hi hx hn
    constructor <;> linarith [hx.1, hx.2, hn.1, hn.2]
  intro neg_encl
  refine and_of_imp ?_ ?_
  · intro c
    exact ⟨le_refl c, le_refl c⟩
  intro const_encl
  refine and_of_imp ?_ ?_
  · intro x y a b c d lo hi hx hy hn
    exact mul_encl x y a b c d lo hi hx.1 hx.2 hy.1 hy.2 hn.1.1 hn.1.2.1 hn.1.2.2.1 hn.1.2.2.2
        hn.2.1 hn.2.2.1 hn.2.2.2.1 hn.2.2.2.2
  intro mul_encl_of
  refine and_of_imp ?_ ?_
  · intro p a b c c0 sl sh cl ch hx hn
    exact sincos_encl p a b c c0 sl sh cl ch hx.1 hx.2 hn.1.1 hn.1.2.1 hn.1.2.2.1 hn.1.2.2.2.1
        hn.1.2.2.2.2 hn.2.1 hn.2.2.1 hn.2.2.2.1 hn.2.2.2.2
  intro sincos_encl_of
  refine and_of_imp ?_ ?_
  · intro y a b lo hi hy hn
    exact sqrt_encl y lo hi hn.1 (le_trans hn.2.1 hy.1) (le_trans hy.2 hn.2.2.1) hn.2.2.2
  intro sqrt_encl_of
  refine and_of_imp ?_ ?_
  · intro d
    unfold sunpos_E
    ring
  intro ecc_offset_eq
  refine and_of_imp ?_ ?_
  · intro d k
    unfold sunpos_M
    rw [sind_revolution, sind_sub_turns]
  intro sind_mean_anomaly
  refine and_of_imp ?_ ?_
  · intro d k
    unfold sunpos_M
    rw [cosd_revolution, cosd_sub_turns]
  intro cosd_mean_anomaly
  refine and_of_imp ?_ ?_
  · intro d k
    have h := revolution_sub (356.0470 + 0.9856002585 * d)
    have e : sunpos_M d = revolution (356.0470 + 0.9856002585 * d) := rfl
    rw [← e] at h
    push_cast
    linarith
  intro ecc_anomaly_shift
  refine and_of_imp ?_ ?_
  · intro d k
    rw [ecc_anomaly_shift, sind_sub_turns]
  intro sind_ecc_anomaly
  refine and_of_imp ?_ ?_
  · intro d k
    rw [ecc_anomaly_shift, cosd_sub_turns]
  intro cosd_ecc_anomaly
  intro d lon r kM kw hprod hcore
  rw [← sind_mean_anomaly d kM, ← cosd_mean_anomaly d kM, ← ecc_offset_eq d,
    ← sind_ecc_anomaly d kM, ← cosd_ecc_anomaly d kM, sind_sub_turns, cosd_sub_turns] at hcore
  intro h0
  apply hcore
  rw [h0, mul_zero] at hprod
  linarith

/-! ## The true longitude at the epochs of degenerate obliquity -/

set_option maxHeartbeats 3200000 in
/-- The solar longitude at the four epochs where `cosd obl_ecl` vanishes. -/
theorem degenerate_facts :
    -- `lon_core_obl_90`
    -- The sign of `r * cos lon` for an eccentricity, a mean anomaly and a longitude
    -- of perihelion within the stated bounds (those of the epoch where the obliquity
    -- is 90 degrees).
    (∀ (e M w : ℝ) (he : 0.23172 ≤ e ∧ e ≤ 0.23173) (hM : 110.1925 ≤ M ∧ M ≤ 110.1926) (hw : 125.3644 ≤ w ∧ w ≤ 125.3645),
      (cosd (M + e * RADEG * (sind M * (1 + e * cosd M))) - e) * cosd w - Real.sqrt (1 - e * e)
      * (sind (M + e * RADEG * (sind M * (1 + e * cosd M))) * sind w) ≠ 0) ∧
    -- `cosd_lon_ne_zero_obl_90`
    -- At the epoch where the obliquity is 90 degrees the cosine of the true
    -- longitude of the Sun is non-zero.
    (∀ (d lon r : ℝ) (hobl : obl_ecl d = 90) (hprod : r * cosd lon = (cosd (sunpos_E d) - sunpos_e d) * cosd (sunpos_w d) - Real.sqrt (1 - sunpos_e d * sunpos_e d) * sind (sunpos_E d) * sind (sunpos_w d)),
      cosd lon ≠ 0) ∧
    -- `lon_core_obl_270`
    -- The sign of `r * cos lon` for an eccentricity, a mean anomaly and a longitude
    -- of perihelion within the stated bounds (those of the epoch where the obliquity
    -- is 270 degrees).
    (∀ (e M w : ℝ) (he : 0.8132 ≤ e ∧ e ≤ 0.81321) (hM : 294.3351 ≤ M ∧ M ≤ 294.3352) (hw : 94.093 ≤ w ∧ w ≤ 94.0931),
      (cosd (M + e * RADEG * (sind M * (1 + e * cosd M))) - e) * cosd w - Real.sqrt (1 - e * e)
      * (sind (M + e * RADEG * (sind M * (1 + e * cosd M))) * sind w) ≠ 0) ∧
    -- `cosd_lon_ne_zero_obl_270`
    -- At the epoch where the obliquity is 270 degrees the cosine of the true
    -- longitude of the Sun is non-zero.
    (∀ (d lon r : ℝ) (hobl : obl_ecl d = 270) (hprod : r * cosd lon = (cosd (sunpos_E d) - sunpos_e d) * cosd (sunpos_w d) - Real.sqrt (1 - sunpos_e d * sunpos_e d) * sind (sunpos_E d) * sind (sunpos_w d)),
      cosd lon ≠ 0) ∧
    -- `lon_core_obl_neg_90`
    -- The sign of `r * cos lon` for an eccentricity, a mean anomaly and a longitude
    -- of perihelion within the stated bounds (those of the epoch where the obliquity
    -- is -90 degrees).
    (∀ (e M w : ℝ) (he : (-0.34975) ≤ e ∧ e ≤ (-0.34974)) (hM : 286.0499 ≤ M ∧ M ≤ 286.05) (hw : 156.6358 ≤ w ∧ w ≤ 156.6359),
      (cosd (M + e * RADEG * (sind M * (1 + e * cosd M))) - e) * cosd w - Real.sqrt (1 - e * e)
      * (sind (M + e * RADEG * (sind M * (1 + e * cosd M))) * sind w) ≠ 0) ∧
    -- `cosd_lon_ne_zero_obl_neg_90`
    -- At the epoch where the obliquity is -90 degrees the cosine of the true
    -- longitude of the Sun is non-zero.
    (∀ (d lon r : ℝ) (hobl : obl_ecl d = (-90)) (hprod : r * cosd lon = (cosd (sunpos_E d) - sunpos_e d) * cosd (sunpos_w d) - Real.sqrt (1 - sunpos_e d * sunpos_e d) * sind (sunpos_E d) * sind (sunpos_w d)),
      cosd lon ≠ 0) ∧
    -- `lon_core_obl_neg_270`
    -- The sign of `r * cos lon` for an eccentricity, a mean anomaly and a longitude
    -- of perihelion within the stated bounds (those of the epoch where the obliquity
    -- is -270 degrees).
    (∀ (e M w : ℝ) (he : (-0.93123) ≤ e ∧ e ≤ (-0.93122)) (hM : 101.9073 ≤ M ∧ M ≤ 101.9074) (hw : 187.9072 ≤ w ∧ w ≤ 187.9073),
      (cosd (M + e * RADEG * (sind M * (1 + e * cosd M))) - e) * cosd w - Real.sqrt (1 - e * e)
      * (sind (M + e * RADEG * (sind M * (1 + e * cosd M))) * sind w) ≠ 0) ∧
    -- `cosd_lon_ne_zero_obl_neg_270`
    -- At the epoch where the obliquity is -270 degrees the cosine of the true
    -- longitude of the Sun is non-zero.
    (∀ (d lon r : ℝ) (hobl : obl_ecl d = (-270)) (hprod : r * cosd lon = (cosd (sunpos_E d) - sunpos_e d) * cosd (sunpos_w d) - Real.sqrt (1 - sunpos_e d * sunpos_e d) * sind (sunpos_E d) * sind (sunpos_w d)),
      cosd lon ≠ 0) := by
  obtain ⟨degrad_bounds, radeg_bounds, -⟩ := encl_facts
  obtain ⟨-, sind_shift_90, cosd_shift_90, sind_shift_180, cosd_shift_180, sind_shift_270,
      cosd_shift_270, -, add_encl, sub_encl, neg_encl, const_encl, mul_encl_of, sincos_encl_of,
      sqrt_encl_of, -, -, -, -, -, -, cosd_lon_ne_zero_of_core⟩ := encl_step_facts
  refine and_of_imp ?_ ?_
  · intro e M w he hM hw
    have hD : 0.017453 ≤ DEGRAD ∧ DEGRAD ≤ 0.017454 :=
      ⟨le_of_lt degrad_bounds.1, le_of_lt degrad_bounds.2⟩
    have hR : 57.295 ≤ RADEG ∧ RADEG ≤ 57.296 :=
      ⟨le_of_lt radeg_bounds.1, le_of_lt radeg_bounds.2⟩
    have hp_M := sub_encl M 90 110.1925 110.1926 90 90 20.1925 20.1926
      hM (const_encl _) (by norm_num)
    have hx_M := mul_encl_of (M - 90) DEGRAD
      20.1925 20.1926 0.017453 0.017454 0.35241 0.35245 hp_M hD (by norm_num)
    have ht_M := sincos_encl_of (M - 90) 0.35241 0.35245 0.35245 0.35241
      0.34431 0.34596 0.93708 0.93871 hx_M (by norm_num)
    have hs_M : 0.93708 ≤ sind M ∧ sind M ≤ 0.93871 := by
      rw [sind_shift_90 M]
      exact ht_M.2
    have hc_M : (-0.34596) ≤ cosd M ∧ cosd M ≤ (-0.34431) := by
      rw [cosd_shift_90 M]
      exact neg_encl _ 0.34431 0.34596 (-0.34596) (-0.34431) ht_M.1 (by norm_num)
    have h1 := mul_encl_of e RADEG
      0.23172 0.23173 57.295 57.296 13.27639 13.27721 he hR (by norm_num)
    have h2 := mul_encl_of e (cosd M)
      0.23172 0.23173 (-0.34596) (-0.34431) (-0.08017) (-0.07978) he hc_M (by norm_num)
    have h3 := add_encl 1 (e * cosd M) 1 1 (-0.08017) (-0.07978) 0.91983 0.92022
      (const_encl _) h2 (by norm_num)
    have h4 := mul_encl_of (sind M) (1 + e * cosd M)
      0.93708 0.93871 0.91983 0.92022 0.86195 0.86382 hs_M h3 (by norm_num)
    have h5 := mul_encl_of (e * RADEG) (sind M * (1 + e * cosd M))
      13.27639 13.27721 0.86195 0.86382 11.44358 11.46912 h1 h4 (by norm_num)
    have e5 : e * RADEG * (sind M * (1 + e * cosd M))
        = e * RADEG * sind M * (1 + e * cosd M) := by
      ring
    rw [e5] at h5 ⊢
    generalize e * RADEG * sind M * (1 + e * cosd M) = t at h5 ⊢
    have hE := add_encl M t 110.1925 110.1926 11.44358 11.46912 121.636 121.6618
      hM h5 (by norm_num)
    have hp_E := sub_encl (M + t) 90 121.636 121.6618 90 90 31.636 31.6618
      hE (const_encl _) (by norm_num)
    have hx_E := mul_encl_of (M + t - 90) DEGRAD
      31.636 31.6618 0.017453 0.017454 0.55214 0.55263 hp_E hD (by norm_num)
    have ht_E := sincos_encl_of (M + t - 90) 0.55214 0.55263 0.55263 0.55214
      0.51922 0.52936 0.84244 0.85243 hx_E (by norm_num)
    have hs_E : 0.84244 ≤ sind (M + t) ∧ sind (M + t) ≤ 0.85243 := by
      rw [sind_shift_90 (M + t)]
      exact ht_E.2
    have hc_E : (-0.52936) ≤ cosd (M + t) ∧ cosd (M + t) ≤ (-0.51922) := by
      rw [cosd_shift_90 (M + t)]
      exact neg_encl _ 0.51922 0.52936 (-0.52936) (-0.51922) ht_E.1 (by norm_num)
    have hp_w := sub_encl w 90 125.3644 125.3645 90 90 35.3644 35.3645
      hw (const_encl _) (by norm_num)
    have hx_w := mul_encl_of (w - 90) DEGRAD
      35.3644 35.3645 0.017453 0.017454 0.61721 0.61726 hp_w hD (by norm_num)
    have ht_w := sincos_encl_of (w - 90) 0.61721 0.61726 0.61726 0.61721
      0.57046 0.58563 0.80193 0.81709 hx_w (by norm_num)
    have hs_w : 0.80193 ≤ sind w ∧ sind w ≤ 0.81709 := by
      rw [sind_shift_90 w]
      exact ht_w.2
    have hc_w : (-0.58563) ≤ cosd w ∧ cosd w ≤ (-0.57046) := by
      rw [cosd_shift_90 w]
      exact neg_encl _ 0.57046 0.58563 (-0.58563) (-0.57046) ht_w.1 (by norm_num)
    have h6 := mul_encl_of e e
      0.23172 0.23173 0.23172 0.23173 0.05369 0.0537 he he (by norm_num)
    have hy := sub_encl 1 (e * e) 1 1 0.05369 0.0537 0.9463 0.94631
      (const_encl _) h6 (by norm_num)
    have hq := sqrt_encl_of (1 - e * e) 0.9463 0.94631 0.97276 0.9728
      hy (by norm_num)
    have hX := sub_encl (cosd (M + t)) e (-0.52936) (-0.51922) 0.23172 0.23173 (-0.76109) (-0.75094)
      hc_E he (by norm_num)
    have h7 := mul_encl_of (cosd (M + t) - e) (cosd w)
      (-0.76109) (-0.75094) (-0.58563) (-0.57046) 0.42838 0.44572 hX hc_w (by norm_num)
    have h8 := mul_encl_of (sind (M + t)) (sind w)
      0.84244 0.85243 0.80193 0.81709 0.67557 0.69652 hs_E hs_w (by norm_num)
    have h9 := mul_encl_of (Real.sqrt (1 - e * e)) (sind (M + t) * sind w)
      0.97276 0.9728 0.67557 0.69652 0.65716 0.67758 hq h8 (by norm_num)
    have hF := sub_encl _ _ 0.42838 0.44572 0.65716 0.67758 (-0.2492) (-0.21144)
      h7 h9 (by norm_num)
    exact ne_of_lt (lt_of_le_of_lt hF.2 (by norm_num))
  intro lon_core_obl_90
  refine and_of_imp ?_ ?_
  · intro d lon r hobl hprod
    have hd : d = (23.4393 - 90) / 3.563E-7 := by
      unfold obl_ecl at hobl
      rw [eq_div_iff (by norm_num)]
      linear_combination -hobl
    have he : 0.23172 ≤ sunpos_e d ∧ sunpos_e d ≤ 0.23173 := by
      unfold sunpos_e
      rw [hd]
      norm_num
    have hM : 110.1925 ≤ 356.0470 + 0.9856002585 * d - 360 * (((-511446) : ℤ) : ℝ) ∧
        356.0470 + 0.9856002585 * d - 360 * (((-511446) : ℤ) : ℝ) ≤ 110.1926 := by
      rw [hd]
      norm_num
    have hw : 125.3644 ≤ sunpos_w d - 360 * (((-24) : ℤ) : ℝ) ∧
        sunpos_w d - 360 * (((-24) : ℤ) : ℝ) ≤ 125.3645 := by
      unfold sunpos_w
      rw [hd]
      norm_num
    exact cosd_lon_ne_zero_of_core d lon r (-511446) (-24) hprod (lon_core_obl_90 _ _ _ he hM hw)
  intro cosd_lon_ne_zero_obl_90
  refine and_of_imp ?_ ?_
  · intro e M w he hM hw
    have hD : 0.017453 ≤ DEGRAD ∧ DEGRAD ≤ 0.017454 :=
      ⟨le_of_lt degrad_bounds.1, le_of_lt degrad_bounds.2⟩
    have hR : 57.295 ≤ RADEG ∧ RADEG ≤ 57.296 :=
      ⟨le_of_lt radeg_bounds.1, le_of_lt radeg_bounds.2⟩
    have hp_M := sub_encl M 270 294.3351 294.3352 270 270 24.3351 24.3352
      hM (const_encl _) (by norm_num)
    have hx_M := mul_encl_of (M - 270) DEGRAD
      24.3351 24.3352 0.017453 0.017454 0.42472 0.42475 hp_M hD (by norm_num)
    have ht_M := sincos_encl_of (M - 270) 0.42472 0.42475 0.42475 0.42472
      0.41025 0.41368 0.90809 0.91151 hx_M (by norm_num)
    have hs_M : (-0.91151) ≤ sind M ∧ sind M ≤ (-0.90809) := by
      rw [sind_shift_270 M]
      exact neg_encl _ 0.90809 0.91151 (-0.91151) (-0.90809) ht_M.2 (by norm_num)
    have hc_M : 0.41025 ≤ cosd M ∧ cosd M ≤ 0.41368 := by
      rw [cosd_shift_270 M]
      exact ht_M.1
    have h1 := mul_encl_of e RADEG
      0.8132 0.81321 57.295 57.296 46.59229 46.59369 he hR (by norm_num)
    have h2 := mul_encl_of e (cosd M)
      0.8132 0.81321 0.41025 0.41368 0.33361 0.33641 he hc_M (by norm_num)
    have h3 := add_encl 1 (e * cosd M) 1 1 0.33361 0.33641 1.33361 1.33641
      (const_encl _) h2 (by norm_num)
    have h4 := mul_encl_of (sind M) (1 + e * cosd M)
      (-0.91151) (-0.90809) 1.33361 1.33641 (-1.21816) (-1.21103) hs_M h3 (by norm_num)
    have h5 := mul_encl_of (e * RADEG) (sind M * (1 + e * cosd M))
      46.59229 46.59369 (-1.21816) (-1.21103) (-56.75857) (-56.42466) h1 h4 (by norm_num)
    have e5 : e * RADEG * (sind M * (1 + e * cosd M))
        = e * RADEG * sind M * (1 + e * cosd M) := by
      ring
    rw [e5] at h5 ⊢
    generalize e * RADEG * sind M * (1 + e * cosd M) = t at h5 ⊢
    have hE := add_encl M t 294.3351 294.3352 (-56.75857) (-56.42466) 237.5765 237.9106
      hM h5 (by norm_num)
    have hp_E := sub_encl (M + t) 270 237.5765 237.9106 270 270 (-32.4235) (-32.0894)
      hE (const_encl _) (by norm_num)
    have hx_E := mul_encl_of (M + t - 270) DEGRAD
      (-32.4235) (-32.0894) 0.017453 0.017454 (-0.56592) (-0.56005) hp_E hD (by norm_num)
    have ht_E := sincos_encl_of (M + t - 270) (-0.56592) (-0.56005) 0.56592 0.56005
      (-0.54106) (-0.52543) 0.83452 0.84852 hx_E (by norm_num)
    have hs_E : (-0.84852) ≤ sind (M + t) ∧ sind (M + t) ≤ (-0.83452) := by
      rw [sind_shift_270 (M + t)]
      exact neg_encl _ 0.83452 0.84852 (-0.84852) (-0.83452) ht_E.2 (by norm_num)
    have hc_E : (-0.54106) ≤ cosd (M + t) ∧ cosd (M + t) ≤ (-0.52543) := by
      rw [cosd_shift_270 (M + t)]
      exact ht_E.1
    have hp_w := sub_encl w 90 94.093 94.0931 90 90 4.093 4.0931
      hw (const_encl _) (by norm_num)
    have hx_w := mul_encl_of (w - 90) DEGRAD
      4.093 4.0931 0.017453 0.017454 0.07143 0.07145 hp_w hD (by norm_num)
    have ht_w := sincos_encl_of (w - 90) 0.07143 0.07145 0.07145 0.07143
      0.07136 0.0714 0.99744 0.99746 hx_w (by norm_num)
    have hs_w : 0.99744 ≤ sind w ∧ sind w ≤ 0.99746 := by
      rw [sind_shift_90 w]
      exact ht_w.2
    have hc_w : (-0.0714) ≤ cosd w ∧ cosd w ≤ (-0.07136) := by
      rw [cosd_shift_90 w]
      exact neg_encl _ 0.07136 0.0714 (-0.0714) (-0.07136) ht_w.1 (by norm_num)
    have h6 := mul_encl_of e e
      0.8132 0.81321 0.8132 0.81321 0.66129 0.66132 he he (by norm_num)
    have hy := sub_encl 1 (e * e) 1 1 0.66129 0.66132 0.33868 0.33871
      (const_encl _) h6 (by norm_num)
    have hq := sqrt_encl_of (1 - e * e) 0.33868 0.33871 0.58195 0.582
      hy (by norm_num)
    have hX := sub_encl (cosd (M + t)) e (-0.54106) (-0.52543) 0.8132 0.81321 (-1.35427) (-1.33863)
      hc_E he (by norm_num)
    have h7 := mul_encl_of (cosd (M + t) - e) (cosd w)
      (-1.35427) (-1.33863) (-0.0714) (-0.07136) 0.09552 0.0967 hX hc_w (by norm_num)
    have h8 := mul_encl_of (sind (M + t)) (sind w)
      (-0.84852) (-0.83452) 0.99744 0.99746 (-0.84637) (-0.83238) hs_E hs_w (by norm_num)
    have h9 := mul_encl_of (Real.sqrt (1 - e * e)) (sind (M + t) * sind w)
      0.58195 0.582 (-0.84637) (-0.83238) (-0.49259) (-0.4844) hq h8 (by norm_num)
    have hF := sub_encl _ _ 0.09552 0.0967 (-0.49259) (-0.4844) 0.57992 0.58929
      h7 h9 (by norm_num)
    exact ne_of_gt (lt_of_lt_of_le (by norm_num) hF.1)
  intro lon_core_obl_270
  refine and_of_imp ?_ ?_
  · intro d lon r hobl hprod
    have hd : d = (23.4393 - 270) / 3.563E-7 := by
      unfold obl_ecl at hobl
      rw [eq_div_iff (by norm_num)]
      linear_combination -hobl
    have he : 0.8132 ≤ sunpos_e d ∧ sunpos_e d ≤ 0.81321 := by
      unfold sunpos_e
      rw [hd]
      norm_num
    have hM : 294.3351 ≤ 356.0470 + 0.9856002585 * d - 360 * (((-1894551) : ℤ) : ℝ) ∧
        356.0470 + 0.9856002585 * d - 360 * (((-1894551) : ℤ) : ℝ) ≤ 294.3352 := by
      rw [hd]
      norm_num
    have hw : 94.093 ≤ sunpos_w d - 360 * (((-90) : ℤ) : ℝ) ∧
        sunpos_w d - 360 * (((-90) : ℤ) : ℝ) ≤ 94.0931 := by
      unfold sunpos_w
      rw [hd]
      norm_num
    exact cosd_lon_ne_zero_of_core d lon r (-1894551) (-90) hprod (lon_core_obl_270 _ _ _ he hM hw)
  intro cosd_lon_ne_zero_obl_270
  refine and_of_imp ?_ ?_
  · intro e M w he hM hw
    have hD : 0.017453 ≤ DEGRAD ∧ DEGRAD ≤ 0.017454 :=
      ⟨le_of_lt degrad_bounds.1, le_of_lt degrad_bounds.2⟩
    have hR : 57.295 ≤ RADEG ∧ RADEG ≤ 57.296 :=
      ⟨le_of_lt radeg_bounds.1, le_of_lt radeg_bounds.2⟩
    have hp_M := sub_encl M 270 286.0499 286.05 270 270 16.0499 16.05
      hM (const_encl _) (by norm_num)
    have hx_M := mul_encl_of (M - 270) DEGRAD
      16.0499 16.05 0.017453 0.017454 0.28011 0.28014 hp_M hD (by norm_num)
    have ht_M := sincos_encl_of (M - 270) 0.28011 0.28014 0.28014 0.28011
      0.27612 0.2768 0.96044 0.96109 hx_M (by norm_num)
    have hs_M : (-0.96109) ≤ sind M ∧ sind M ≤ (-0.96044) := by
      rw [sind_shift_270 M]
      exact neg_encl _ 0.96044 0.96109 (-0.96109) (-0.96044) ht_M.2 (by norm_num)
    have hc_M : 0.27612 ≤ cosd M ∧ cosd M ≤ 0.2768 := by
      rw [cosd_shift_270 M]
      exact ht_M.1
    have h1 := mul_encl_of e RADEG
      (-0.34975) (-0.34974) 57.295 57.296 (-20.03928) (-20.03835) he hR (by norm_num)
    have h2 := mul_encl_of e (cosd M)
      (-0.34975) (-0.34974) 0.27612 0.2768 (-0.09682) (-0.09657) he hc_M (by norm_num)
    have h3 := add_encl 1 (e * cosd M) 1 1 (-0.09682) (-0.09657) 0.90318 0.90343
      (const_encl _) h2 (by norm_num)
    have h4 := mul_encl_of (sind M) (1 + e * cosd M)
      (-0.96109) (-0.96044) 0.90318 0.90343 (-0.86828) (-0.86745) hs_M h3 (by norm_num)
    have h5 := mul_encl_of (e * RADEG) (sind M * (1 + e * cosd M))
      (-20.03928) (-20.03835) (-0.86828) (-0.86745) 17.38226 17.39971 h1 h4 (by norm_num)
    have e5 : e * RADEG * (sind M * (1 + e * cosd M))
        = e * RADEG * sind M * (1 + e * cosd M) := by
      ring
    rw [e5] at h5 ⊢
    generalize e * RADEG * sind M * (1 + e * cosd M) = t at h5 ⊢
    have hE := add_encl M t 286.0499 286.05 17.38226 17.39971 303.4321 303.4498
      hM h5 (by norm_num)
    have hp_E := sub_encl (M + t) 270 303.4321 303.4498 270 270 33.4321 33.4498
      hE (const_encl _) (by norm_num)
    have hx_E := mul_encl_of (M + t - 270) DEGRAD
      33.4321 33.4498 0.017453 0.017454 0.58349 0.58384 hp_E hD (by norm_num)
    have ht_E := sincos_encl_of (M + t - 270) 0.58349 0.58384 0.58384 0.58349
      0.54432 0.55673 0.82351 0.83583 hx_E (by norm_num)
    have hs_E : (-0.83583) ≤ sind (M + t) ∧ sind (M + t) ≤ (-0.82351) := by
      rw [sind_shift_270 (M + t)]
      exact neg_encl _ 0.82351 0.83583 (-0.83583) (-0.82351) ht_E.2 (by norm_num)
    have hc_E : 0.54432 ≤ cosd (M + t) ∧ cosd (M + t) ≤ 0.55673 := by
      rw [cosd_shift_270 (M + t)]
      exact ht_E.1
    have hp_w := sub_encl w 180 156.6358 156.6359 180 180 (-23.3642) (-23.3641)
      hw (const_encl _) (by norm_num)
    have hx_w := mul_encl_of (w - 180) DEGRAD
      (-23.3642) (-23.3641) 0.017453 0.017454 (-0.4078) (-0.40777) hp_w hD (by norm_num)
    have ht_w := sincos_encl_of (w - 180) (-0.4078) (-0.40777) 0.4078 0.40777
      (-0.39794) (-0.39502) 0.9154 0.91831 hx_w (by norm_num)
    have hs_w : 0.39502 ≤ sind w ∧ sind w ≤ 0.39794 := by
      rw [sind_shift_180 w]
      exact neg_encl _ (-0.39794) (-0.39502) 0.39502 0.39794 ht_w.1 (by norm_num)
    have hc_w : (-0.91831) ≤ cosd w ∧ cosd w ≤ (-0.9154) := by
      rw [cosd_shift_180 w]
      exact neg_encl _ 0.9154 0.91831 (-0.91831) (-0.9154) ht_w.2 (by norm_num)
    have h6 := mul_encl_of e e
      (-0.34975) (-0.34974) (-0.34975) (-0.34974) 0.12231 0.12233 he he (by norm_num)
    have hy := sub_encl 1 (e * e) 1 1 0.12231 0.12233 0.87767 0.87769
      (const_encl _) h6 (by norm_num)
    have hq := sqrt_encl_of (1 - e * e) 0.87767 0.87769 0.93683 0.93687
      hy (by norm_num)
    have hX := sub_encl (cosd (M + t)) e 0.54432 0.55673 (-0.34975) (-0.34974) 0.89406 0.90648
      hc_E he (by norm_num)
    have h7 := mul_encl_of (cosd (M + t) - e) (cosd w)
      0.89406 0.90648 (-0.91831) (-0.9154) (-0.83243) (-0.81842) hX hc_w (by norm_num)
    have h8 := mul_encl_of (sind (M + t)) (sind w)
      (-0.83583) (-0.82351) 0.39502 0.39794 (-0.33262) (-0.3253) hs_E hs_w (by norm_num)
    have h9 := mul_encl_of (Real.sqrt (1 - e * e)) (sind (M + t) * sind w)
      0.93683 0.93687 (-0.33262) (-0.3253) (-0.31163) (-0.30475) hq h8 (by norm_num)
    have hF := sub_encl _ _ (-0.83243) (-0.81842) (-0.31163) (-0.30475) (-0.52768) (-0.50679)
      h7 h9 (by norm_num)
    exact ne_of_lt (lt_of_le_of_lt hF.2 (by norm_num))
  intro lon_core_obl_neg_90
  refine and_of_imp ?_ ?_
  · intro d lon r hobl hprod
    have hd : d = (23.4393 - (-90)) / 3.563E-7 := by
      unfold obl_ecl at hobl
      rw [eq_div_iff (by norm_num)]
      linear_combination -hobl
    have he : (-0.34975) ≤ sunpos_e d ∧ sunpos_e d ≤ (-0.34974) := by
      unfold sunpos_e
      rw [hd]
      norm_num
    have hM : 286.0499 ≤ 356.0470 + 0.9856002585 * d - 360 * ((871658 : ℤ) : ℝ) ∧
        356.0470 + 0.9856002585 * d - 360 * ((871658 : ℤ) : ℝ) ≤ 286.05 := by
      rw [hd]
      norm_num
    have hw : 156.6358 ≤ sunpos_w d - 360 * ((42 : ℤ) : ℝ) ∧
        sunpos_w d - 360 * ((42 : ℤ) : ℝ) ≤ 156.6359 := by
      unfold sunpos_w
      rw [hd]
      norm_num
    exact cosd_lon_ne_zero_of_core d lon r 871658 42 hprod (lon_core_obl_neg_90 _ _ _ he hM hw)
  intro cosd_lon_ne_zero_obl_neg_90
  refine and_of_imp ?_ ?_
  · intro e M w he hM hw
    have hD : 0.017453 ≤ DEGRAD ∧ DEGRAD ≤ 0.017454 :=
      ⟨le_of_lt degrad_bounds.1, le_of_lt degrad_bounds.2⟩
    have hR : 57.295 ≤ RADEG ∧ RADEG ≤ 57.296 :=
      ⟨le_of_lt radeg_bounds.1, le_of_lt radeg_bounds.2⟩
    have hp_M := sub_encl M 90 101.9073 101.9074 90 90 11.9073 11.9074
      hM (const_encl _) (by norm_num)
    have hx_M := mul_encl_of (M - 90) DEGRAD
      11.9073 11.9074 0.017453 0.017454 0.20781 0.20784 hp_M hD (by norm_num)
    have ht_M := sincos_encl_of (M - 90) 0.20781 0.20784 0.20784 0.20781
      0.20621 0.20645 0.9783 0.97851 hx_M (by norm_num)
    have hs_M : 0.9783 ≤ sind M ∧ sind M ≤ 0.97851 := by
      rw [sind_shift_90 M]
      exact ht_M.2
    have hc_M : (-0.20645) ≤ cosd M ∧ cosd M ≤ (-0.20621) := by
      rw [cosd_shift_90 M]
      exact neg_encl _ 0.20621 0.20645 (-0.20645) (-0.20621) ht_M.1 (by norm_num)
    have h1 := mul_encl_of e RADEG
      (-0.93123) (-0.93122) 57.295 57.296 (-53.35576) (-53.35424) he hR (by norm_num)
    have h2 := mul_encl_of e (cosd M)
      (-0.93123) (-0.93122) (-0.20645) (-0.20621) 0.19202 0.19226 he hc_M (by norm_num)
    have h3 := add_encl 1 (e * cosd M) 1 1 0.19202 0.19226 1.19202 1.19226
      (const_encl _) h2 (by norm_num)
    have h4 := mul_encl_of (sind M) (1 + e * cosd M)
      0.9783 0.97851 1.19202 1.19226 1.16615 1.16664 hs_M h3 (by norm_num)
    have h5 := mul_encl_of (e * RADEG) (sind M * (1 + e * cosd M))
      (-53.35576) (-53.35424) 1.16615 1.16664 (-62.24697) (-62.21904) h1 h4 (by norm_num)
    have e5 : e * RADEG * (sind M * (1 + e * cosd M))
        = e * RADEG * sind M * (1 + e * cosd M) := by
      ring
    rw [e5] at h5 ⊢
    generalize e * RADEG * sind M * (1 + e * cosd M) = t at h5 ⊢
    have hE := add_encl M t 101.9073 101.9074 (-62.24697) (-62.21904) 39.6603 39.6884
      hM h5 (by norm_num)
    have hx_E := mul_encl_of (M + t) DEGRAD
      39.6603 39.6884 0.017453 0.017454 0.69219 0.69273 hE hD (by norm_num)
    have ht_E := sincos_encl_of (M + t) 0.69219 0.69273 0.69273 0.69219
      0.62492 0.64932 0.74806 0.77244 hx_E (by norm_num)
    have hs_E : 0.62492 ≤ sind (M + t) ∧ sind (M + t) ≤ 0.64932 := ht_E.1
    have hc_E : 0.74806 ≤ cosd (M + t) ∧ cosd (M + t) ≤ 0.77244 := ht_E.2
    have hp_w := sub_encl w 180 187.9072 187.9073 180 180 7.9072 7.9073
      hw (const_encl _) (by norm_num)
    have hx_w := mul_encl_of (w - 180) DEGRAD
      7.9072 7.9073 0.017453 0.017454 0.138 0.13802 hp_w hD (by norm_num)
    have ht_w := sincos_encl_of (w - 180) 0.138 0.13802 0.13802 0.138
      0.13754 0.13761 0.99045 0.9905 hx_w (by norm_num)
    have hs_w : (-0.13761) ≤ sind w ∧ sind w ≤ (-0.13754) := by
      rw [sind_shift_180 w]
      exact neg_encl _ 0.13754 0.13761 (-0.13761) (-0.13754) ht_w.1 (by norm_num)
    have hc_w : (-0.9905) ≤ cosd w ∧ cosd w ≤ (-0.99045) := by
      rw [cosd_shift_180 w]
      exact neg_encl _ 0.99045 0.9905 (-0.9905) (-0.99045) ht_w.2 (by norm_num)
    have h6 := mul_encl_of e e
      (-0.93123) (-0.93122) (-0.93123) (-0.93122) 0.86717 0.86719 he he (by norm_num)
    have hy := sub_encl 1 (e * e) 1 1 0.86717 0.86719 0.13281 0.13283
      (const_encl _) h6 (by norm_num)
    have hq := sqrt_encl_of (1 - e * e) 0.13281 0.13283 0.36442 0.36447
      hy (by norm_num)
    have hX := sub_encl (cosd (M + t)) e 0.74806 0.77244 (-0.93123) (-0.93122) 1.67928 1.70367
      hc_E he (by norm_num)
    have h7 := mul_encl_of (cosd (M + t) - e) (cosd w)
      1.67928 1.70367 (-0.9905) (-0.99045) (-1.68749) (-1.66324) hX hc_w (by norm_num)
    have h8 := mul_encl_of (sind (M + t)) (sind w)
      0.62492 0.64932 (-0.13761) (-0.13754) (-0.08936) (-0.08595) hs_E hs_w (by norm_num)
    have h9 := mul_encl_of (Real.sqrt (1 - e * e)) (sind (M + t) * sind w)
      0.36442 0.36447 (-0.08936) (-0.08595) (-0.03257) (-0.03132) hq h8 (by norm_num)
    have hF := sub_encl _ _ (-1.68749) (-1.66324) (-0.03257) (-0.03132) (-1.65617) (-1.63067)
      h7 h9 (by norm_num)
    exact ne_of_lt (lt_of_le_of_lt hF.2 (by norm_num))
  intro lon_core_obl_neg_270
  intro d lon r hobl hprod
  have hd : d = (23.4393 - (-270)) / 3.563E-7 := by
    unfold obl_ecl at hobl
    rw [eq_div_iff (by norm_num)]
    linear_combination -hobl
  have he : (-0.93123) ≤ sunpos_e d ∧ sunpos_e d ≤ (-0.93122) := by
    unfold sunpos_e
    rw [hd]
    norm_num
  have hM : 101.9073 ≤ 356.0470 + 0.9856002585 * d - 360 * ((2254763 : ℤ) : ℝ) ∧
      356.0470 + 0.9856002585 * d - 360 * ((2254763 : ℤ) : ℝ) ≤ 101.9074 := by
    rw [hd]
    norm_num
  have hw : 187.9072 ≤ sunpos_w d - 360 * ((108 : ℤ) : ℝ) ∧
      sunpos_w d - 360 * ((108 : ℤ) : ℝ) ≤ 187.9073 := by
    unfold sunpos_w
    rw [hd]
    norm_num
  exact cosd_lon_ne_zero_of_core d lon r 2254763 108 hprod (lon_core_obl_neg_270 _ _ _ he hM hw)

/-! ## The declination is never a right angle -/

set_option maxHeartbeats 3200000 in
/-- Facts showing that `cos_sdecl` does not vanish. -/
theorem declination_facts :
    -- `ecc_sq_le_of_sunpos`
    (∀ (d : ℝ) (p : ℝ × ℝ) (h : sunpos d = some p), sunpos_e d * sunpos_e d ≤ 1) ∧
    -- `cosd_eq_zero_imp`
    (∀ (x : ℝ) (h : cosd x = 0), ∃ k : ℤ, x = 90 * (2 * (k : ℝ) + 1)) ∧
    -- `sq_lt_one_of_cosd_ne_zero`
    (∀ (x : ℝ) (h : cosd x ≠ 0), sind x * sind x < 1) ∧
    -- `mul_sq_lt_one`
    (∀ (a b : ℝ) (ha : a * a ≤ 1) (hb : b * b < 1), a * b * (a * b) < 1) ∧
    -- `sind_sq_le_one`
    (∀ (x : ℝ), sind x * sind x ≤ 1) ∧
    -- `sin_sdecl_sq_lt_one`
    -- Whenever `sunpos` has a value, the sine of the declination is strictly
    -- between -1 and 1: the divisor `cos_sdecl` of line 352 is positive.
    (∀ (d slon sr : ℝ) (h : sunpos d = some (slon, sr)),
      sind (obl_ecl d) * sind slon * (sind (obl_ecl d) * sind slon) < 1) := by
  obtain ⟨-, -, -, -, -, -, -, sunpos_none_of_ecc, -⟩ := domain_facts
  obtain ⟨-, sind_sq_add_cosd_sq, -⟩ := trig_facts
  obtain ⟨-, -, -, -, -, -, -, -, -, sunpos_spec⟩ := sunpos_facts
  obtain ⟨-, cosd_lon_ne_zero_obl_90, -, cosd_lon_ne_zero_obl_270, -, cosd_lon_ne_zero_obl_neg_90,
      -, cosd_lon_ne_zero_obl_neg_270⟩ := degenerate_facts
  refine and_of_imp ?_ ?_
  · intro d p h
    by_contra hc
    push_neg at hc
    rw [sunpos_none_of_ecc d hc] at h
    exact Option.noConfusion h
  intro ecc_sq_le_of_sunpos
  refine and_of_imp ?_ ?_
  · intro x h
    unfold cosd DEGRAD at h
    obtain ⟨k, hk⟩ := Real.cos_eq_zero_iff.mp h
    refine ⟨k, ?_⟩
    have hpi := Real.pi_pos
    have e : (x - 90 * (2 * (k : ℝ) + 1)) * Real.pi = 0 := by
      have : x * (Real.pi / 180) * 180 = (2 * (k : ℝ) + 1) * Real.pi / 2 * 180 := by rw [hk]
      nlinarith
    rcases mul_eq_zero.mp e with h1 | h1
    · linarith
    · exact absurd h1 (ne_of_gt hpi)
  intro cosd_eq_zero_imp
  refine and_of_imp ?_ ?_
  · intro x h
    have h1 := sind_sq_add_cosd_sq x
    have h2 : 0 < cosd x * cosd x := mul_self_pos.mpr h
    linarith
  intro sq_lt_one_of_cosd_ne_zero
  refine and_of_imp ?_ ?_
  · intro a b ha hb
    have e : a * b * (a * b) = a * a * (b * b) := by ring
    rw [e]
    nlinarith [mul_self_nonneg a, mul_self_nonneg b]
  intro mul_sq_lt_one
  refine and_of_imp ?_ ?_
  · intro x
    have h1 := sind_sq_add_cosd_sq x
    nlinarith [mul_self_nonneg (cosd x)]
  intro sind_sq_le_one
  intro d slon sr h
  by_cases hc : cosd (obl_ecl d) = 0
  · have he := ecc_sq_le_of_sunpos d _ h
    have he1 : -1 ≤ sunpos_e d := by nlinarith
    have he2 : sunpos_e d ≤ 1 := by nlinarith
    obtain ⟨k, hk⟩ := cosd_eq_zero_imp _ hc
    have hk1 : (k : ℝ) < 2 := by
      unfold sunpos_e at he1 he2
      unfold obl_ecl at hk
      linarith
    have hk2 : (-3 : ℝ) < (k : ℝ) := by
      unfold sunpos_e at he1 he2
      unfold obl_ecl at hk
      linarith
    have hk3 : k < 2 := by exact_mod_cast hk1
    have hk4 : -3 < k := by exact_mod_cast hk2
    have hk5 : (-2 : ℝ) ≤ (k : ℝ) := by exact_mod_cast (by omega : -2 ≤ k)
    have hk6 : (k : ℝ) ≤ 1 := by exact_mod_cast (by omega : k ≤ 1)
    have hlt : sunpos_e d * sunpos_e d < 1 := by
      have a1 : -0.94 < sunpos_e d := by
        unfold sunpos_e
        unfold obl_ecl at hk
        linarith
      have a2 : sunpos_e d < 0.82 := by
        unfold sunpos_e
        unfold obl_ecl at hk
        linarith
      nlinarith
    obtain ⟨lon', r', hs, -, -, -, hcos⟩ := sunpos_spec d hlt
    rw [h] at hs
    have e1 : slon = lon' := congrArg Prod.fst (Option.some.inj hs)
    rw [← e1] at hcos
    have hne : cosd slon ≠ 0 := by
      interval_cases k
      · exact cosd_lon_ne_zero_obl_neg_270 d slon r' (by rw [hk]; norm_num) hcos
      · exact cosd_lon_ne_zero_obl_neg_90 d slon r' (by rw [hk]; norm_num) hcos
      · exact cosd_lon_ne_zero_obl_90 d slon r' (by rw [hk]; norm_num) hcos
      · exact cosd_lon_ne_zero_obl_270 d slon r' (by rw [hk]; norm_num) hcos
    exact mul_sq_lt_one _ _ (sind_sq_le_one _) (sq_lt_one_of_cosd_ne_zero _ hne)
  · have e : sind (obl_ecl d) * sind slon * (sind (obl_ecl d) * sind slon)
        = sind slon * sind (obl_ecl d) * (sind slon * sind (obl_ecl d)) := by ring
    rw [e]
    exact mul_sq_lt_one _ _ (sind_sq_le_one _) (sq_lt_one_of_cosd_ne_zero _ hc)


/-! ## Day length as a function of the latitude -/

set_option maxHeartbeats 3200000 in
/-- Facts about `cost` and the day length as functions of the latitude. -/
theorem latitude_facts :
    -- `daylen_cost_of_locals`
    -- The cost of `__daylen__` from the locals of `sunpos` and the upper-limb
    -- correction, at a latitude of non-zero cosine.
    (∀ (N : ℤ) (lon lat altit : ℝ) (upper_limb : ℤ) (slon sr a : ℝ) (hpos : sunpos (epoch N lon) = some (slon, sr)) (ha : limb_altit altit upper_limb sr = some a) (hlat : cosd lat ≠ 0),
      daylen_cost N lon lat altit upper_limb
      = some (((sind a - sind lat * (sind (obl_ecl (epoch N lon)) * sind slon))
      / (cosd lat * Real.sqrt (1 - sind (obl_ecl (epoch N lon)) * sind slon
      * (sind (obl_ecl (epoch N lon)) * sind slon))) : ℝ) : EReal)) ∧
    -- `radeg_mul_pi`
    (RADEG * Real.pi = 180) ∧
    -- `daylen_eq_arccos`
    -- The value of `__daylen__` is `(2/15) * acos cost` in degrees on all three
    -- branches, the inverse cosine being that of the reals, constant outside
    -- `[-1, 1]`.
    (∀ (N : ℤ) (lon lat altit : ℝ) (upper_limb : ℤ) (c : ℝ) (h : daylen_cost N lon lat altit upper_limb = some (c : EReal)),
      __daylen__ N lon lat altit upper_limb = some (2 / 15 * (RADEG * Real.arccos c))) ∧
    -- `sind_sub`
    (∀ (x y : ℝ), sind (x - y) = sind x * cosd y - cosd x * sind y) ∧
    -- `cost_antitone`
    -- The quotient `cost` does not increase from latitude `L1` to latitude `L2`
    -- when the threshold has a non-positive sine, the cosine of the latitude does not
    -- increase and `s * sin (L2 - L1)` is non-negative.
    (∀ (A s c L1 L2 : ℝ) (hA : A ≤ 0) (hc : 0 < c) (h1 : 0 < cosd L1) (h2 : 0 < cosd L2) (hcos : cosd L2 ≤ cosd L1) (hs : 0 ≤ s * sind (L2 - L1)),
      (A - sind L2 * s) / (cosd L2 * c) ≤ (A - sind L1 * s) / (cosd L1 * c)) ∧
    -- `sind_nonpos_of_mem`
    (∀ (a : ℝ) (h1 : -90 ≤ a) (h2 : a ≤ 0), sind a ≤ 0) ∧
    -- `sind_nonneg_of_mem`
    (∀ (a : ℝ) (h1 : 0 ≤ a) (h2 : a ≤ 90), 0 ≤ sind a) ∧
    -- `cosd_antitone`
    (∀ (x y : ℝ) (h0 : 0 ≤ x) (h1 : x ≤ y) (h2 : y ≤ 90), cosd y ≤ cosd x) ∧
    -- `daylen_le_of_cost`
    -- Day length does not decrease from `L1` to `L2` under the hypotheses of
    -- `cost_antitone`.
    (∀ (N : ℤ) (lon altit : ℝ) (upper_limb : ℤ) (slon sr a L1 L2 : ℝ) (hpos : sunpos (epoch N lon) = some (slon, sr)) (ha : limb_altit altit upper_limb sr = some a) (ha1 : -90 ≤ a) (ha2 : a ≤ 0) (h1 : 0 < cosd L1) (h2 : 0 < cosd L2) (hcos : cosd L2 ≤ cosd L1) (hs : 0 ≤ sind (obl_ecl (epoch N lon)) * sind slon * sind (L2 - L1)),
      ∃ t1 t2, __daylen__ N lon L1 altit upper_limb = some t1 ∧
      __daylen__ N lon L2 altit upper_limb = some t2 ∧ t1 ≤ t2) := by
  obtain ⟨csqrt_of_nonneg, -, -, cdiv_ext_of_ne, -⟩ := sunpos_facts
  obtain ⟨-, -, -, -, -, sin_sdecl_sq_lt_one⟩ := declination_facts
  obtain ⟨-, -, -, -, -, radeg_pos, -, -, -, -, daylen_of_cost⟩ := solver_facts
  obtain ⟨-, arccos_anti, -⟩ := equator_facts
  refine and_of_imp ?_ ?_
  · intro N lon lat altit upper_limb slon sr a hpos ha hlat
    have hlt := sin_sdecl_sq_lt_one _ slon sr hpos
    have hq : 0 < Real.sqrt (1 - sind (obl_ecl (epoch N lon)) * sind slon
        * (sind (obl_ecl (epoch N lon)) * sind slon)) := Real.sqrt_pos.mpr (by linarith)
    unfold daylen_cost
    simp only [hpos, Option.some_bind]
    rw [csqrt_of_nonneg _ (by linarith)]
    simp only [Option.some_bind, ha]
    rw [cdiv_ext_of_ne _ _ (mul_ne_zero hlat (ne_of_gt hq))]
  intro daylen_cost_of_locals
  refine and_of_imp ?_ ?_
  · unfold RADEG
    have := Real.pi_pos
    field_simp
  intro radeg_mul_pi
  refine and_of_imp ?_ ?_
  · intro N lon lat altit upper_limb c h
    rw [daylen_of_cost N lon lat altit upper_limb c h]
    by_cases ha : 1 ≤ c
    · rw [if_pos ha, Real.arccos_of_one_le ha]
      norm_num
    · by_cases hb : c ≤ -1
      · rw [if_neg ha, if_pos hb, Real.arccos_of_le_neg_one hb, radeg_mul_pi]
        norm_num
      · rw [if_neg ha, if_neg hb]
  intro daylen_eq_arccos
  refine and_of_imp ?_ ?_
  · intro x y
    unfold sind cosd
    rw [sub_mul, Real.sin_sub]
  intro sind_sub
  refine and_of_imp ?_ ?_
  · intro A s c L1 L2 hA hc h1 h2 hcos hs
    rw [div_le_div_iff₀ (mul_pos h2 hc) (mul_pos h1 hc)]
    rw [sind_sub] at hs
    have key : (A - sind L2 * s) * cosd L1 ≤ (A - sind L1 * s) * cosd L2 := by
      nlinarith [mul_nonneg (neg_nonneg.mpr hA) (sub_nonneg.mpr hcos)]
    have := mul_le_mul_of_nonneg_right key (le_of_lt hc)
    nlinarith
  intro cost_antitone
  refine and_of_imp ?_ ?_
  · intro a h1 h2
    unfold sind DEGRAD
    have hpi := Real.pi_pos
    apply Real.sin_nonpos_of_nonnpos_of_neg_pi_le
    · nlinarith
    · nlinarith
  intro sind_nonpos_of_mem
  refine and_of_imp ?_ ?_
  · intro a h1 h2
    unfold sind DEGRAD
    have hpi := Real.pi_pos
    apply Real.sin_nonneg_of_nonneg_of_le_pi
    · positivity
    · nlinarith
  intro sind_nonneg_of_mem
  refine and_of_imp ?_ ?_
  · intro x y h0 h1 h2
    unfold cosd DEGRAD
    have hpi := Real.pi_pos
    apply Real.cos_le_cos_of_nonneg_of_le_pi
    · positivity
    · nlinarith
    · nlinarith
  intro cosd_antitone
  intro N lon altit upper_limb slon sr a L1 L2 hpos ha ha1 ha2 h1 h2 hcos hs
  have hlt := sin_sdecl_sq_lt_one _ slon sr hpos
  have hq : 0 < Real.sqrt (1 - sind (obl_ecl (epoch N lon)) * sind slon
      * (sind (obl_ecl (epoch N lon)) * sind slon)) := Real.sqrt_pos.mpr (by linarith)
  have c1 := daylen_cost_of_locals N lon L1 altit upper_limb slon sr a hpos ha (ne_of_gt h1)
  have c2 := daylen_cost_of_locals N lon L2 altit upper_limb slon sr a hpos ha (ne_of_gt h2)
  have hle := cost_antitone (sind a) (sind (obl_ecl (epoch N lon)) * sind slon) _ L1 L2
    (sind_nonpos_of_mem a ha1 ha2) hq h1 h2 hcos hs
  refine ⟨_, _, daylen_eq_arccos _ _ _ _ _ _ c1, daylen_eq_arccos _ _ _ _ _ _ c2, ?_⟩
  have := arccos_anti _ _ hle
  have hR := radeg_pos
  have := mul_le_mul_of_nonneg_left this (le_of_lt hR)
  linarith

/-- C12: fix the epoch, the longitude and a threshold whose corrected altitude
`altit'` satisfies `-90 ≤ altit' ≤ 0`.  If the declination of the Sun is
non-negative (`sind obl_ecl * sind slon ≥ 0`), then for all latitudes
`0 ≤ L1 ≤ L2 < 90` the value of `__daylen__` at `L1` is at most its value at
`L2`; if the declination is non-positive, then the same holds for all
latitudes `-90 < L2 ≤ L1 ≤ 0`.  Here `slon` and `sr` are the values stored by
`sunpos` and `altit'` that of the upper-limb correction. -/
theorem C12_daylen_monotone_in_latitude (N : ℤ) (lon altit : ℝ) (upper_limb : ℤ)
    (slon sr a : ℝ)
    (hpos : sunpos (epoch N lon) = some (slon, sr))
    (ha : limb_altit altit upper_limb sr = some a) (ha1 : -90 ≤ a) (ha2 : a ≤ 0) :
    (0 ≤ sind (obl_ecl (epoch N lon)) * sind slon →
      ∀ L1 L2 : ℝ, 0 ≤ L1 → L1 ≤ L2 → L2 < 90 →
        ∃ t1 t2, __daylen__ N lon L1 altit upper_limb = some t1 ∧
          __daylen__ N lon L2 altit upper_limb = some t2 ∧ t1 ≤ t2) ∧
    (sind (obl_ecl (epoch N lon)) * sind slon ≤ 0 →
      ∀ L1 L2 : ℝ, -90 < L2 → L2 ≤ L1 → L1 ≤ 0 →
        ∃ t1 t2, __daylen__ N lon L1 altit upper_limb = some t1 ∧
          __daylen__ N lon L2 altit upper_limb = some t2 ∧ t1 ≤ t2) := by
  obtain ⟨-, -, -, cosd_pos_of_abs_lt, -⟩ := domain_facts
  obtain ⟨-, -, -, -, -, -, -, -, -, -, -, cosd_neg, -⟩ := degree_facts
  obtain ⟨-, -, -, -, -, sind_nonpos_of_mem, sind_nonneg_of_mem, cosd_antitone,
      daylen_le_of_cost⟩ := latitude_facts
  constructor
  · intro hs L1 L2 h0 h12 h90
    have c1 : 0 < cosd L1 := cosd_pos_of_abs_lt L1 (by rw [abs_lt]; constructor <;> linarith)
    have c2 : 0 < cosd L2 := cosd_pos_of_abs_lt L2 (by rw [abs_lt]; constructor <;> linarith)
    have hcos : cosd L2 ≤ cosd L1 := cosd_antitone L1 L2 h0 h12 (le_of_lt h90)
    have hsin : 0 ≤ sind (L2 - L1) := sind_nonneg_of_mem _ (by linarith) (by linarith)
    exact daylen_le_of_cost N lon altit upper_limb slon sr a L1 L2 hpos ha ha1 ha2 c1 c2 hcos
      (mul_nonneg hs hsin)
  · intro hs L1 L2 h90 h21 h0
    have c1 : 0 < cosd L1 := cosd_pos_of_abs_lt L1 (by rw [abs_lt]; constructor <;> linarith)
    have c2 : 0 < cosd L2 := cosd_pos_of_abs_lt L2 (by rw [abs_lt]; constructor <;> linarith)
    have hcos : cosd L2 ≤ cosd L1 := by
      rw [← cosd_neg L2, ← cosd_neg L1]
      exact cosd_antitone (-L1) (-L2) (by linarith) (by linarith) (by linarith)
    have hsin : sind (L2 - L1) ≤ 0 := sind_nonpos_of_mem _ (by linarith) (by linarith)
    exact daylen_le_of_cost N lon altit upper_limb slon sr a L1 L2 hpos ha ha1 ha2 c1 c2 hcos
      (mul_nonneg_of_nonpos_of_nonpos hs hsin)


/-- The hypotheses of C12 hold on 2000-06-21 at longitude 0 with the ordinary
threshold, where the declination is positive. -/
theorem C12_daylen_monotone_in_latitude_witness :
    ∃ slon sr a : ℝ, sunpos (epoch 173 0) = some (slon, sr) ∧
      limb_altit (-35 / 60) 1 sr = some a ∧ -90 ≤ a ∧ a ≤ 0 ∧
      0 ≤ sind (obl_ecl (epoch 173 (0 : ℝ))) * sind slon ∧
      (0 ≤ sind (obl_ecl (epoch 173 (0 : ℝ))) * sind slon →
        ∀ L1 L2 : ℝ, 0 ≤ L1 → L1 ≤ L2 → L2 < 90 →
          ∃ t1 t2, __daylen__ 173 0 L1 (-35 / 60) 1 = some t1 ∧
            __daylen__ 173 0 L2 (-35 / 60) 1 = some t2 ∧ t1 ≤ t2) ∧
      (sind (obl_ecl (epoch 173 (0 : ℝ))) * sind slon ≤ 0 →
        ∀ L1 L2 : ℝ, -90 < L2 → L2 ≤ L1 → L1 ≤ 0 →
          ∃ t1 t2, __daylen__ 173 0 L1 (-35 / 60) 1 = some t1 ∧
            __daylen__ 173 0 L2 (-35 / 60) 1 = some t2 ∧ t1 ≤ t2) := by
  obtain ⟨-, -, -, -, -, -, -, -, -, sunpos_spec⟩ := sunpos_facts
  obtain ⟨limb_altit_of_ne, -⟩ := solver_facts
  obtain ⟨-, ecc_sq_lt_one_of_range, -, -, -, epoch_173_range, -⟩ := domain_facts
  obtain ⟨sr_bounds_of_range, ordinary_altit_bounds, -⟩ := midlat_facts
  obtain ⟨-, -, -, -, -, -, -, -, -, -, -, -, -, -, sind_obl_bounds_of_range⟩ := orbit_facts
  obtain ⟨sind_lon_ge_of_mean, -⟩ := polar_facts
  obtain ⟨hd1, hd2⟩ := epoch_173_range
  obtain ⟨slon, sr, hpos, hsr, hsr0, hprod, -⟩ :=
    sunpos_spec (epoch 173 0) (ecc_sq_lt_one_of_range _ hd1 hd2)
  obtain ⟨hr1, hr2⟩ := sr_bounds_of_range _ sr hd1 hd2 hsr
  have hl := limb_altit_of_ne (-35 / 60) 1 sr (ne_of_gt hsr0)
  rw [if_pos (by norm_num : (1 : ℤ) ≠ 0)] at hl
  obtain ⟨ha1, ha2⟩ := ordinary_altit_bounds sr hr1 hr2
  have hlon := sind_lon_ge_of_mean _ slon sr hd1 hd2 hsr0 hr2 hprod 2 (by
    unfold sunpos_w epoch
    rw [abs_le]; constructor <;> norm_num)
  obtain ⟨ho1, -⟩ := sind_obl_bounds_of_range _ hd1 hd2
  have hs : 0 ≤ sind (obl_ecl (epoch 173 (0 : ℝ))) * sind slon :=
    mul_nonneg (by linarith) (by linarith)
  exact ⟨slon, sr, _, hpos, hl, by linarith, by linarith, hs,
    C12_daylen_monotone_in_latitude 173 0 (-35 / 60) 1 slon sr _ hpos hl
      (by linarith) (by linarith)⟩

/-! ## Truncating division of the time-zone offset -/

set_option maxHeartbeats 3200000 in
/-- Facts about C's truncating `/` and `%` on the time-zone offset. -/
theorem tdiv_facts :
    -- `tmod_tdiv_minutes`
    (∀ (tz : ℤ) (h : 60 ∣ tz), 60 * (60 * Int.tdiv tz 3600 + Int.tdiv (Int.tmod tz 3600) 60) = tz) ∧
    -- `tmod_tdiv_hours`
    (∀ (tz : ℤ) (h : 3600 ∣ tz), Int.tdiv (Int.tmod tz 3600) 60 = 0) ∧
    -- `tdiv_neg_dividend`
    (∀ (a b : ℤ) (ha : a < 0) (hb : 0 ≤ b), Int.tdiv a b = -((-a) / b)) ∧
    -- `tmod_tdiv_bounds`
    (∀ (tz : ℤ), -59 ≤ Int.tdiv (Int.tmod tz 3600) 60 ∧ Int.tdiv (Int.tmod tz 3600) 60 ≤ 59) := by
  refine and_of_imp ?_ ?_
  · intro tz h
    obtain ⟨k, rfl⟩ := h
    have h1 := Int.tmod_add_tdiv (60 * k) 3600
    have h2 : (60 : ℤ) ∣ Int.tmod (60 * k) 3600 := by
      have : Int.tmod (60 * k) 3600 = 60 * k - 3600 * Int.tdiv (60 * k) 3600 := by omega
      rw [this]
      exact ⟨k - 60 * Int.tdiv (60 * k) 3600, by ring⟩
    have h3 := Int.tdiv_mul_cancel h2
    omega
  intro tmod_tdiv_minutes
  refine and_of_imp ?_ ?_
  · intro tz h
    rw [Int.tmod_eq_zero_of_dvd h]
    rfl
  intro tmod_tdiv_hours
  refine and_of_imp ?_ ?_
  · intro a b ha hb
    have h : Int.tdiv a b = -(Int.tdiv (-a) b) := by rw [Int.neg_tdiv, neg_neg]
    rw [h, Int.tdiv_eq_ediv (by omega) hb]
  intro tdiv_neg_dividend
  intro tz
  have hr : -3600 < Int.tmod tz 3600 ∧ Int.tmod tz 3600 < 3600 := by
    rcases le_or_lt 0 tz with h | h
    · rw [Int.tmod_eq_emod h (by norm_num)]
      constructor <;> omega
    · rw [Int.tmod_def, tdiv_neg_dividend tz 3600 h (by norm_num)]
      constructor <;> omega
  obtain ⟨h1, h2⟩ := hr
  rcases le_or_lt 0 (Int.tmod tz 3600) with h | h
  · rw [Int.tdiv_eq_ediv h (by norm_num)]
    constructor <;> omega
  · rw [tdiv_neg_dividend _ 60 h (by norm_num)]
    constructor <;> omega


namespace B64

/-! ## Facts about binary64 rounding -/

set_option maxHeartbeats 3200000 in
/-- Facts about rounding to binary64: error bounds, exactness, monotonicity, evaluation. -/
theorem rounding_facts :
    -- `rne_spec`
    (∀ (q : ℚ), |q - rne q| < 1 / 2 ∨ (|q - rne q| = 1 / 2 ∧ rne q % 2 = 0)) ∧
    -- `rne_unique`
    (∀ (q : ℚ) (n : ℤ) (h : |q - n| < 1 / 2 ∨ (|q - n| = 1 / 2 ∧ n % 2 = 0)), rne q = n) ∧
    -- `rne_err`
    (∀ (q : ℚ), |q - rne q| ≤ 1 / 2) ∧
    -- `rne_intCast`
    (∀ (n : ℤ), rne (n : ℚ) = n) ∧
    -- `rne_neg`
    (∀ (q : ℚ), rne (-q) = -rne q) ∧
    -- `rne_mono`
    (∀ (a b : ℚ) (h : a ≤ b), rne a ≤ rne b) ∧
    -- `two_zpow_pos`
    (∀ (e : ℤ), (0 : ℚ) < 2 ^ e) ∧
    -- `expo_spec`
    -- The binade of a non-zero rational: below `2 ^ (expo q + 1)`, and at least
    -- `2 ^ expo q` unless the exponent is that of the subnormal numbers.
    (∀ (q : ℚ), -1022 ≤ expo q ∧ |q| < 2 ^ (expo q + 1) ∧ (expo q = -1022 ∨ 2 ^ expo q ≤ |q|)) ∧
    -- `expo_le`
    (∀ (q : ℚ) (e : ℤ) (he : -1022 ≤ e) (hq : |q| < 2 ^ (e + 1)), expo q ≤ e) ∧
    -- `expo_ge`
    (∀ (q : ℚ) (e : ℤ) (hq : 2 ^ e ≤ |q|), e ≤ expo q) ∧
    -- `expo_neg`
    (∀ (q : ℚ), expo (-q) = expo q) ∧
    -- `fl_neg`
    (∀ (q : ℚ), fl (-q) = -fl q) ∧
    -- `fl_err`
    -- The rounding error is at most half a unit in the last place.
    (∀ (q : ℚ) (e : ℤ) (he : -1022 ≤ e) (hq : |q| < 2 ^ (e + 1)), |fl q - q| ≤ 2 ^ (e - 53)) ∧
    -- `zpow_two_natCast`
    (∀ (k : ℤ) (hk : 0 ≤ k), (2 : ℚ) ^ k = ((2 ^ k.toNat : ℤ) : ℚ)) ∧
    -- `two_pow_mul_zpow`
    (∀ (n : ℕ) (e : ℤ), ((2 ^ n : ℤ) : ℚ) * 2 ^ e = 2 ^ ((n : ℤ) + e)) ∧
    -- `fl_grid`
    -- A rational on the grid of its own binade is not changed by rounding.
    (∀ (m j : ℤ) (h : expo (m * 2 ^ j) - 52 ≤ j), fl (m * 2 ^ j) = m * 2 ^ j) ∧
    -- `fl_exact`
    -- A binary64 number is not changed by rounding.
    (∀ (q : ℚ) (h : IsDouble q), fl q = q) ∧
    -- `rnd_exact`
    (∀ (q : ℚ) (h : IsDouble q), rnd q = some q) ∧
    -- `isDouble_int`
    -- An integer below `2 ^ 53` in absolute value is a binary64 number.
    (∀ (n : ℤ) (h : |n| < 2 ^ 53), IsDouble n) ∧
    -- `fl_nonneg`
    (∀ (q : ℚ) (h : 0 ≤ q), 0 ≤ fl q) ∧
    -- `fl_mono`
    -- Rounding is monotone.
    (∀ (a b : ℚ) (h : a ≤ b), fl a ≤ fl b) ∧
    -- `expo_eq`
    (∀ (q : ℚ) (e : ℤ) (he : -1022 ≤ e) (h1 : e = -1022 ∨ 2 ^ e ≤ |q|) (h2 : |q| < 2 ^ (e + 1)),
      expo q = e) ∧
    -- `fl_eval`
    -- Evaluation of a rounding: `q` lies in the binade of exponent `e` and `N`
    -- is the integer nearest to `q / 2 ^ (e - 52)`, the even one at a tie.
    (∀ (q : ℚ) (e N : ℤ) (he : -1022 ≤ e) (h1 : e = -1022 ∨ 2 ^ e ≤ |q|) (h2 : |q| < 2 ^ (e + 1)) (h3 : |q / 2 ^ (e - 52) - N| < 1 / 2 ∨ (|q / 2 ^ (e - 52) - N| = 1 / 2 ∧ N % 2 = 0)),
      fl q = N * 2 ^ (e - 52)) ∧
    -- `rnd_of_lt`
    -- A rounded value does not overflow when the exact one is below `2 ^ 1023`
    -- in absolute value.
    (∀ (q : ℚ) (h : |q| < 2 ^ (1023 : ℤ)), rnd q = some (fl q)) ∧
    -- `isDouble_lt_one`
    -- A binary64 number below 1 is at most `1 - 2 ^ (-53)`.
    (∀ (q : ℚ) (h : IsDouble q) (h1 : q < 1), q ≤ 1 - 2 ^ (-53 : ℤ)) ∧
    -- `rnd_eval`
    -- Evaluation of a binary64 operation whose exact value is `q`.
    (∀ (q : ℚ) (e N : ℤ) (he : -1022 ≤ e) (he2 : e ≤ 1022) (h1 : e = -1022 ∨ 2 ^ e ≤ |q|) (h2 : |q| < 2 ^ (e + 1)) (h3 : |q / 2 ^ (e - 52) - N| < 1 / 2 ∨ (|q / 2 ^ (e - 52) - N| = 1 / 2 ∧ N % 2 = 0)),
      rnd q = some ((N : ℚ) * 2 ^ (e - 52))) ∧
    -- `isDouble_zero`
    (IsDouble 0) ∧
    -- `isDouble_fract`
    -- The fractional part of a binary64 number that is not in `(-1/2, 0)` is a
    -- binary64 number: the subtraction `x - floor (x)` is exact.
    (∀ (x : ℚ) (h : IsDouble x) (hx : 0 ≤ x ∨ x ≤ -1 / 2), IsDouble (x - ⌊x⌋)) ∧
    -- `isDouble_fl`
    -- A rounded value is a binary64 number when the exact one is below
    -- `2 ^ 1023` in absolute value.
    (∀ (q : ℚ) (h : |q| < 2 ^ (1023 : ℤ)), IsDouble (fl q)) ∧
    -- `fl_rel`
    (∀ (q : ℚ), |fl q - q| ≤ |q| / 2 ^ 53 + 1 / 2 ^ 100) ∧
    -- `rnd_of_le`
    -- Rounding does not overflow below `2 ^ 1022`.
    (∀ (q : ℚ) (h : |q| ≤ 2 ^ 22 * 2 ^ (1000 : ℤ)), rnd q = some (fl q)) ∧
    -- `one_le_big`
    ((1 : ℚ) ≤ 2 ^ (1000 : ℤ)) ∧
    -- `rnd_near`
    -- Evaluation of a rounding that is not a tie.
    (∀ (q v : ℚ) (e N : ℤ) (h : -1022 ≤ e ∧ e ≤ 1022 ∧ (2 ^ e ≤ q ∨ 2 ^ e ≤ -q) ∧ -(2 ^ (e + 1)) < q ∧ q < 2 ^ (e + 1) ∧ (2 * N - 1) * 2 ^ (e - 53) < q ∧ q < (2 * N + 1) * 2 ^ (e - 53) ∧ v = N * 2 ^ (e - 52)),
      rnd q = some v) ∧
    -- `rnd_tie`
    -- Evaluation of a rounding that is a tie.
    (∀ (q v : ℚ) (e N : ℤ) (h : -1022 ≤ e ∧ e ≤ 1022 ∧ (2 ^ e ≤ q ∨ 2 ^ e ≤ -q) ∧ -(2 ^ (e + 1)) < q ∧ q < 2 ^ (e + 1) ∧ (q = (2 * N + 1) * 2 ^ (e - 53) ∨ q = (2 * N - 1) * 2 ^ (e - 53)) ∧ N % 2 = 0 ∧ v = N * 2 ^ (e - 52)),
      rnd q = some v) ∧
    -- `fl_of_rnd`
    (∀ (q v : ℚ) (h : rnd q = some v), fl q = v) ∧
    -- `isDouble_mk`
    (∀ (q : ℚ) (m j : ℤ) (h1 : -(2 ^ 53) < m) (h2 : m < 2 ^ 53) (hj1 : -1074 ≤ j) (hj2 : j ≤ 971) (hq : q = m * 2 ^ j),
      IsDouble q) ∧
    -- `rnd_dbl`
    -- Evaluation of an operation whose exact value `q` is the binary64 number `v`.
    (∀ (q v : ℚ) (m j : ℤ) (h : -(2 ^ 53) < m ∧ m < 2 ^ 53 ∧ -1074 ≤ j ∧ j ≤ 971 ∧ v = m * 2 ^ j ∧ q = v),
      rnd q = some v) := by
  refine and_of_imp ?_ ?_
  · intro q
    have h1 := Int.floor_le q
    have h2 := Int.lt_floor_add_one q
    unfold rne
    split_ifs with a b c
    · left
      rw [abs_lt]; constructor <;> linarith
    · left
      push_cast
      rw [abs_lt]; constructor <;> linarith
    · right
      push_neg at a b
      have e : q - ⌊q⌋ = 1 / 2 := le_antisymm b a
      refine ⟨?_, c⟩
      rw [e]; norm_num
    · right
      push_neg at a b
      have e : q - ⌊q⌋ = 1 / 2 := le_antisymm b a
      refine ⟨?_, by omega⟩
      push_cast
      have : q - (⌊q⌋ + 1) = -(1 / 2) := by linarith
      rw [this]; norm_num
  intro rne_spec
  refine and_of_imp ?_ ?_
  · intro q n h
    have hs := rne_spec q
    have hd : |((rne q - n : ℤ) : ℚ)| ≤ |q - rne q| + |q - n| := by
      push_cast
      have : (rne q : ℚ) - n = (q - n) - (q - rne q) := by ring
      rw [this]
      calc |(q - n) - (q - rne q)| ≤ |q - n| + |q - rne q| := abs_sub _ _
        _ = |q - rne q| + |q - n| := add_comm _ _
    rcases hs with hs | ⟨hs, ps⟩ <;> rcases h with h | ⟨h, pn⟩
    · have : |((rne q - n : ℤ) : ℚ)| < 1 := by linarith
      have : |rne q - n| < 1 := by exact_mod_cast this
      have := Int.abs_lt_one_iff.mp this
      omega
    · have : |((rne q - n : ℤ) : ℚ)| < 1 := by linarith
      have : |rne q - n| < 1 := by exact_mod_cast this
      have := Int.abs_lt_one_iff.mp this
      omega
    · have : |((rne q - n : ℤ) : ℚ)| < 1 := by linarith
      have : |rne q - n| < 1 := by exact_mod_cast this
      have := Int.abs_lt_one_iff.mp this
      omega
    · have : |((rne q - n : ℤ) : ℚ)| ≤ 1 := by linarith
      have : |rne q - n| ≤ 1 := by exact_mod_cast this
      rw [abs_le] at this
      omega
  intro rne_unique
  refine and_of_imp ?_ ?_
  · intro q
    rcases rne_spec q with h | ⟨h, -⟩
    · exact le_of_lt h
    · exact le_of_eq h
  intro rne_err
  refine and_of_imp ?_ ?_
  · intro n
    exact rne_unique _ n (Or.inl (by simp))
  intro rne_intCast
  refine and_of_imp ?_ ?_
  · intro q
    apply rne_unique
    have e : -q - ((-rne q : ℤ) : ℚ) = -(q - rne q) := by push_cast; ring
    rw [e, abs_neg]
    rcases rne_spec q with h | ⟨h, p⟩
    · exact Or.inl h
    · exact Or.inr ⟨h, by omega⟩
  intro rne_neg
  refine and_of_imp ?_ ?_
  · intro a b h
    rcases eq_or_lt_of_le h with h | h
    · rw [h]
    · have h1 := abs_le.mp (rne_err a)
      have h2 := abs_le.mp (rne_err b)
      have : ((rne a : ℤ) : ℚ) < rne b + 1 := by linarith [h1.1, h2.2]
      have : rne a < rne b + 1 := by exact_mod_cast this
      omega
  intro rne_mono
  refine and_of_imp ?_ ?_
  · intro e
    exact zpow_pos (by norm_num) e
  intro two_zpow_pos
  refine and_of_imp ?_ ?_
  · intro q
    unfold expo
    by_cases h0 : q = 0
    · rw [if_pos h0, h0, abs_zero]
      exact ⟨le_refl _, two_zpow_pos _, Or.inl rfl⟩
    · rw [if_neg h0]
      have hq : 0 < |q| := abs_pos.mpr h0
      have h1 : |q| < 2 ^ (Int.log 2 |q| + 1) := by
        have := Int.lt_zpow_succ_log_self (b := 2) (by norm_num) |q|
        exact_mod_cast this
      refine ⟨le_max_right _ _, ?_, ?_⟩
      · refine lt_of_lt_of_le h1 ?_
        exact zpow_le_zpow_right₀ (by norm_num)
          (by have := le_max_left (Int.log 2 |q|) (-1022); omega)
      · rcases le_total (Int.log 2 |q|) (-1022) with h | h
        · left; exact max_eq_right h
        · right
          rw [max_eq_left h]
          have := Int.zpow_log_le_self (b := 2) (by norm_num) hq
          exact_mod_cast this
  intro expo_spec
  refine and_of_imp ?_ ?_
  · intro q e he hq
    obtain ⟨-, -, h | h⟩ := expo_spec q
    · omega
    · have : (2 : ℚ) ^ expo q < 2 ^ (e + 1) := lt_of_le_of_lt h hq
      have := (zpow_lt_zpow_iff_right₀ (by norm_num : (1 : ℚ) < 2)).mp this
      omega
  intro expo_le
  refine and_of_imp ?_ ?_
  · intro q e hq
    obtain ⟨-, h, -⟩ := expo_spec q
    have : (2 : ℚ) ^ e < 2 ^ (expo q + 1) := lt_of_le_of_lt hq h
    have := (zpow_lt_zpow_iff_right₀ (by norm_num : (1 : ℚ) < 2)).mp this
    omega
  intro expo_ge
  refine and_of_imp ?_ ?_
  · intro q
    unfold expo
    simp only [abs_neg, neg_eq_zero]
  intro expo_neg
  refine and_of_imp ?_ ?_
  · intro q
    unfold fl
    rw [expo_neg, neg_div, rne_neg]
    push_cast
    ring
  intro fl_neg
  refine and_of_imp ?_ ?_
  · intro q e he hq
    have hE := expo_le q e he hq
    have hu := two_zpow_pos (expo q - 52)
    have h := rne_err (q / 2 ^ (expo q - 52))
    have e1 : fl q - q = -(q / 2 ^ (expo q - 52) - rne (q / 2 ^ (expo q - 52))) * 2 ^ (expo q - 52) := by
      unfold fl
      field_simp
      ring
    rw [e1, abs_mul, abs_neg, abs_of_pos hu]
    calc |q / 2 ^ (expo q - 52) - rne (q / 2 ^ (expo q - 52))| * 2 ^ (expo q - 52)
        ≤ 1 / 2 * 2 ^ (expo q - 52) := mul_le_mul_of_nonneg_right h (le_of_lt hu)
      _ = 2 ^ (expo q - 53) := by
          rw [show expo q - 52 = (expo q - 53) + 1 by ring, zpow_add_one₀ (by norm_num)]
          ring
      _ ≤ 2 ^ (e - 53) := zpow_le_zpow_right₀ (by norm_num) (by omega)
  intro fl_err
  refine and_of_imp ?_ ?_
  · intro k hk
    obtain ⟨n, rfl⟩ := Int.eq_ofNat_of_zero_le hk
    simp
  intro zpow_two_natCast
  refine and_of_imp ?_ ?_
  · intro n e
    rw [zpow_add₀ (by norm_num : (2 : ℚ) ≠ 0), zpow_natCast]
    simp
  intro two_pow_mul_zpow
  refine and_of_imp ?_ ?_
  · intro m j h
    unfold fl
    set E := expo ((m : ℚ) * 2 ^ j)
    have hk : 0 ≤ j - (E - 52) := by omega
    have e2 : (2 : ℚ) ^ j = 2 ^ (j - (E - 52)) * 2 ^ (E - 52) := by
      rw [← zpow_add₀ (by norm_num : (2 : ℚ) ≠ 0)]
      congr 1; ring
    have e1 : (m : ℚ) * 2 ^ j / 2 ^ (E - 52) = ((m * 2 ^ (j - (E - 52)).toNat : ℤ) : ℚ) := by
      rw [Int.cast_mul, ← zpow_two_natCast _ hk, e2]
      field_simp
      ring
    rw [e1, rne_intCast, Int.cast_mul, ← zpow_two_natCast _ hk, mul_assoc, ← e2]
  intro fl_grid
  refine and_of_imp ?_ ?_
  · intro q h
    obtain ⟨m, j, hm, hj1, -, rfl⟩ := h
    apply fl_grid
    obtain ⟨-, -, h | h⟩ := expo_spec ((m : ℚ) * 2 ^ j)
    · omega
    · have hm' : |(m : ℚ)| < 2 ^ (53 : ℤ) := by
        have : ((|m| : ℤ) : ℚ) < ((2 ^ 53 : ℤ) : ℚ) := by exact_mod_cast hm
        push_cast at this
        exact_mod_cast this
      have h2 : |(m : ℚ) * 2 ^ j| < 2 ^ (53 + j) := by
        rw [abs_mul, abs_of_pos (two_zpow_pos j), zpow_add₀ (by norm_num : (2 : ℚ) ≠ 0)]
        exact mul_lt_mul_of_pos_right hm' (two_zpow_pos j)
      have := (zpow_lt_zpow_iff_right₀ (by norm_num : (1 : ℚ) < 2)).mp (lt_of_le_of_lt h h2)
      omega
  intro fl_exact
  refine and_of_imp ?_ ?_
  · intro q h
    unfold rnd
    rw [fl_exact q h]
    obtain ⟨m, j, hm, -, hj2, rfl⟩ := h
    rw [if_pos]
    have hm' : |(m : ℚ)| < 2 ^ (53 : ℤ) := by
      have : ((|m| : ℤ) : ℚ) < ((2 ^ 53 : ℤ) : ℚ) := by exact_mod_cast hm
      push_cast at this
      exact_mod_cast this
    rw [abs_mul, abs_of_pos (two_zpow_pos j)]
    calc |(m : ℚ)| * 2 ^ j < 2 ^ (53 : ℤ) * 2 ^ j := mul_lt_mul_of_pos_right hm' (two_zpow_pos j)
      _ = 2 ^ (53 + j) := by rw [zpow_add₀ (by norm_num : (2 : ℚ) ≠ 0)]
      _ ≤ 2 ^ (1024 : ℤ) := zpow_le_zpow_right₀ (by norm_num) (by omega)
  intro rnd_exact
  refine and_of_imp ?_ ?_
  · intro n h
    exact ⟨n, 0, h, by norm_num, by norm_num, by simp⟩
  intro isDouble_int
  refine and_of_imp ?_ ?_
  · intro q h
    unfold fl
    apply mul_nonneg _ (le_of_lt (two_zpow_pos _))
    have h1 : 0 ≤ q / 2 ^ (expo q - 52) := div_nonneg h (le_of_lt (two_zpow_pos _))
    have := rne_mono _ _ h1
    rw [show ((0 : ℚ)) = ((0 : ℤ) : ℚ) by simp, rne_intCast] at this
    exact_mod_cast this
  intro fl_nonneg
  refine and_of_imp ?_ ?_
  · intro a b h
    have pos : ∀ a b : ℚ, 0 < a → a ≤ b → fl a ≤ fl b := by
      intro a b ha h
      have hb : 0 < b := lt_of_lt_of_le ha h
      obtain ⟨a1, a2, a3⟩ := expo_spec a
      obtain ⟨b1, b2, b3⟩ := expo_spec b
      rw [abs_of_pos ha] at a2 a3
      rw [abs_of_pos hb] at b2 b3
      have hE : expo a ≤ expo b := by
        rcases a3 with a3 | a3
        · omega
        · apply expo_ge
          rw [abs_of_pos hb]
          exact le_trans a3 h
      rcases eq_or_lt_of_le hE with hE | hE
      · unfold fl
        rw [hE]
        apply mul_le_mul_of_nonneg_right _ (le_of_lt (two_zpow_pos _))
        have := rne_mono _ _ (div_le_div_of_nonneg_right h (le_of_lt (two_zpow_pos (expo b - 52))))
        exact_mod_cast this
      · have h1 : fl a ≤ 2 ^ (expo a + 1) := by
          unfold fl
          have e : ((2 ^ 53 : ℤ) : ℚ) * 2 ^ (expo a - 52) = 2 ^ (expo a + 1) := by
            rw [two_pow_mul_zpow]
            congr 1; ring
          have hy : a / 2 ^ (expo a - 52) ≤ ((2 ^ 53 : ℤ) : ℚ) := by
            rw [div_le_iff₀ (two_zpow_pos _), e]
            exact le_of_lt a2
          have := rne_mono _ _ hy
          rw [rne_intCast] at this
          have : ((rne (a / 2 ^ (expo a - 52)) : ℤ) : ℚ) ≤ ((2 ^ 53 : ℤ) : ℚ) := by exact_mod_cast this
          have := mul_le_mul_of_nonneg_right this (le_of_lt (two_zpow_pos (expo a - 52)))
          exact le_trans this (le_of_eq e)
        have h2 : (2 : ℚ) ^ expo b ≤ fl b := by
          have b3' : (2 : ℚ) ^ expo b ≤ b := by
            rcases b3 with b3 | b3
            · omega
            · exact b3
          unfold fl
          have e : ((2 ^ 52 : ℤ) : ℚ) * 2 ^ (expo b - 52) = 2 ^ expo b := by
            rw [two_pow_mul_zpow]
            congr 1; ring
          have hy : ((2 ^ 52 : ℤ) : ℚ) ≤ b / 2 ^ (expo b - 52) := by
            rw [le_div_iff₀ (two_zpow_pos _), e]
            exact b3'
          have := rne_mono _ _ hy
          rw [rne_intCast] at this
          have : ((2 ^ 52 : ℤ) : ℚ) ≤ ((rne (b / 2 ^ (expo b - 52)) : ℤ) : ℚ) := by exact_mod_cast this
          have := mul_le_mul_of_nonneg_right this (le_of_lt (two_zpow_pos (expo b - 52)))
          exact le_trans (le_of_eq e.symm) this
        have h3 : (2 : ℚ) ^ (expo a + 1) ≤ 2 ^ expo b :=
          zpow_le_zpow_right₀ (by norm_num) (by omega)
        linarith
    rcases lt_trichotomy 0 a with ha | ha | ha
    · exact pos a b ha h
    · rw [← ha]
      have e : fl 0 = 0 := by unfold fl; simp [rne]
      rw [e]
      exact fl_nonneg b (by linarith)
    · rcases le_or_lt 0 b with hb | hb
      · have := fl_nonneg (-a) (by linarith)
        rw [fl_neg] at this
        have := fl_nonneg b hb
        linarith
      · have := pos (-b) (-a) (by linarith) (by linarith)
        rw [fl_neg, fl_neg] at this
        linarith
  intro fl_mono
  refine and_of_imp ?_ ?_
  · intro q e he h1 h2
    have a := expo_le q e he h2
    rcases h1 with h1 | h1
    · have := (expo_spec q).1
      omega
    · have := expo_ge q e h1
      omega
  intro expo_eq
  refine and_of_imp ?_ ?_
  · intro q e N he h1 h2 h3
    unfold fl
    rw [expo_eq q e he h1 h2, rne_unique _ N h3]
  intro fl_eval
  refine and_of_imp ?_ ?_
  · intro q h
    unfold rnd
    rw [if_pos]
    have h1 := fl_err q 1022 (by norm_num) (by rw [show (1022 : ℤ) + 1 = 1023 by norm_num]; exact h)
    have h2 : |fl q| ≤ |fl q - q| + |q| := by
      have := abs_add (fl q - q) q
      rwa [sub_add_cancel] at this
    have h3 : (2 : ℚ) ^ ((1022 : ℤ) - 53) < 2 ^ (1023 : ℤ) :=
      zpow_lt_zpow_right₀ (by norm_num) (by norm_num)
    have h4 : (2 : ℚ) ^ (1024 : ℤ) = 2 ^ (1023 : ℤ) * 2 := by
      rw [show (1024 : ℤ) = 1023 + 1 by norm_num, zpow_add_one₀ (by norm_num)]
    linarith
  intro rnd_of_lt
  refine and_of_imp ?_ ?_
  · intro q h h1
    obtain ⟨m, j, hm, -, -, rfl⟩ := h
    have hm' : (m : ℚ) < 2 ^ (53 : ℤ) := by
      have : m < 2 ^ 53 := lt_of_le_of_lt (le_abs_self m) hm
      have : ((m : ℤ) : ℚ) < ((2 ^ 53 : ℤ) : ℚ) := by exact_mod_cast this
      push_cast at this
      exact_mod_cast this
    rcases le_or_lt (-53) j with hj | hj
    · rcases le_or_lt 0 j with hj0 | hj0
      · -- an integer below 1 is at most 0
        have e : (m : ℚ) * 2 ^ j = ((m * 2 ^ j.toNat : ℤ) : ℚ) := by
          rw [Int.cast_mul, ← zpow_two_natCast _ hj0]
        rw [e] at h1 ⊢
        have : m * 2 ^ j.toNat < 1 := by exact_mod_cast h1
        have : m * 2 ^ j.toNat ≤ 0 := by omega
        have : ((m * 2 ^ j.toNat : ℤ) : ℚ) ≤ 0 := by exact_mod_cast this
        have : (0 : ℚ) ≤ 1 - 2 ^ (-53 : ℤ) := by norm_num
        linarith
      · -- m < 2 ^ (-j), an integer bound
        have hk : 0 ≤ -j := by omega
        have e1 : (2 : ℚ) ^ j * 2 ^ (-j) = 1 := by
          rw [← zpow_add₀ (by norm_num : (2 : ℚ) ≠ 0)]; simp
        have h2 : (m : ℚ) < 2 ^ (-j) := by
          have := mul_lt_mul_of_pos_right h1 (two_zpow_pos (-j))
          rw [mul_assoc, e1, mul_one, one_mul] at this
          exact this
        rw [zpow_two_natCast _ hk] at h2
        have h3 : m < 2 ^ (-j).toNat := by exact_mod_cast h2
        have h4 : m ≤ 2 ^ (-j).toNat - 1 := by omega
        have h5 : (m : ℚ) ≤ 2 ^ (-j) - 1 := by
          rw [zpow_two_natCast _ hk]
          exact_mod_cast h4
        have h6 := mul_le_mul_of_nonneg_right h5 (le_of_lt (two_zpow_pos j))
        have h7 : ((2 : ℚ) ^ (-j) - 1) * 2 ^ j = 1 - 2 ^ j := by
          rw [sub_mul, mul_comm, e1, one_mul]
        have h8 : (2 : ℚ) ^ (-53 : ℤ) ≤ 2 ^ j := zpow_le_zpow_right₀ (by norm_num) hj
        linarith
    · rcases le_or_lt (m : ℚ) 0 with hm0 | hm0
      · have := mul_nonpos_of_nonpos_of_nonneg hm0 (le_of_lt (two_zpow_pos j))
        have : (0 : ℚ) ≤ 1 - 2 ^ (-53 : ℤ) := by norm_num
        linarith
      · have h2 : (m : ℚ) * 2 ^ j ≤ 2 ^ (53 : ℤ) * 2 ^ (-54 : ℤ) :=
          mul_le_mul (le_of_lt hm') (zpow_le_zpow_right₀ (by norm_num) (by omega))
            (le_of_lt (two_zpow_pos j)) (by norm_num)
        have : (2 : ℚ) ^ (53 : ℤ) * 2 ^ (-54 : ℤ) ≤ 1 - 2 ^ (-53 : ℤ) := by norm_num
        linarith
  intro isDouble_lt_one
  refine and_of_imp ?_ ?_
  · intro q e N he he2 h1 h2 h3
    rw [rnd_of_lt q (lt_of_lt_of_le h2 (zpow_le_zpow_right₀ (by norm_num) (by omega))),
      fl_eval q e N he h1 h2 h3]
  intro rnd_eval
  refine and_of_imp ?_ ?_
  · exact ⟨0, 0, by norm_num, by norm_num, by norm_num, by simp⟩
  intro isDouble_zero
  refine and_of_imp ?_ ?_
  · intro x h hx
    obtain ⟨m, j, hm, hj1, hj2, rfl⟩ := h
    rcases le_or_lt 0 j with hj | hj
    · have e : (m : ℚ) * 2 ^ j = ((m * 2 ^ j.toNat : ℤ) : ℚ) := by
        rw [Int.cast_mul, ← zpow_two_natCast _ hj]
      rw [e, Int.floor_intCast, sub_self]
      exact isDouble_zero
    · rcases le_or_lt (-53) j with hj3 | hj3
      · have hk : 0 ≤ -j := by omega
        have e1 : (2 : ℚ) ^ j = 1 / ((2 ^ (-j).toNat : ℕ) : ℚ) := by
          rw [one_div, ← zpow_neg_one, show j = -(-j) by ring, zpow_neg, zpow_two_natCast _ hk]
          simp
        have e2 : (m : ℚ) * 2 ^ j = (m : ℚ) / ((2 ^ (-j).toNat : ℕ) : ℚ) := by
          rw [e1]; ring
        have hK : (0 : ℤ) < ((2 ^ (-j).toNat : ℕ) : ℤ) := by positivity
        have hfl : ⌊(m : ℚ) * 2 ^ j⌋ = m / ((2 ^ (-j).toNat : ℕ) : ℤ) := by
          rw [e2, Rat.floor_intCast_div_natCast]
        have hmod := Int.emod_add_ediv m ((2 ^ (-j).toNat : ℕ) : ℤ)
        have hm1 := Int.emod_nonneg m (ne_of_gt hK)
        have hm2 := Int.emod_lt_of_pos m hK
        have hKle : ((2 ^ (-j).toNat : ℕ) : ℤ) ≤ 2 ^ 53 := by
          have : (2 ^ (-j).toNat : ℕ) ≤ 2 ^ 53 := Nat.pow_le_pow_right (by norm_num) (by omega)
          exact_mod_cast this
        refine ⟨m % ((2 ^ (-j).toNat : ℕ) : ℤ), j, ?_, hj1, hj2, ?_⟩
        · rw [abs_of_nonneg hm1]
          omega
        · rw [hfl]
          have e3 : (m : ℚ) = ((m % ((2 ^ (-j).toNat : ℕ) : ℤ) : ℤ) : ℚ)
              + ((2 ^ (-j).toNat : ℕ) : ℚ) * ((m / ((2 ^ (-j).toNat : ℕ) : ℤ) : ℤ) : ℚ) := by
            exact_mod_cast hmod.symm
          have hKq : (((2 ^ (-j).toNat : ℕ) : ℚ)) ≠ 0 := by positivity
          rw [e1]
          conv_lhs => rw [e3]
          field_simp
      · have hm' : |(m : ℚ)| < 2 ^ (53 : ℤ) := by
          have : ((|m| : ℤ) : ℚ) < ((2 ^ 53 : ℤ) : ℚ) := by exact_mod_cast hm
          push_cast at this
          exact_mod_cast this
        have hlt : |(m : ℚ) * 2 ^ j| < 1 / 2 := by
          rw [abs_mul, abs_of_pos (two_zpow_pos j)]
          calc |(m : ℚ)| * 2 ^ j ≤ |(m : ℚ)| * 2 ^ (-54 : ℤ) :=
                mul_le_mul_of_nonneg_left (zpow_le_zpow_right₀ (by norm_num) (by omega))
                  (abs_nonneg _)
            _ < 2 ^ (53 : ℤ) * 2 ^ (-54 : ℤ) := mul_lt_mul_of_pos_right hm' (two_zpow_pos _)
            _ = 1 / 2 := by norm_num
        obtain ⟨h1, h2⟩ := abs_lt.mp hlt
        rcases hx with hx | hx
        · have : ⌊(m : ℚ) * 2 ^ j⌋ = 0 := by
            rw [Int.floor_eq_iff]
            constructor
            · simpa using hx
            · norm_num; linarith
          rw [this]
          simp only [Int.cast_zero, sub_zero]
          exact ⟨m, j, hm, hj1, hj2, rfl⟩
        · linarith
  intro isDouble_fract
  refine and_of_imp ?_ ?_
  · intro q h
    obtain ⟨a1, a2, -⟩ := expo_spec q
    have hE : expo q ≤ 1022 := expo_le q 1022 (by norm_num)
      (by rw [show (1022 : ℤ) + 1 = 1023 by norm_num]; exact h)
    have e : ((2 ^ 53 : ℤ) : ℚ) * 2 ^ (expo q - 52) = 2 ^ (expo q + 1) := by
      rw [two_pow_mul_zpow]
      congr 1; ring
    have hy : |q / 2 ^ (expo q - 52)| < ((2 ^ 53 : ℤ) : ℚ) := by
      rw [abs_div, abs_of_pos (two_zpow_pos _), div_lt_iff₀ (two_zpow_pos _), e]
      exact a2
    obtain ⟨y1, y2⟩ := abs_lt.mp hy
    have n1 := rne_mono _ _ (le_of_lt y2)
    have n2 := rne_mono _ _ (le_of_lt y1)
    rw [rne_intCast] at n1
    rw [show (-((2 ^ 53 : ℤ) : ℚ)) = ((-(2 ^ 53) : ℤ) : ℚ) by push_cast; ring, rne_intCast] at n2
    set N := rne (q / 2 ^ (expo q - 52)) with hN
    have hfl : fl q = (N : ℚ) * 2 ^ (expo q - 52) := rfl
    rw [hfl]
    by_cases hb : |N| < 2 ^ 53
    · exact ⟨N, expo q - 52, hb, by omega, by omega, rfl⟩
    · have hN2 : N = 2 ^ 53 ∨ N = -(2 ^ 53) := by
        rw [abs_lt] at hb
        omega
      have e2 : (2 : ℚ) ^ (expo q - 51) = 2 * 2 ^ (expo q - 52) := by
        rw [show expo q - 51 = (expo q - 52) + 1 by ring, zpow_add_one₀ (by norm_num)]
        ring
      rcases hN2 with hN2 | hN2
      · refine ⟨2 ^ 52, expo q - 51, by norm_num, by omega, by omega, ?_⟩
        rw [hN2, e2]
        push_cast
        ring
      · refine ⟨-(2 ^ 52), expo q - 51, by norm_num, by omega, by omega, ?_⟩
        rw [hN2, e2]
        push_cast
        ring
  intro isDouble_fl
  refine and_of_imp ?_ ?_
  · intro q
    obtain ⟨a1, a2, a3⟩ := expo_spec q
    have h := fl_err q (expo q) a1 a2
    have e : (2 : ℚ) ^ (expo q - 53) = 2 ^ (expo q) / 2 ^ 53 := by
      rw [zpow_sub₀ (by norm_num)]; norm_num
    have hq := abs_nonneg q
    rcases a3 with a3 | a3
    · have h2 : (2 : ℚ) ^ (expo q - 53) ≤ 2 ^ (-100 : ℤ) :=
        zpow_le_zpow_right₀ (by norm_num) (by omega)
      have h3 : (2 : ℚ) ^ (-100 : ℤ) = 1 / 2 ^ 100 := by norm_num
      have h4 : 0 ≤ |q| / 2 ^ 53 := by positivity
      rw [h3] at h2
      exact le_trans h (le_trans h2 (le_add_of_nonneg_left h4))
    · have h2 : (2 : ℚ) ^ (expo q) / 2 ^ 53 ≤ |q| / 2 ^ 53 :=
        div_le_div_of_nonneg_right a3 (by positivity)
      have h4 : (0 : ℚ) ≤ 1 / 2 ^ 100 := by positivity
      rw [e] at h
      exact le_trans h (le_trans h2 (le_add_of_nonneg_right h4))
  intro fl_rel
  refine and_of_imp ?_ ?_
  · intro q h
    apply rnd_of_lt
    have e : (2 : ℚ) ^ 22 * 2 ^ (1000 : ℤ) = 2 ^ (1022 : ℤ) := by
      rw [show (1022 : ℤ) = 22 + 1000 by norm_num, zpow_add₀ (by norm_num)]
      norm_num
    rw [e] at h
    exact lt_of_le_of_lt h (zpow_lt_zpow_right₀ (by norm_num) (by norm_num))
  intro rnd_of_le
  refine and_of_imp ?_ ?_
  · exact one_le_zpow₀ (by norm_num) (by norm_num)
  intro one_le_big
  refine and_of_imp ?_ ?_
  · intro q v e N h
    obtain ⟨he, he2, h1, h2, h2b, h3, h3b, hv⟩ := h
    rw [hv]
    have e52 : (2 : ℚ) ^ (e - 52) = 2 * 2 ^ (e - 53) := by
      rw [show e - 52 = (e - 53) + 1 by ring, zpow_add_one₀ (by norm_num)]; ring
    have hp := two_zpow_pos (e - 53)
    apply rnd_eval q e N he he2
    · right
      rcases h1 with h1 | h1
      · exact le_trans h1 (le_abs_self q)
      · exact le_trans h1 (neg_le_abs q)
    · exact abs_lt.mpr ⟨h2, h2b⟩
    · left
      rw [e52, abs_lt, lt_sub_iff_add_lt, sub_lt_iff_lt_add, lt_div_iff₀ (by positivity),
        div_lt_iff₀ (by positivity)]
      constructor <;> nlinarith
  intro rnd_near
  refine and_of_imp ?_ ?_
  · intro q v e N h
    obtain ⟨he, he2, h1, h2, h2b, h3, hN, hv⟩ := h
    rw [hv]
    have e52 : (2 : ℚ) ^ (e - 52) = 2 * 2 ^ (e - 53) := by
      rw [show e - 52 = (e - 53) + 1 by ring, zpow_add_one₀ (by norm_num)]; ring
    have hp := two_zpow_pos (e - 53)
    apply rnd_eval q e N he he2
    · right
      rcases h1 with h1 | h1
      · exact le_trans h1 (le_abs_self q)
      · exact le_trans h1 (neg_le_abs q)
    · exact abs_lt.mpr ⟨h2, h2b⟩
    · right
      refine ⟨?_, hN⟩
      rcases h3 with h3 | h3
      · have : q / 2 ^ (e - 52) - N = 1 / 2 := by
          rw [h3, e52]; field_simp; ring
        rw [this]; norm_num
      · have : q / 2 ^ (e - 52) - N = -(1 / 2) := by
          rw [h3, e52]; field_simp; ring
        rw [this]; norm_num
  intro rnd_tie
  refine and_of_imp ?_ ?_
  · intro q v h
    unfold rnd at h
    split at h
    · exact Option.some.inj h
    · exact absurd h (by simp)
  intro fl_of_rnd
  refine and_of_imp ?_ ?_
  · intro q m j h1 h2 hj1 hj2 hq
    exact ⟨m, j, abs_lt.mpr ⟨h1, h2⟩, hj1, hj2, hq⟩
  intro isDouble_mk
  intro q v m j h
  obtain ⟨h1, h2, hj1, hj2, hv, hq⟩ := h
  rw [hq]
  exact rnd_exact v (isDouble_mk v m j h1 h2 hj1 hj2 hv)


/-! ## The angle reductions in binary64 arithmetic -/

set_option maxHeartbeats 3200000 in
/-- The steps of `revolution`, `rev180` and of the linear mean elements in binary64 arithmetic. -/
theorem reduction_facts :
    -- `INV360_eq`
    (INV360 = 6405119470038039 / 2305843009213693952) ∧
    -- `abs_cast_floor_le`
    (∀ (p : ℚ), |((⌊p⌋ : ℤ) : ℚ)| ≤ |p| + 1) ∧
    -- `revolution_spec`
    -- The steps of `revolution` on an argument below `2 ^ 1001`.
    (∀ (x : ℚ) (hx : |x| ≤ 2 * 2 ^ (1000 : ℤ)), ∃ r : ℚ, ∃ k : ℤ, revolution x = some r ∧
      |r - (x - 360 * k)| ≤ |x| / 2 ^ 52 + 1 / 2 ^ 43 ∧ -(|x| / 2 ^ 52 + 1 / 2 ^ 90) ≤ x - 360 * k ∧
      x - 360 * k < 360 + |x| / 2 ^ 52 + 1 / 2 ^ 90 ∧ (|x| ≤ 2 ^ 44 → r = fl (x - 360 * k))) ∧
    -- `rev180_steps`
    -- The steps of `rev180` on an argument below `2 ^ 1001`.
    (∀ (x : ℚ) (hx : |x| ≤ 2 * 2 ^ (1000 : ℤ)), ∃ r : ℚ, ∃ k : ℤ, rev180 x = some r ∧
      |r - (x - 360 * k)| ≤ |x| / 2 ^ 52 + 1 / 2 ^ 43 ∧
      -180 - (|x| / 2 ^ 51 + 1 / 2 ^ 45) ≤ x - 360 * k ∧
      x - 360 * k < 180 + |x| / 2 ^ 51 + 1 / 2 ^ 45 ∧ (|x| ≤ 2 ^ 44 → r = fl (x - 360 * k))) ∧
    -- `consts_eq`
    -- The binary64 values of the decimal constants of `GMST0` and `sunpos`.
    (fl 0.9856002585 = (8877497913833729 / 9007199254740992) ∧
      fl 4.70935E-5 = (3474886968140963 / 73786976294838206464) ∧
      fl 356.0470 = (782955633069523 / 2199023255552) ∧
      fl 282.9404 = (4977540156281481 / 17592186044416) ∧
      fl (fl 0.9856002585 + fl 4.70935E-5) = (1109740261796479 / 1125899906842624) ∧
      fl (fl (180 + fl 356.0470) + fl 282.9404) = (450243084651017 / 549755813888)) ∧
    -- `big_ge`
    ((2 : ℚ) ^ 20 ≤ 2 ^ (1000 : ℤ)) ∧
    -- `le_big`
    (∀ (q : ℚ) (h : |q| ≤ 2 ^ 20), |q| ≤ 2 ^ (1000 : ℤ)) ∧
    -- `linear_steps`
    -- The binary64 value of `c + m * d` for constants `0 ≤ c ≤ 1000` and `0 ≤ m ≤ 0.99`.
    (∀ (c m d : ℚ) (hc0 : 0 ≤ c) (hc : c ≤ 1000) (hm0 : 0 ≤ m) (hm : m ≤ 0.99) (hd : |d| ≤ 2 ^ (1000 : ℤ)),
      ∃ a s : ℚ, rnd (m * d) = some a ∧ rnd (c + a) = some s ∧
      |s - (c + m * d)| ≤ |d| / 2 ^ 52 + (c + 1) / 2 ^ 53 ∧ |s| ≤ c + |d| + 1) := by
  obtain ⟨-, -, -, -, -, -, -, -, -, -, -, -, -, -, -, -, fl_exact, -, isDouble_int, -, -, -, -,
      rnd_of_lt, -, -, -, -, -, fl_rel, rnd_of_le, one_le_big, rnd_near, rnd_tie, fl_of_rnd, -,
      rnd_dbl⟩ := rounding_facts
  refine and_of_imp ?_ ?_
  · have h := rnd_near (1 / 360) (6405119470038039 / 2305843009213693952) (-9) 6405119470038039
      (by norm_num)
    have h2 := rnd_of_lt (1 / 360) (lt_of_lt_of_le (by norm_num [abs_of_pos] : |(1 / 360 : ℚ)| < 1)
      (one_le_zpow₀ (by norm_num) (by norm_num)))
    rw [h2] at h
    exact Option.some.inj h
  intro INV360_eq
  refine and_of_imp ?_ ?_
  · intro p
    have k1 : ((⌊p⌋ : ℤ) : ℚ) ≤ p := Int.floor_le p
    have k2 : p < ((⌊p⌋ : ℤ) : ℚ) + 1 := Int.lt_floor_add_one p
    have a1 := le_abs_self p
    have a2 := neg_abs_le p
    exact abs_le.mpr ⟨by linarith, by linarith⟩
  intro abs_cast_floor_le
  refine and_of_imp ?_ ?_
  · intro x hx
    have hP1 := one_le_big
    have hx0 := abs_nonneg x
    have hxa := le_abs_self x
    have hxb := neg_abs_le x
    unfold revolution
    rw [INV360_eq]
    have hc : |x * (6405119470038039 / 2305843009213693952)|
        = |x| * (6405119470038039 / 2305843009213693952) := by
      rw [abs_mul, abs_of_pos (by norm_num : (0 : ℚ) < 6405119470038039 / 2305843009213693952)]
    have e1 := rnd_of_le (x * (6405119470038039 / 2305843009213693952)) (by rw [hc]; linarith)
    have r1 := fl_rel (x * (6405119470038039 / 2305843009213693952))
    rw [hc] at r1
    generalize fl (x * (6405119470038039 / 2305843009213693952)) = p at e1 r1
    rw [e1, Option.some_bind]
    obtain ⟨r1a, r1b⟩ := abs_le.mp r1
    have hpabs : |p| ≤ |x| + 1 := abs_le.mpr ⟨by linarith, by linarith⟩
    have k1 : ((⌊p⌋ : ℤ) : ℚ) ≤ p := Int.floor_le p
    have k2 : p < ((⌊p⌋ : ℤ) : ℚ) + 1 := Int.lt_floor_add_one p
    have hk := abs_cast_floor_le p
    generalize ⌊p⌋ = k at k1 k2 hk ⊢
    have hkc : |360 * (k : ℚ)| = 360 * |(k : ℚ)| := by
      rw [abs_mul, abs_of_pos (by norm_num : (0 : ℚ) < 360)]
    have e2 := rnd_of_le (360 * (k : ℚ)) (by rw [hkc]; linarith)
    have r2 := fl_rel (360 * (k : ℚ))
    rw [hkc] at r2
    obtain ⟨hka, hkb⟩ := abs_le.mp hk
    obtain ⟨hpa, hpb⟩ := abs_le.mp hpabs
    have hex : |x| ≤ 2 ^ 44 → fl (360 * (k : ℚ)) = 360 * (k : ℚ) := by
      intro h44
      have hq : |((360 * k : ℤ) : ℚ)| < ((2 ^ 53 : ℤ) : ℚ) := by
        push_cast
        rw [hkc]
        have : |(k : ℚ)| ≤ 2 ^ 44 / 256 + 2 := abs_le.mpr ⟨by linarith, by linarith⟩
        linarith
      have hq2 : |(360 * k : ℤ)| < 2 ^ 53 := by exact_mod_cast hq
      have := fl_exact _ (isDouble_int (360 * k) hq2)
      push_cast at this
      exact this
    generalize fl (360 * (k : ℚ)) = t at e2 r2 hex
    obtain ⟨r2a, r2b⟩ := abs_le.mp r2
    have hkabs : |(k : ℚ)| ≤ |x| / 359 + 1 + 1 / 2 ^ 100 := abs_le.mpr ⟨by linarith, by linarith⟩
    have hy1 : -(|x| / 2 ^ 52 + 1 / 2 ^ 90) ≤ x - 360 * k := by linarith
    have hy2 : x - 360 * k < 360 + |x| / 2 ^ 52 + 1 / 2 ^ 90 := by linarith
    have hxt : |x - t| ≤ 361 + |x| / 2 ^ 50 := abs_le.mpr ⟨by linarith, by linarith⟩
    have e3 := rnd_of_le (x - t) (by linarith)
    have r3 := fl_rel (x - t)
    obtain ⟨r3a, r3b⟩ := abs_le.mp r3
    refine ⟨fl (x - t), k, ?_, ?_, hy1, hy2, ?_⟩
    · rw [e2, Option.some_bind, e3]
    · exact abs_le.mpr ⟨by linarith, by linarith⟩
    · intro h44
      rw [hex h44]
  intro revolution_spec
  refine and_of_imp ?_ ?_
  · intro x hx
    have hP1 := one_le_big
    have hx0 := abs_nonneg x
    have hxa := le_abs_self x
    have hxb := neg_abs_le x
    unfold rev180
    rw [INV360_eq]
    have hc : |x * (6405119470038039 / 2305843009213693952)|
        = |x| * (6405119470038039 / 2305843009213693952) := by
      rw [abs_mul, abs_of_pos (by norm_num : (0 : ℚ) < 6405119470038039 / 2305843009213693952)]
    have e1 := rnd_of_le (x * (6405119470038039 / 2305843009213693952)) (by rw [hc]; linarith)
    have r1 := fl_rel (x * (6405119470038039 / 2305843009213693952))
    rw [hc] at r1
    generalize fl (x * (6405119470038039 / 2305843009213693952)) = p at e1 r1
    rw [e1, Option.some_bind]
    obtain ⟨r1a, r1b⟩ := abs_le.mp r1
    have hpabs : |p| ≤ |x| / 359 + 1 / 2 ^ 99 := abs_le.mpr ⟨by linarith, by linarith⟩
    obtain ⟨hpa, hpb⟩ := abs_le.mp hpabs
    have hp5 : |p + 0.5| ≤ |x| / 359 + 1 / 2 ^ 99 + 0.5 :=
      abs_le.mpr ⟨by norm_num; linarith, by norm_num; linarith⟩
    have e1b := rnd_of_le (p + 0.5) (by linarith)
    have r1c := fl_rel (p + 0.5)
    generalize fl (p + 0.5) = p2 at e1b r1c
    rw [e1b, Option.some_bind]
    obtain ⟨r1d, r1e⟩ := abs_le.mp r1c
    have hp2abs : |p2| ≤ |x| / 358 + 0.51 :=
      abs_le.mpr ⟨by norm_num at r1d r1e hp5 ⊢; linarith, by norm_num at r1d r1e hp5 ⊢; linarith⟩
    have k1 : ((⌊p2⌋ : ℤ) : ℚ) ≤ p2 := Int.floor_le p2
    have k2 : p2 < ((⌊p2⌋ : ℤ) : ℚ) + 1 := Int.lt_floor_add_one p2
    have hk := abs_cast_floor_le p2
    generalize ⌊p2⌋ = k at k1 k2 hk ⊢
    have hkc : |360 * (k : ℚ)| = 360 * |(k : ℚ)| := by
      rw [abs_mul, abs_of_pos (by norm_num : (0 : ℚ) < 360)]
    have e2 := rnd_of_le (360 * (k : ℚ)) (by rw [hkc]; linarith)
    have r2 := fl_rel (360 * (k : ℚ))
    rw [hkc] at r2
    obtain ⟨hka, hkb⟩ := abs_le.mp hk
    obtain ⟨hp2a, hp2b⟩ := abs_le.mp hp2abs
    have hex : |x| ≤ 2 ^ 44 → fl (360 * (k : ℚ)) = 360 * (k : ℚ) := by
      intro h44
      have hq : |((360 * k : ℤ) : ℚ)| < ((2 ^ 53 : ℤ) : ℚ) := by
        push_cast
        rw [hkc]
        have : |(k : ℚ)| ≤ 2 ^ 44 / 256 + 2 := abs_le.mpr ⟨by linarith, by linarith⟩
        linarith
      have hq2 : |(360 * k : ℤ)| < 2 ^ 53 := by exact_mod_cast hq
      have := fl_exact _ (isDouble_int (360 * k) hq2)
      push_cast at this
      exact this
    generalize fl (360 * (k : ℚ)) = t at e2 r2 hex
    obtain ⟨r2a, r2b⟩ := abs_le.mp r2
    have hy1 : -180 - (|x| / 2 ^ 51 + 1 / 2 ^ 45) ≤ x - 360 * k := by
      norm_num at r1d r1e hp5 ⊢; linarith
    have hy2 : x - 360 * k < 180 + |x| / 2 ^ 51 + 1 / 2 ^ 45 := by
      norm_num at r1d r1e hp5 ⊢; linarith
    have hkabs : |(k : ℚ)| ≤ |x| / 359 + 1 + 1 / 2 ^ 40 :=
      abs_le.mpr ⟨by linarith, by linarith⟩
    have hxt : |x - t| ≤ 181 + |x| / 2 ^ 50 := abs_le.mpr ⟨by linarith, by linarith⟩
    have e3 := rnd_of_le (x - t) (by linarith)
    have r3 := fl_rel (x - t)
    obtain ⟨r3a, r3b⟩ := abs_le.mp r3
    refine ⟨fl (x - t), k, ?_, ?_, hy1, hy2, ?_⟩
    · rw [e2, Option.some_bind, e3]
    · exact abs_le.mpr ⟨by linarith, by linarith⟩
    · intro h44
      rw [hex h44]
  intro rev180_steps
  refine and_of_imp ?_ ?_
  · have h1 : fl (0.9856002585) = (8877497913833729 / 9007199254740992) :=
      fl_of_rnd _ _ (rnd_near _ _ (-1) 8877497913833729 (by norm_num))
    have h2 : fl (4.70935E-5) = (3474886968140963 / 73786976294838206464) :=
      fl_of_rnd _ _ (rnd_near _ _ (-15) 6949773936281926 (by norm_num))
    have h3 : fl (356.0470) = (782955633069523 / 2199023255552) :=
      fl_of_rnd _ _ (rnd_near _ _ 8 6263645064556184 (by norm_num))
    have h4 : fl (282.9404) = (4977540156281481 / 17592186044416) :=
      fl_of_rnd _ _ (rnd_near _ _ 8 4977540156281481 (by norm_num))
    have h5 : fl ((8877497913833729 / 9007199254740992) + (3474886968140963 / 73786976294838206464)) =
        (1109740261796479 / 1125899906842624) :=
      fl_of_rnd _ _ (rnd_near _ _ (-1) 8877922094371832 (by norm_num))
    have h6 : fl (180 + (782955633069523 / 2199023255552)) = (1178779819068883 / 2199023255552) :=
      fl_of_rnd _ _ (rnd_dbl _ _ 1178779819068883 (-41) (by norm_num))
    have h7 : fl ((1178779819068883 / 2199023255552) + (4977540156281481 / 17592186044416)) =
        (450243084651017 / 549755813888) :=
      fl_of_rnd _ _ (rnd_tie _ _ 9 7203889354416272 (by norm_num))
    refine ⟨h1, h2, h3, h4, ?_, ?_⟩
    · rw [h1, h2, h5]
    · rw [h3, h6, h4, h7]
  intro consts_eq
  refine and_of_imp ?_ ?_
  · have h1 : (2 : ℚ) ^ 20 = 2 ^ (20 : ℤ) := by norm_num
    rw [h1]
    exact zpow_le_zpow_right₀ (by norm_num) (by norm_num)
  intro big_ge
  refine and_of_imp ?_ ?_
  · intro q h
    exact le_trans h big_ge
  intro le_big
  intro c m d hc0 hc hm0 hm hd
  have hP := big_ge
  have hd0 := abs_nonneg d
  have hmd : |m * d| ≤ 0.99 * |d| := by
    rw [abs_mul, abs_of_nonneg hm0]
    exact mul_le_mul_of_nonneg_right hm hd0
  have e1 := rnd_of_le (m * d) (by linarith)
  have r1 := fl_rel (m * d)
  generalize fl (m * d) = a at e1 r1
  obtain ⟨r1a, r1b⟩ := abs_le.mp r1
  obtain ⟨ma, mb⟩ := abs_le.mp hmd
  have ha : |c + a| ≤ c + |d| + 1 / 2 := abs_le.mpr ⟨by linarith, by linarith⟩
  have e2 := rnd_of_le (c + a) (by linarith)
  have r2 := fl_rel (c + a)
  generalize fl (c + a) = s at e2 r2
  obtain ⟨r2a, r2b⟩ := abs_le.mp r2
  refine ⟨a, s, e1, e2, abs_le.mpr ⟨by linarith, by linarith⟩, abs_le.mpr ⟨by linarith, by linarith⟩⟩


/-! ## The formatting layer in binary64 arithmetic -/

set_option maxHeartbeats 3200000 in
/-- The steps of `convert` and `hours_to_s` in binary64 arithmetic. -/
theorem format_facts :
    -- `pow64_le_big`
    ((2 : ℚ) ^ 64 ≤ 2 ^ 22 * 2 ^ (1000 : ℤ)) ∧
    -- `rnd_small`
    (∀ (q : ℚ) (h : |q| ≤ 2 ^ 64), rnd q = some (fl q)) ∧
    -- `isDouble_fl_small`
    (∀ (q : ℚ) (h : |q| ≤ 2 ^ 64), IsDouble (fl q)) ∧
    -- `fl_one`
    (fl 1 = 1) ∧
    -- `fl_sixty`
    (fl 60 = 60) ∧
    -- `fl_lt_one`
    -- A number below the midpoint of the last two binary64 numbers up to 1 is
    -- not rounded to 1.
    (∀ (y : ℚ) (h : y < 1 - 1 / 2 ^ 54), fl y ≤ 1 - 1 / 2 ^ 53) ∧
    -- `fl_tie_one`
    -- The midpoint of the last two binary64 numbers up to 1 is rounded to 1.
    (fl (1 - 1 / 2 ^ 54) = 1) ∧
    -- `fl_below_sixty`
    (fl (60 - 60 / 2 ^ 53) = 60 - 1 / 2 ^ 47) ∧
    -- `fract_steps`
    -- The binary64 value of `ut - floor(ut)`.
    (∀ (ut : ℚ), ∃ f : ℚ, rnd (ut - (⌊ut⌋ : ℚ)) = some f ∧ 0 ≤ f ∧ f ≤ 1 ∧ IsDouble f ∧
      |f - (ut - (⌊ut⌋ : ℚ))| ≤ 1 / 2 ^ 54 ∧
      (IsDouble ut → (0 ≤ ut ∨ ut ≤ -1 / 2) → f = ut - (⌊ut⌋ : ℚ)) ∧
      (IsDouble ut → (ut < -(1 / 2 ^ 54) ∨ 0 ≤ ut) → f ≤ 1 - 1 / 2 ^ 53) ∧
      (-(1 / 2 ^ 54) ≤ ut → ut < 0 → f = 1)) ∧
    -- `sixty_steps`
    -- The binary64 value of `60 * f` for a fraction `f`.
    (∀ (f : ℚ) (h0 : 0 ≤ f) (h1 : f ≤ 1),
      ∃ p : ℚ, rnd (60 * f) = some p ∧ 0 ≤ p ∧ p ≤ 60 ∧ IsDouble p ∧ |p - 60 * f| ≤ 1 / 2 ^ 48 ∧
      (f ≤ 1 - 1 / 2 ^ 53 → p ≤ 60 - 1 / 2 ^ 47) ∧ (f = 1 → p = 60) ∧ ((⌊60 * f⌋ : ℤ) : ℚ) ≤ p) ∧
    -- `to_int_small`
    (∀ (x : ℚ) (h0 : 0 ≤ x) (h1 : x ≤ 60), to_int x = some ⌊x⌋) ∧
    -- `to_int_floor`
    (∀ (ut : ℚ) (h1 : -2147483648 ≤ ut) (h2 : ut < 2147483648),
      to_int ((⌊ut⌋ : ℤ) : ℚ) = some ⌊ut⌋) ∧
    -- `floor_perturb`
    -- A perturbation of less than one moves the floor by at most one.
    (∀ (a ε : ℚ) (h : |ε| ≤ 1 / 2), |⌊a + ε⌋ - ⌊a⌋| ≤ 1) ∧
    -- `convert_minute`
    -- The minute stored by `convert`.
    (∀ (tz : ℤ) (ut : ℚ), ∃ f p : ℚ, rnd (ut - (⌊ut⌋ : ℚ)) = some f ∧ rnd (60 * f) = some p ∧
      (convert tz ut).2 = some (⌊p⌋ + Int.tdiv (Int.tmod tz 3600) 60)) ∧
    -- `convert_hour`
    -- The hour stored by `convert` when no conversion to `int` overflows.
    (∀ (tz : ℤ) (ut : ℚ) (h1 : -2147483648 ≤ ut) (h2 : ut < 2147483648) (h3 : INT_MIN ≤ ⌊ut⌋ + Int.tdiv tz 3600) (h4 : ⌊ut⌋ + Int.tdiv tz 3600 ≤ INT_MAX),
      (convert tz ut).1 = some (⌊ut⌋ + Int.tdiv tz 3600)) ∧
    -- `to_int_big`
    ((hours_to_s 2147483648).1 = none) := by
  obtain ⟨-, -, -, -, -, -, -, -, -, -, -, -, fl_err, -, -, -, fl_exact, -, isDouble_int, fl_nonneg,
      fl_mono, -, -, -, isDouble_lt_one, -, -, isDouble_fract, isDouble_fl, -, rnd_of_le,
      one_le_big, rnd_near, rnd_tie, fl_of_rnd, isDouble_mk, -⟩ := rounding_facts
  obtain ⟨-, -, -, tmod_tdiv_bounds⟩ := tdiv_facts
  refine and_of_imp ?_ ?_
  · have h1 : (2 : ℚ) ^ 64 = 2 ^ (64 : ℤ) := by norm_num
    have h2 : (2 : ℚ) ^ (64 : ℤ) ≤ 2 ^ (1000 : ℤ) := zpow_le_zpow_right₀ (by norm_num) (by norm_num)
    have h3 := one_le_big
    rw [h1]
    linarith
  intro pow64_le_big
  refine and_of_imp ?_ ?_
  · intro q h
    exact rnd_of_le q (le_trans h pow64_le_big)
  intro rnd_small
  refine and_of_imp ?_ ?_
  · intro q h
    apply isDouble_fl
    have h1 : (2 : ℚ) ^ 64 = 2 ^ (64 : ℤ) := by norm_num
    rw [h1] at h
    exact lt_of_le_of_lt h (zpow_lt_zpow_right₀ (by norm_num) (by norm_num))
  intro isDouble_fl_small
  refine and_of_imp ?_ ?_
  · exact fl_exact 1 (isDouble_mk 1 1 0 (by norm_num) (by norm_num) (by norm_num) (by norm_num)
        (by norm_num))
  intro fl_one
  refine and_of_imp ?_ ?_
  · exact fl_exact 60 (isDouble_mk 60 60 0 (by norm_num) (by norm_num) (by norm_num) (by norm_num)
        (by norm_num))
  intro fl_sixty
  refine and_of_imp ?_ ?_
  · intro y h
    rcases le_or_lt y (1 - 1 / 2 ^ 53) with h1 | h1
    · have := fl_mono y _ h1
      rwa [fl_exact (1 - 1 / 2 ^ 53) (isDouble_mk _ (2 ^ 53 - 1) (-53) (by norm_num) (by norm_num)
        (by norm_num) (by norm_num) (by norm_num))] at this
    · have := fl_of_rnd _ _ (rnd_near y (1 - 1 / 2 ^ 53) (-1) (2 ^ 53 - 1) ⟨by norm_num,
        by norm_num, Or.inl (by norm_num at h1 ⊢; linarith), by norm_num at h1 ⊢; linarith,
        by norm_num at h ⊢; linarith, by norm_num at h1 ⊢; linarith,
        by norm_num at h ⊢; linarith, by norm_num⟩)
      rw [this]
  intro fl_lt_one
  refine and_of_imp ?_ ?_
  · exact fl_of_rnd _ _ (rnd_tie _ _ (-1) (2 ^ 53) (by norm_num))
  intro fl_tie_one
  refine and_of_imp ?_ ?_
  · exact fl_of_rnd _ _ (rnd_near _ _ 5 8444249301319679 (by norm_num))
  intro fl_below_sixty
  refine and_of_imp ?_ ?_
  · intro ut
    have k1 := Int.floor_le ut
    have k2 := Int.lt_floor_add_one ut
    have hy0 : 0 ≤ ut - (⌊ut⌋ : ℚ) := by linarith
    have hy1 : ut - (⌊ut⌋ : ℚ) < 1 := by linarith
    have habs : |ut - (⌊ut⌋ : ℚ)| < 1 := abs_lt.mpr ⟨by linarith, hy1⟩
    have hfloor : -1 ≤ ut → ut < 0 → ((⌊ut⌋ : ℤ) : ℚ) = -1 := by
      intro a b
      have : ⌊ut⌋ = -1 := by
        rw [Int.floor_eq_iff]
        constructor
        · push_cast; linarith
        · push_cast; linarith
      rw [this]; norm_num
    have hex : IsDouble ut → (0 ≤ ut ∨ ut ≤ -1 / 2) → fl (ut - (⌊ut⌋ : ℚ)) = ut - (⌊ut⌋ : ℚ) :=
      fun hd hx => fl_exact _ (isDouble_fract ut hd hx)
    have hle : fl (ut - (⌊ut⌋ : ℚ)) ≤ 1 := by
      have := fl_mono _ _ (le_of_lt hy1)
      rwa [fl_one] at this
    refine ⟨fl (ut - (⌊ut⌋ : ℚ)), rnd_small _ (by linarith), fl_nonneg _ hy0, hle,
      isDouble_fl_small _ (by linarith), ?_, hex, ?_, ?_⟩
    · have := fl_err (ut - (⌊ut⌋ : ℚ)) (-1) (by norm_num) (by norm_num; exact habs)
      norm_num at this ⊢
      exact this
    · intro hd hz
      have hlt : IsDouble (ut - (⌊ut⌋ : ℚ)) → fl (ut - (⌊ut⌋ : ℚ)) ≤ 1 - 1 / 2 ^ 53 := by
        intro h
        rw [fl_exact _ h]
        have := isDouble_lt_one _ h hy1
        norm_num at this ⊢
        exact this
      rcases hz with hz | hz
      · rcases le_or_lt ut (-1 / 2) with h2 | h2
        · exact hlt (isDouble_fract ut hd (Or.inr h2))
        · have hf := hfloor (by linarith) (by
            have : (0 : ℚ) < 1 / 2 ^ 54 := by positivity
            linarith)
          rw [hf]
          apply fl_lt_one
          linarith
      · exact hlt (isDouble_fract ut hd (Or.inl hz))
    · intro a b
      have h54 : (1 : ℚ) / 2 ^ 54 ≤ 1 := by norm_num
      have hf := hfloor (by linarith) b
      apply le_antisymm hle
      have := fl_mono (1 - 1 / 2 ^ 54) (ut - (⌊ut⌋ : ℚ)) (by rw [hf]; linarith)
      rwa [fl_tie_one] at this
  intro fract_steps
  refine and_of_imp ?_ ?_
  · intro f h0 h1
    have habs : |60 * f| ≤ 60 := abs_le.mpr ⟨by linarith, by linarith⟩
    have hle : fl (60 * f) ≤ 60 := by
      have := fl_mono (60 * f) 60 (by linarith)
      rwa [fl_sixty] at this
    refine ⟨fl (60 * f), rnd_small _ (by linarith), fl_nonneg _ (by linarith), hle,
      isDouble_fl_small _ (by linarith), ?_, ?_, ?_, ?_⟩
    · have := fl_err (60 * f) 5 (by norm_num) (by norm_num; linarith)
      norm_num at this ⊢
      exact this
    · intro h
      have := fl_mono (60 * f) (60 - 60 / 2 ^ 53) (by linarith)
      rwa [fl_below_sixty] at this
    · intro h
      rw [h, mul_one, fl_sixty]
    · have hfl : ((⌊60 * f⌋ : ℤ) : ℚ) ≤ 60 * f := Int.floor_le _
      have hn : (0 : ℤ) ≤ ⌊60 * f⌋ := Int.floor_nonneg.mpr (by linarith)
      have hb : ⌊60 * f⌋ ≤ 60 := by
        have : ⌊60 * f⌋ < 61 := Int.floor_lt.mpr (by push_cast; linarith)
        omega
      have := fl_mono _ _ hfl
      rwa [fl_exact _ (isDouble_int _ (by rw [abs_of_nonneg hn]; omega))] at this
  intro sixty_steps
  refine and_of_imp ?_ ?_
  · intro x h0 h1
    unfold to_int
    simp only [if_pos h0]
    have a : 0 ≤ ⌊x⌋ := Int.floor_nonneg.mpr h0
    have b : ⌊x⌋ < 61 := Int.floor_lt.mpr (by push_cast; linarith)
    rw [if_pos]
    unfold INT_MIN INT_MAX
    constructor <;> omega
  intro to_int_small
  refine and_of_imp ?_ ?_
  · intro ut h1 h2
    have a : (-2147483648 : ℤ) ≤ ⌊ut⌋ := Int.le_floor.mpr (by push_cast; exact h1)
    have b : ⌊ut⌋ < (2147483648 : ℤ) := Int.floor_lt.mpr (by push_cast; exact h2)
    unfold to_int
    simp only [Int.floor_intCast, Int.ceil_intCast, ite_self]
    rw [if_pos]
    unfold INT_MIN INT_MAX
    constructor <;> omega
  intro to_int_floor
  refine and_of_imp ?_ ?_
  · intro a ε h
    obtain ⟨e1, e2⟩ := abs_le.mp h
    have a1 := Int.floor_le a
    have a2 := Int.lt_floor_add_one a
    have b1 := Int.floor_le (a + ε)
    have b2 := Int.lt_floor_add_one (a + ε)
    have c1 : ((⌊a + ε⌋ : ℤ) : ℚ) < ((⌊a⌋ + 2 : ℤ) : ℚ) := by push_cast; linarith
    have c2 : ((⌊a⌋ : ℤ) : ℚ) < ((⌊a + ε⌋ + 2 : ℤ) : ℚ) := by push_cast; linarith
    have d1 : ⌊a + ε⌋ < ⌊a⌋ + 2 := by exact_mod_cast c1
    have d2 : ⌊a⌋ < ⌊a + ε⌋ + 2 := by exact_mod_cast c2
    rw [abs_le]
    constructor <;> omega
  intro floor_perturb
  refine and_of_imp ?_ ?_
  · intro tz ut
    obtain ⟨f, ef, f0, f1, -⟩ := fract_steps ut
    obtain ⟨p, ep, p0, p1, -⟩ := sixty_steps f f0 f1
    obtain ⟨e1, e2⟩ := tmod_tdiv_bounds tz
    have a : 0 ≤ ⌊p⌋ := Int.floor_nonneg.mpr p0
    have b : ⌊p⌋ < 61 := Int.floor_lt.mpr (by push_cast; linarith)
    refine ⟨f, p, ef, ep, ?_⟩
    unfold convert timediff int_of_long
    simp only [ef, ep, to_int_small p p0 p1, Option.some_bind]
    rw [if_pos]
    unfold INT_MIN INT_MAX
    constructor <;> omega
  intro convert_minute
  refine and_of_imp ?_ ?_
  · intro tz ut h1 h2 h3 h4
    unfold convert timediff int_of_long
    simp only [to_int_floor ut h1 h2, Option.some_bind, if_pos (And.intro h3 h4)]
  intro convert_hour
  have hf : ⌊(2147483648 : ℚ)⌋ = 2147483648 := by
    rw [Int.floor_eq_iff]; constructor <;> norm_num
  unfold hours_to_s to_int
  simp only [hf, Int.floor_intCast, Int.ceil_intCast, ite_self]
  rw [if_neg]
  unfold INT_MAX
  intro h
  omega


end B64
/-! ## The claims about the angle reductions and the formatting layer

The claims C9, C10, C14, C16, C17, C18 and C19 are settled on the binary64
embedding of the namespace `B64`. -/

namespace B64

/-- C9, as stated, fails in binary64 arithmetic.  For the `double` `-2 ^ -70`
the product `x * INV360` is a tiny negative number, its floor is `-1`, and
`x + 360` is rounded to `360`: `revolution` returns exactly `360`.  For the
`double` `1800 - 2 ^ -42` the product `x * INV360` is rounded to `5`, and
`revolution` returns `-2 ^ -42`, a negative number.  For `10 ^ 18` the product
`360 * floor (x * INV360)` is itself rounded and `revolution` returns `-128`.
So the result is not always in `[0, 360)`. -/
theorem C9_revolution_counterexample :
    IsDouble (-(1 / 2 ^ 70)) ∧ revolution (-(1 / 2 ^ 70)) = some 360 ∧
    IsDouble (1800 - 1 / 2 ^ 42) ∧ revolution (1800 - 1 / 2 ^ 42) = some (-(1 / 2 ^ 42)) ∧
    IsDouble (10 ^ 18) ∧ revolution (10 ^ 18) = some (-128) ∧
    ¬ ∀ x r : ℚ, IsDouble x → revolution x = some r → 0 ≤ r ∧ r < 360 := by
  obtain ⟨-, -, -, -, -, -, -, -, -, -, -, -, -, -, -, -, -, -, -, -, -, -, -, -, -, -, -, -, -, -,
      -, -, rnd_near, -, -, isDouble_mk, rnd_dbl⟩ := rounding_facts
  obtain ⟨INV360_eq, -⟩ := reduction_facts
  have d1 : IsDouble (-(1 / 2 ^ 70)) :=
    isDouble_mk _ (-1) (-70) (by norm_num) (by norm_num) (by norm_num) (by norm_num) (by norm_num)
  have d2 : IsDouble (1800 - 1 / 2 ^ 42) :=
    isDouble_mk _ 7916483719987199 (-42) (by norm_num) (by norm_num) (by norm_num) (by norm_num)
      (by norm_num)
  have d3 : IsDouble (10 ^ 18) :=
    isDouble_mk _ 3814697265625 18 (by norm_num) (by norm_num) (by norm_num) (by norm_num)
      (by norm_num)
  have c1 : revolution (-(1 / 2 ^ 70)) = some 360 := by
    have h1 : rnd ((-(1 / 2 ^ 70)) * INV360) = some
        (-(6405119470038039 / 2722258935367507707706996859454145691648)) := by
      rw [INV360_eq]
      exact rnd_dbl _ _ (-6405119470038039) (-131) (by norm_num)
    have h2 : ⌊((-(6405119470038039 / 2722258935367507707706996859454145691648)) : ℚ)⌋ = (-1) := by
      rw [Int.floor_eq_iff]; constructor <;> norm_num
    have h3 : rnd (360 * (((-1) : ℤ) : ℚ)) = some (-360) := rnd_dbl _ _ (-45) 3 (by norm_num)
    have h4 : rnd ((-(1 / 2 ^ 70)) - (-360)) = some 360 :=
      rnd_near _ _ 8 6333186975989760 (by norm_num)
    unfold revolution
    rw [h1, Option.some_bind, h2, h3, Option.some_bind, h4]
  have c2 : revolution (1800 - 1 / 2 ^ 42) = some (-(1 / 4398046511104)) := by
    have h1 : rnd ((1800 - 1 / 2 ^ 42) * INV360) = some 5 := by
      rw [INV360_eq]
      exact rnd_near _ _ 2 5629499534213120 (by norm_num)
    have h2 : ⌊(5 : ℚ)⌋ = 5 := by
      rw [Int.floor_eq_iff]; constructor <;> norm_num
    have h3 : rnd (360 * ((5 : ℤ) : ℚ)) = some 1800 := rnd_dbl _ _ 225 3 (by norm_num)
    have h4 : rnd ((1800 - 1 / 2 ^ 42) - 1800) = some (-(1 / 4398046511104)) :=
      rnd_dbl _ _ (-1) (-42) (by norm_num)
    unfold revolution
    rw [h1, Option.some_bind, h2, h3, Option.some_bind, h4]
  have c3 : revolution (10 ^ 18) = some (-128) := by
    have h1 : rnd ((10 ^ 18) * INV360) = some 2777777777777778 := by
      rw [INV360_eq]
      exact rnd_near _ _ 51 5555555555555556 (by norm_num)
    have h2 : ⌊(2777777777777778 : ℚ)⌋ = 2777777777777778 := by
      rw [Int.floor_eq_iff]; constructor <;> norm_num
    have h3 : rnd (360 * ((2777777777777778 : ℤ) : ℚ)) = some 1000000000000000128 :=
      rnd_near _ _ 59 7812500000000001 (by norm_num)
    have h4 : rnd ((10 ^ 18) - 1000000000000000128) = some (-128) :=
      rnd_dbl _ _ (-1) 7 (by norm_num)
    unfold revolution
    rw [h1, Option.some_bind, h2, h3, Option.some_bind, h4]
  have e : (-(1 / 4398046511104) : ℚ) = -(1 / 2 ^ 42) := by norm_num
  rw [e] at c2
  refine ⟨d1, c1, d2, c2, d3, c3, fun h => ?_⟩
  have := (h _ _ d1 c1).2
  norm_num at this


/-- C9, amended: for every `x` with `|x| ≤ 2 ^ 1000` (no operation overflows),
`revolution x` in binary64 arithmetic returns a value `r` that is a
representative of `x` modulo 360 up to rounding, in `[0, 360]` up to rounding:
for some integer `k`, `|r - (x - 360 k)| ≤ |x| / 2 ^ 52 + 2 ^ -43` and
`-(|x| / 2 ^ 51 + 2 ^ -42) ≤ r ≤ 360 + |x| / 2 ^ 51 + 2 ^ -42`; for
`|x| ≤ 2 ^ 44` the result is the correctly rounded value of `x - 360 k`.  The
result can be negative and can be equal to 360. -/
theorem C9_revolution_representative (x : ℚ) (hx : |x| ≤ 2 ^ (1000 : ℤ)) :
    ∃ r : ℚ, ∃ k : ℤ, revolution x = some r ∧
      |r - (x - 360 * k)| ≤ |x| / 2 ^ 52 + 1 / 2 ^ 43 ∧
      -(|x| / 2 ^ 51 + 1 / 2 ^ 42) ≤ r ∧ r ≤ 360 + |x| / 2 ^ 51 + 1 / 2 ^ 42 ∧
      (|x| ≤ 2 ^ 44 → r = fl (x - 360 * k)) := by
  obtain ⟨-, -, -, -, -, -, -, -, -, -, -, -, -, -, -, -, -, -, -, -, -, -, -, -, -, -, -, -, -, -,
      -, one_le_big, -⟩ := rounding_facts
  obtain ⟨-, -, revolution_spec, -⟩ := reduction_facts
  have hP := one_le_big
  have hx0 := abs_nonneg x
  obtain ⟨r, k, e, rerr, y1, y2, hex⟩ := revolution_spec x (by linarith)
  obtain ⟨ra, rb⟩ := abs_le.mp rerr
  exact ⟨r, k, e, rerr, by linarith, by linarith, hex⟩


/-- The hypothesis of C9 holds for the `double` `1800 - 2 ^ -42`, where the
result is negative. -/
theorem C9_revolution_representative_witness :
    |(1800 - 1 / 2 ^ 42 : ℚ)| ≤ 2 ^ (1000 : ℤ) ∧
    ∃ r : ℚ, ∃ k : ℤ, revolution (1800 - 1 / 2 ^ 42 : ℚ) = some r ∧
      |r - ((1800 - 1 / 2 ^ 42 : ℚ) - 360 * k)| ≤ |(1800 - 1 / 2 ^ 42 : ℚ)| / 2 ^ 52 + 1 / 2 ^ 43 ∧
      -(|(1800 - 1 / 2 ^ 42 : ℚ)| / 2 ^ 51 + 1 / 2 ^ 42) ≤ r ∧ r ≤ 360 + |(1800 - 1 / 2 ^ 42 : ℚ)| / 2 ^ 51 + 1 / 2 ^ 42 ∧
      (|(1800 - 1 / 2 ^ 42 : ℚ)| ≤ 2 ^ 44 → r = fl ((1800 - 1 / 2 ^ 42 : ℚ) - 360 * k)) := by
  obtain ⟨-, -, -, -, -, -, le_big, -⟩ := reduction_facts
  exact ⟨le_big _ (abs_le.mpr ⟨by norm_num, by norm_num⟩),
      C9_revolution_representative (1800 - 1 / 2 ^ 42)
        (le_big _ (abs_le.mpr ⟨by norm_num, by norm_num⟩))⟩


/-- C10, as stated, fails in binary64 arithmetic: `rev180 180 = -180`, the
value that the claim excludes, and for the `double` `180 - 2 ^ -45` (the
predecessor of 180) the sum `x * INV360 + 0.5` is rounded to `1`, so that
`rev180` returns `-180 - 2 ^ -45`, below `-180`.  For `2 ^ 60` it returns
`-256`. -/
theorem C10_rev180_counterexample :
    rev180 180 = some (-180) ∧
    IsDouble (180 - 1 / 2 ^ 45) ∧ rev180 (180 - 1 / 2 ^ 45) = some (-180 - 1 / 2 ^ 45) ∧
    IsDouble (2 ^ 60) ∧ rev180 (2 ^ 60) = some (-256) ∧
    ¬ ∀ x r : ℚ, IsDouble x → rev180 x = some r → -180 < r ∧ r ≤ 180 := by
  obtain ⟨-, -, -, -, -, -, -, -, -, -, -, -, -, -, -, -, -, -, -, -, -, -, -, -, -, -, -, -, -, -,
      -, -, rnd_near, rnd_tie, -, isDouble_mk, rnd_dbl⟩ := rounding_facts
  obtain ⟨INV360_eq, -⟩ := reduction_facts
  have d1 : IsDouble 180 :=
    isDouble_mk _ 45 2 (by norm_num) (by norm_num) (by norm_num) (by norm_num) (by norm_num)
  have d2 : IsDouble (180 - 1 / 2 ^ 45) :=
    isDouble_mk _ 6333186975989759 (-45) (by norm_num) (by norm_num) (by norm_num) (by norm_num)
      (by norm_num)
  have d3 : IsDouble (2 ^ 60) :=
    isDouble_mk _ 1 60 (by norm_num) (by norm_num) (by norm_num) (by norm_num) (by norm_num)
  have c1 : rev180 180 = some (-180) := by
    have h1 : rnd (180 * INV360) = some (1 / 2) := by
      rw [INV360_eq]
      exact rnd_near _ _ (-1) 4503599627370496 (by norm_num)
    have h2 : rnd ((1 / 2) + 0.5) = some 1 := rnd_dbl _ _ 1 0 (by norm_num)
    have h3 : ⌊(1 : ℚ)⌋ = 1 := by
      rw [Int.floor_eq_iff]; constructor <;> norm_num
    have h4 : rnd (360 * ((1 : ℤ) : ℚ)) = some 360 := rnd_dbl _ _ 45 3 (by norm_num)
    have h5 : rnd (180 - 360) = some (-180) := rnd_dbl _ _ (-45) 2 (by norm_num)
    unfold rev180
    rw [h1, Option.some_bind, h2, Option.some_bind, h3, h4, Option.some_bind, h5]
  have c2 : rev180 (180 - 1 / 2 ^ 45) = some (-(6333186975989761 / 35184372088832)) := by
    have h1 : rnd ((180 - 1 / 2 ^ 45) * INV360) = some (9007199254740991 / 18014398509481984) := by
      rw [INV360_eq]
      exact rnd_near _ _ (-2) 9007199254740991 (by norm_num)
    have h2 : rnd ((9007199254740991 / 18014398509481984) + 0.5) = some 1 :=
      rnd_tie _ _ (-1) 9007199254740992 (by norm_num)
    have h3 : ⌊(1 : ℚ)⌋ = 1 := by
      rw [Int.floor_eq_iff]; constructor <;> norm_num
    have h4 : rnd (360 * ((1 : ℤ) : ℚ)) = some 360 := rnd_dbl _ _ 45 3 (by norm_num)
    have h5 : rnd ((180 - 1 / 2 ^ 45) - 360) = some (-(6333186975989761 / 35184372088832)) :=
      rnd_dbl _ _ (-6333186975989761) (-45) (by norm_num)
    unfold rev180
    rw [h1, Option.some_bind, h2, Option.some_bind, h3, h4, Option.some_bind, h5]
  have c3 : rev180 (2 ^ 60) = some (-256) := by
    have h1 : rnd ((2 ^ 60) * INV360) = some (6405119470038039 / 2) := by
      rw [INV360_eq]
      exact rnd_dbl _ _ 6405119470038039 (-1) (by norm_num)
    have h2 : rnd ((6405119470038039 / 2) + 0.5) = some 3202559735019020 :=
      rnd_dbl _ _ 800639933754755 2 (by norm_num)
    have h3 : ⌊(3202559735019020 : ℚ)⌋ = 3202559735019020 := by
      rw [Int.floor_eq_iff]; constructor <;> norm_num
    have h4 : rnd (360 * ((3202559735019020 : ℤ) : ℚ)) = some 1152921504606847232 :=
      rnd_near _ _ 60 4503599627370497 (by norm_num)
    have h5 : rnd ((2 ^ 60) - 1152921504606847232) = some (-256) := rnd_dbl _ _ (-1) 8 (by norm_num)
    unfold rev180
    rw [h1, Option.some_bind, h2, Option.some_bind, h3, h4, Option.some_bind, h5]
  have e : ((-(6333186975989761 / 35184372088832)) : ℚ) = -180 - 1 / 2 ^ 45 := by norm_num
  rw [e] at c2
  refine ⟨c1, d2, c2, d3, c3, fun h => ?_⟩
  have := (h _ _ d1 c1).1
  norm_num at this


/-- C10, amended: for every `x` with `|x| ≤ 2 ^ 1000` (no operation
overflows), `rev180 x` in binary64 arithmetic returns a value `r` in
`[-180, 180]` up to rounding,
`-180 - (|x| / 2 ^ 50 + 2 ^ -42) ≤ r ≤ 180 + |x| / 2 ^ 50 + 2 ^ -42`, which
is a representative of `x` modulo 360 up to rounding; for `|x| ≤ 2 ^ 44` it is
the correctly rounded value of `x - 360 k`.  The value `-180` is returned (at
`x = 180`), and so are values below `-180`. -/
theorem C10_rev180_range (x : ℚ) (hx : |x| ≤ 2 ^ (1000 : ℤ)) :
    ∃ r : ℚ, ∃ k : ℤ, rev180 x = some r ∧
      |r - (x - 360 * k)| ≤ |x| / 2 ^ 52 + 1 / 2 ^ 43 ∧
      -180 - (|x| / 2 ^ 50 + 1 / 2 ^ 42) ≤ r ∧ r ≤ 180 + |x| / 2 ^ 50 + 1 / 2 ^ 42 ∧
      (|x| ≤ 2 ^ 44 → r = fl (x - 360 * k)) := by
  obtain ⟨-, -, -, -, -, -, -, -, -, -, -, -, -, -, -, -, -, -, -, -, -, -, -, -, -, -, -, -, -, -,
      -, one_le_big, -⟩ := rounding_facts
  obtain ⟨-, -, -, rev180_steps, -⟩ := reduction_facts
  have hP := one_le_big
  have hx0 := abs_nonneg x
  obtain ⟨r, k, e, rerr, y1, y2, hex⟩ := rev180_steps x (by linarith)
  obtain ⟨ra, rb⟩ := abs_le.mp rerr
  exact ⟨r, k, e, rerr, by linarith, by linarith, hex⟩


/-- The hypothesis of C10 holds for `x = 180`. -/
theorem C10_rev180_range_witness :
    |(180 : ℚ)| ≤ 2 ^ (1000 : ℤ) ∧
    ∃ r : ℚ, ∃ k : ℤ, rev180 180 = some r ∧
      |r - ((180 : ℚ) - 360 * k)| ≤ |(180 : ℚ)| / 2 ^ 52 + 1 / 2 ^ 43 ∧
      -180 - (|(180 : ℚ)| / 2 ^ 50 + 1 / 2 ^ 42) ≤ r ∧ r ≤ 180 + |(180 : ℚ)| / 2 ^ 50 + 1 / 2 ^ 42 ∧
      (|(180 : ℚ)| ≤ 2 ^ 44 → r = fl ((180 : ℚ) - 360 * k)) := by
  obtain ⟨-, -, -, -, -, -, le_big, -⟩ := reduction_facts
  exact ⟨le_big _ (abs_le.mpr ⟨by norm_num, by norm_num⟩),
      C10_rev180_range 180 (le_big _ (abs_le.mpr ⟨by norm_num, by norm_num⟩))⟩


/-- C14, as stated, fails in binary64 arithmetic.  At the `double`
`d = 995.2977583812348` (the epoch of day number 995, 2002-09-21, at longitude
72.80698275546685; inside 1801-2099) the argument of `revolution` in `GMST0`
is the `double` `1800 - 2 ^ -42`, and `GMST0 d = -2 ^ -42`, a negative
number: the consequence `0 ≤ GMST0 d` does not hold. -/
theorem C14_GMST0_counterexample :
    IsDouble (fl 995.2977583812348) ∧ GMST0 (fl 995.2977583812348) = some (-(1 / 2 ^ 42)) ∧
    ¬ ∀ d g : ℚ, IsDouble d → |d| ≤ 73000 → GMST0 d = some g → 0 ≤ g ∧ g < 360 := by
  obtain ⟨-, -, -, -, -, -, -, -, -, -, -, -, -, -, -, -, -, -, -, -, -, -, -, -, -, -, -, -, -, -,
      -, -, rnd_near, -, fl_of_rnd, isDouble_mk, rnd_dbl⟩ := rounding_facts
  obtain ⟨INV360_eq, -, -, -, consts_eq, -⟩ := reduction_facts
  obtain ⟨-, -, -, -, k2, k1⟩ := consts_eq
  have h1 : fl (995.2977583812348) = (8754731667516443 / 8796093022208) :=
    fl_of_rnd _ _ (rnd_near _ _ 9 8754731667516443 (by norm_num))
  have h2 : rnd ((1109740261796479 / 1125899906842624) * (8754731667516443 / 8796093022208)) = some
      (4314539042779063 / 4398046511104) :=
    rnd_near _ _ 9 8629078085558126 (by norm_num)
  have h3 : rnd ((450243084651017 / 549755813888) + (4314539042779063 / 4398046511104)) = some
      (7916483719987199 / 4398046511104) :=
    rnd_dbl _ _ 7916483719987199 (-42) (by norm_num)
  have h4 : rnd ((7916483719987199 / 4398046511104) * INV360) = some 5 := by
    rw [INV360_eq]
    exact rnd_near _ _ 2 5629499534213120 (by norm_num)
  have h5 : ⌊(5 : ℚ)⌋ = 5 := by
    rw [Int.floor_eq_iff]; constructor <;> norm_num
  have h6 : rnd (360 * ((5 : ℤ) : ℚ)) = some 1800 := rnd_dbl _ _ 225 3 (by norm_num)
  have h7 : rnd ((7916483719987199 / 4398046511104) - 1800) = some (-(1 / 4398046511104)) :=
    rnd_dbl _ _ (-1) (-42) (by norm_num)
  have hd : IsDouble (fl 995.2977583812348) := by
    rw [h1]
    exact isDouble_mk _ 8754731667516443 (-43) (by norm_num) (by norm_num) (by norm_num)
      (by norm_num) (by norm_num)
  have hg : GMST0 (fl 995.2977583812348) = some (-(1 / 2 ^ 42)) := by
    unfold GMST0
    rw [k1, k2, h1, h2, Option.some_bind, h3, Option.some_bind]
    unfold revolution
    rw [h4, Option.some_bind, h5, h6, Option.some_bind, h7]
    norm_num
  refine ⟨hd, hg, fun h => ?_⟩
  have := (h _ _ hd (by rw [h1]; exact abs_le.mpr ⟨by norm_num, by norm_num⟩) hg).1
  norm_num at this


/-- C14, amended: for every `d` with `|d| ≤ 2 ^ 1000` (no operation
overflows), in binary64 arithmetic `GMST0 d` differs from `M + w + 180`, where
`M` and `w` are the mean anomaly and the mean longitude of perihelion as
`sunpos` computes them, by a whole number of turns up to rounding:
`|GMST0 d - (M + w + 180 - 360 k)| ≤ |d| / 2 ^ 49 + 2 ^ -40` for some integer
`k`; and `GMST0 d` lies in `[0, 360]` up to rounding,
`-(|d| / 2 ^ 50 + 2 ^ -40) ≤ GMST0 d ≤ 360 + |d| / 2 ^ 50 + 2 ^ -40`.  It can
be negative. -/
theorem C14_GMST0_mean_longitude (d : ℚ) (hd : |d| ≤ 2 ^ (1000 : ℤ)) :
    ∃ g M w : ℚ, ∃ k : ℤ, GMST0 d = some g ∧ sunpos_M d = some M ∧ sunpos_w d = some w ∧
      |g - (M + w + 180 - 360 * k)| ≤ |d| / 2 ^ 49 + 1 / 2 ^ 40 ∧
      -(|d| / 2 ^ 50 + 1 / 2 ^ 40) ≤ g ∧ g ≤ 360 + |d| / 2 ^ 50 + 1 / 2 ^ 40 := by
  obtain ⟨-, -, revolution_spec, -, consts_eq, big_ge, -, linear_steps⟩ := reduction_facts
  obtain ⟨k4, k5, k0, k3, k2, k1⟩ := consts_eq
  have hP := big_ge
  have hd0 := abs_nonneg d
  have hda := le_abs_self d
  have hdb := neg_abs_le d
  obtain ⟨a, s, ea, es, serr, sabs⟩ := linear_steps (450243084651017 / 549755813888)
    (1109740261796479 / 1125899906842624) d (by norm_num) (by norm_num) (by norm_num) (by norm_num) hd
  obtain ⟨g, kg, eg, gerr, gy1, gy2, -⟩ := revolution_spec s (by linarith)
  obtain ⟨a2, s2, ea2, es2, serr2, sabs2⟩ := linear_steps (782955633069523 / 2199023255552)
    (8877497913833729 / 9007199254740992) d (by norm_num) (by norm_num) (by norm_num) (by norm_num) hd
  obtain ⟨M, kM, eM, Merr, -, -, -⟩ := revolution_spec s2 (by linarith)
  obtain ⟨a3, w, ea3, ew, werr, -⟩ := linear_steps (4977540156281481 / 17592186044416)
    (3474886968140963 / 73786976294838206464) d (by norm_num) (by norm_num) (by norm_num) (by norm_num) hd
  obtain ⟨s1, s1b⟩ := abs_le.mp serr
  obtain ⟨s3, s3b⟩ := abs_le.mp sabs
  obtain ⟨g1, g1b⟩ := abs_le.mp gerr
  obtain ⟨s4, s4b⟩ := abs_le.mp serr2
  obtain ⟨s5, s5b⟩ := abs_le.mp sabs2
  obtain ⟨m1, m1b⟩ := abs_le.mp Merr
  obtain ⟨w1, w1b⟩ := abs_le.mp werr
  have hs : |s| ≤ 820 + |d| := abs_le.mpr ⟨by linarith, by linarith⟩
  have hs2 : |s2| ≤ 358 + |d| := abs_le.mpr ⟨by linarith, by linarith⟩
  refine ⟨g, M, w, kg - kM, ?_, ?_, ?_, ?_, ?_, ?_⟩
  · unfold GMST0
    rw [k1, k2, ea, Option.some_bind, es, Option.some_bind, eg]
  · unfold sunpos_M
    rw [k0, k4, ea2, Option.some_bind, es2, Option.some_bind, eM]
  · unfold sunpos_w
    rw [k3, k5, ea3, Option.some_bind, ew]
  · push_cast
    exact abs_le.mpr ⟨by linarith, by linarith⟩
  · linarith
  · linarith


/-- The hypothesis of C14 holds for the epoch `d = 995.5`. -/
theorem C14_GMST0_mean_longitude_witness :
    |(995.5 : ℚ)| ≤ 2 ^ (1000 : ℤ) ∧
    ∃ g M w : ℚ, ∃ k : ℤ, GMST0 995.5 = some g ∧ sunpos_M 995.5 = some M ∧ sunpos_w 995.5 = some w ∧
      |g - (M + w + 180 - 360 * k)| ≤ |(995.5 : ℚ)| / 2 ^ 49 + 1 / 2 ^ 40 ∧
      -(|(995.5 : ℚ)| / 2 ^ 50 + 1 / 2 ^ 40) ≤ g ∧ g ≤ 360 + |(995.5 : ℚ)| / 2 ^ 50 + 1 / 2 ^ 40 := by
  obtain ⟨-, -, -, -, -, -, le_big, -⟩ := reduction_facts
  exact ⟨le_big _ (abs_le.mpr ⟨by norm_num, by norm_num⟩),
      C14_GMST0_mean_longitude 995.5 (le_big _ (abs_le.mpr ⟨by norm_num, by norm_num⟩))⟩


/-- C16, as stated, fails in binary64 arithmetic.  For the `double`
`x = 180 - 2 ^ -45`, `rev180 x = -180 - 2 ^ -45`, outside `[-180, 180)`,
whereas `x + 180` is rounded to `360` and `revolution(x + 180) - 180 = -180`:
the two sides of the identity differ, and the range fails. -/
theorem C16_rev180_counterexample :
    IsDouble (180 - 1 / 2 ^ 45) ∧ rev180 (180 - 1 / 2 ^ 45) = some (-180 - 1 / 2 ^ 45) ∧
    rev180_spec (180 - 1 / 2 ^ 45) = some (-180) ∧
    (¬ ∀ x : ℚ, IsDouble x → rev180 x = rev180_spec x) ∧
    ¬ ∀ x r : ℚ, IsDouble x → rev180 x = some r → -180 ≤ r ∧ r < 180 := by
  obtain ⟨-, -, -, -, -, -, -, -, -, -, -, -, -, -, -, -, -, -, -, -, -, -, -, -, -, -, -, -, -, -,
      -, -, rnd_near, rnd_tie, -, isDouble_mk, rnd_dbl⟩ := rounding_facts
  obtain ⟨INV360_eq, -⟩ := reduction_facts
  have d1 : IsDouble (180 - 1 / 2 ^ 45) :=
    isDouble_mk _ 6333186975989759 (-45) (by norm_num) (by norm_num) (by norm_num) (by norm_num)
      (by norm_num)
  have c1 : rev180 (180 - 1 / 2 ^ 45) = some (-(6333186975989761 / 35184372088832)) := by
    have h1 : rnd ((180 - 1 / 2 ^ 45) * INV360) = some (9007199254740991 / 18014398509481984) := by
      rw [INV360_eq]
      exact rnd_near _ _ (-2) 9007199254740991 (by norm_num)
    have h2 : rnd ((9007199254740991 / 18014398509481984) + 0.5) = some 1 :=
      rnd_tie _ _ (-1) 9007199254740992 (by norm_num)
    have h3 : ⌊(1 : ℚ)⌋ = 1 := by
      rw [Int.floor_eq_iff]; constructor <;> norm_num
    have h4 : rnd (360 * ((1 : ℤ) : ℚ)) = some 360 := rnd_dbl _ _ 45 3 (by norm_num)
    have h5 : rnd ((180 - 1 / 2 ^ 45) - 360) = some (-(6333186975989761 / 35184372088832)) :=
      rnd_dbl _ _ (-6333186975989761) (-45) (by norm_num)
    unfold rev180
    rw [h1, Option.some_bind, h2, Option.some_bind, h3, h4, Option.some_bind, h5]
  have c2 : rev180_spec (180 - 1 / 2 ^ 45) = some (-180) := by
    have h1 : rnd ((180 - 1 / 2 ^ 45) + 180) = some 360 :=
      rnd_tie _ _ 8 6333186975989760 (by norm_num)
    have h2 : rnd (360 * INV360) = some 1 := by
      rw [INV360_eq]
      exact rnd_near _ _ 0 4503599627370496 (by norm_num)
    have h3 : ⌊(1 : ℚ)⌋ = 1 := by
      rw [Int.floor_eq_iff]; constructor <;> norm_num
    have h4 : rnd (360 * ((1 : ℤ) : ℚ)) = some 360 := rnd_dbl _ _ 45 3 (by norm_num)
    have h5 : rnd (360 - 360) = some 0 := rnd_dbl _ _ 0 0 (by norm_num)
    have h6 : rnd (0 - 180) = some (-180) := rnd_dbl _ _ (-45) 2 (by norm_num)
    have hr : revolution 360 = some 0 := by
      unfold revolution
      rw [h2, Option.some_bind, h3, h4, Option.some_bind, h5]
    unfold rev180_spec
    rw [h1, Option.some_bind, hr, Option.some_bind, h6]
  have e : ((-(6333186975989761 / 35184372088832)) : ℚ) = -180 - 1 / 2 ^ 45 := by norm_num
  rw [e] at c1
  refine ⟨d1, c1, c2, fun h => ?_, fun h => ?_⟩
  · have h2 := h _ d1
    rw [c1, c2] at h2
    have h3 := Option.some.inj h2
    norm_num at h3
  · have := (h _ _ d1 c1).1
    norm_num at this


/-- C16, amended: for every `x` with `|x| ≤ 2 ^ 1000` (no operation
overflows), in binary64 arithmetic `rev180 x` and `revolution(x + 180) - 180`
agree up to a whole number of turns and rounding,
`|rev180 x - (v - 360 k)| ≤ |x| / 2 ^ 50 + 2 ^ -41` for some integer `k`, where
`v` is the value of `revolution(x + 180) - 180`; and `rev180 x` is a
representative of `x` modulo 360 in `[-180, 180]`, both up to rounding. -/
theorem C16_rev180_shifted_revolution (x : ℚ) (hx : |x| ≤ 2 ^ (1000 : ℤ)) :
    ∃ r v : ℚ, ∃ k j : ℤ, rev180 x = some r ∧ rev180_spec x = some v ∧
      |r - (v - 360 * k)| ≤ |x| / 2 ^ 50 + 1 / 2 ^ 41 ∧
      |r - (x - 360 * j)| ≤ |x| / 2 ^ 52 + 1 / 2 ^ 43 ∧
      -180 - (|x| / 2 ^ 50 + 1 / 2 ^ 42) ≤ r ∧ r ≤ 180 + |x| / 2 ^ 50 + 1 / 2 ^ 42 := by
  obtain ⟨-, -, -, -, -, -, -, -, -, -, -, -, -, -, -, -, -, -, -, -, -, -, -, -, -, -, -, -, -,
      fl_rel, rnd_of_le, -⟩ := rounding_facts
  obtain ⟨-, -, revolution_spec, rev180_steps, -, big_ge, -⟩ := reduction_facts
  have hP := big_ge
  have hx0 := abs_nonneg x
  have hxa := le_abs_self x
  have hxb := neg_abs_le x
  obtain ⟨r, j, er, rerr, y1, y2, -⟩ := rev180_steps x (by linarith)
  obtain ⟨ra, rb⟩ := abs_le.mp rerr
  have hxa2 : |x + 180| ≤ |x| + 180 := abs_le.mpr ⟨by linarith, by linarith⟩
  have e1 := rnd_of_le (x + 180) (by linarith)
  have r1 := fl_rel (x + 180)
  generalize fl (x + 180) = a at e1 r1
  obtain ⟨r1a, r1b⟩ := abs_le.mp r1
  have ha : |a| ≤ |x| / 2 ^ 52 + |x| + 181 := abs_le.mpr ⟨by linarith, by linarith⟩
  obtain ⟨b, kb, eb, berr, by1, by2, -⟩ := revolution_spec a (by linarith)
  obtain ⟨ba, bb⟩ := abs_le.mp berr
  have hb : |b - 180| ≤ |x| / 2 ^ 50 + 181 := abs_le.mpr ⟨by linarith, by linarith⟩
  have e2 := rnd_of_le (b - 180) (by linarith)
  have r2 := fl_rel (b - 180)
  generalize fl (b - 180) = v at e2 r2
  obtain ⟨r2a, r2b⟩ := abs_le.mp r2
  refine ⟨r, v, j - kb, j, er, ?_, ?_, rerr, by linarith, by linarith⟩
  · unfold rev180_spec
    rw [e1, Option.some_bind, eb, Option.some_bind, e2]
  · push_cast
    exact abs_le.mpr ⟨by linarith, by linarith⟩


/-- The hypothesis of C16 holds for the `double` `180 - 2 ^ -45`. -/
theorem C16_rev180_shifted_revolution_witness :
    |(180 - 1 / 2 ^ 45 : ℚ)| ≤ 2 ^ (1000 : ℤ) ∧
    ∃ r v : ℚ, ∃ k j : ℤ, rev180 (180 - 1 / 2 ^ 45 : ℚ) = some r ∧ rev180_spec (180 - 1 / 2 ^ 45 : ℚ) = some v ∧
      |r - (v - 360 * k)| ≤ |(180 - 1 / 2 ^ 45 : ℚ)| / 2 ^ 50 + 1 / 2 ^ 41 ∧
      |r - ((180 - 1 / 2 ^ 45 : ℚ) - 360 * j)| ≤ |(180 - 1 / 2 ^ 45 : ℚ)| / 2 ^ 52 + 1 / 2 ^ 43 ∧
      -180 - (|(180 - 1 / 2 ^ 45 : ℚ)| / 2 ^ 50 + 1 / 2 ^ 42) ≤ r ∧ r ≤ 180 + |(180 - 1 / 2 ^ 45 : ℚ)| / 2 ^ 50 + 1 / 2 ^ 42 := by
  obtain ⟨-, -, -, -, -, -, le_big, -⟩ := reduction_facts
  exact ⟨le_big _ (abs_le.mpr ⟨by norm_num, by norm_num⟩),
      C16_rev180_shifted_revolution (180 - 1 / 2 ^ 45)
        (le_big _ (abs_le.mpr ⟨by norm_num, by norm_num⟩))⟩


/-- C17, as stated, fails in binary64 arithmetic.  For the `double` nearest to
`0.3`, a duration in `[0, 24]`, the product `60 * 0.3` is rounded to `18`:
`hours_to_s` formats `(0, 18, 0)`, that is 1080 seconds, whereas
`floor (3600 * ut) = 1079`.  For the `double` `-2 ^ -70` the difference
`ut - floor(ut)` is rounded to `1` and the minute is `60`.  For
`ut = 2147483648` the whole hours do not fit the `int` object `h`. -/
theorem C17_hours_to_s_counterexample :
    IsDouble (fl 0.3) ∧ hours_to_s (fl 0.3) = (some 0, some 18, some 0) ∧
    ⌊3600 * fl 0.3⌋ = 1079 ∧
    hours_to_s (-(1 / 2 ^ 70)) = (some (-1), some 60, some 0) ∧
    (hours_to_s 2147483648).1 = none ∧
    ¬ ∀ (ut : ℚ) (h m s : ℤ), IsDouble ut → 0 ≤ ut → ut ≤ 24 →
      hours_to_s ut = (some h, some m, some s) → 3600 * h + 60 * m + s = ⌊3600 * ut⌋ := by
  obtain ⟨-, -, -, -, -, -, -, -, -, -, -, -, -, -, -, -, -, -, -, -, -, -, -, -, -, -, -, -, -, -,
      -, -, rnd_near, -, fl_of_rnd, isDouble_mk, rnd_dbl⟩ := rounding_facts
  obtain ⟨-, -, -, -, -, -, -, -, -, -, to_int_small, to_int_floor, -, -, -,
      to_int_big⟩ := format_facts
  have h03 : fl 0.3 = (5404319552844595 / 18014398509481984) :=
    fl_of_rnd _ _ (rnd_near _ _ (-2) 5404319552844595 (by norm_num))
  have hd : IsDouble (5404319552844595 / 18014398509481984) :=
    isDouble_mk _ 5404319552844595 (-54) (by norm_num) (by norm_num) (by norm_num) (by norm_num)
      (by norm_num)
  have c1 : hours_to_s (5404319552844595 / 18014398509481984) = (some 0, some 18, some 0) := by
    have h1 : ⌊((5404319552844595 / 18014398509481984) : ℚ)⌋ = 0 := by
      rw [Int.floor_eq_iff]; constructor <;> norm_num
    have h2 : to_int (((0 : ℤ) : ℤ) : ℚ) = some 0 := by
      have := to_int_floor (5404319552844595 / 18014398509481984) (by norm_num) (by norm_num)
      rwa [h1] at this
    have h3 : rnd ((5404319552844595 / 18014398509481984) - ((0 : ℤ) : ℚ)) = some
        (5404319552844595 / 18014398509481984) :=
      rnd_dbl _ _ 5404319552844595 (-54) (by norm_num)
    have h4 : rnd (60 * (5404319552844595 / 18014398509481984)) = some 18 :=
      rnd_near _ _ 4 5066549580791808 (by norm_num)
    have h5 : to_int (18 : ℚ) = some 18 := by
      rw [to_int_small _ (by norm_num) (by norm_num)]
      exact congrArg some (by rw [Int.floor_eq_iff]; constructor <;> norm_num)
    have h6 : rnd (18 - ((18 : ℤ) : ℚ)) = some 0 := rnd_dbl _ _ 0 0 (by norm_num)
    have h7 : rnd (60 * 0) = some 0 := rnd_dbl _ _ 0 0 (by norm_num)
    have h8 : to_int (0 : ℚ) = some 0 := by
      rw [to_int_small _ (by norm_num) (by norm_num)]
      exact congrArg some (by rw [Int.floor_eq_iff]; constructor <;> norm_num)
    unfold hours_to_s
    simp only [h1, h2, h3, h4, h5, h6, h7, h8, Option.some_bind]
  have c2 : ⌊3600 * ((5404319552844595 / 18014398509481984) : ℚ)⌋ = 1079 := by
    rw [Int.floor_eq_iff]; constructor <;> norm_num
  have c3 : hours_to_s (-(1 / 2 ^ 70)) = (some (-1), some 60, some 0) := by
    have h1 : ⌊((-(1 / 2 ^ 70)) : ℚ)⌋ = (-1) := by
      rw [Int.floor_eq_iff]; constructor <;> norm_num
    have h2 : to_int ((((-1) : ℤ) : ℤ) : ℚ) = some (-1) := by
      have := to_int_floor (-(1 / 2 ^ 70)) (by norm_num) (by norm_num)
      rwa [h1] at this
    have h3 : rnd ((-(1 / 2 ^ 70)) - (((-1) : ℤ) : ℚ)) = some 1 :=
      rnd_near _ _ (-1) 9007199254740992 (by norm_num)
    have h4 : rnd (60 * 1) = some 60 := rnd_dbl _ _ 15 2 (by norm_num)
    have h5 : to_int (60 : ℚ) = some 60 := by
      rw [to_int_small _ (by norm_num) (by norm_num)]
      exact congrArg some (by rw [Int.floor_eq_iff]; constructor <;> norm_num)
    have h6 : rnd (60 - ((60 : ℤ) : ℚ)) = some 0 := rnd_dbl _ _ 0 0 (by norm_num)
    have h7 : rnd (60 * 0) = some 0 := rnd_dbl _ _ 0 0 (by norm_num)
    have h8 : to_int (0 : ℚ) = some 0 := by
      rw [to_int_small _ (by norm_num) (by norm_num)]
      exact congrArg some (by rw [Int.floor_eq_iff]; constructor <;> norm_num)
    unfold hours_to_s
    simp only [h1, h2, h3, h4, h5, h6, h7, h8, Option.some_bind]
  rw [h03]
  refine ⟨hd, c1, c2, c3, to_int_big, fun h => ?_⟩
  have := h _ _ _ _ hd (by norm_num) (by norm_num) c1
  rw [c2] at this
  norm_num at this


/-- C17, amended: for every `double` `ut` with `-2147483648 ≤ ut < 2147483648`
that is not in `[-2 ^ -54, 0)` (in particular every duration in `[0, 24]`),
the integers `h`, `m`, `s` that `hours_to_s` formats in binary64 arithmetic
satisfy `h = floor ut`, `0 ≤ m ≤ 59`, `0 ≤ s ≤ 59`, and
`3600 h + 60 m + s = floor (3600 ut + ε)` for some `|ε| ≤ 2 ^ -41`: the total
is the number of whole seconds of `ut` up to a rounding error, so that it
differs from `floor (3600 ut)` by at most one second. -/
theorem C17_hours_to_s_split (ut : ℚ) (hd : IsDouble ut)
    (h1 : -2147483648 ≤ ut) (h2 : ut < 2147483648) (hz : ut < -(1 / 2 ^ 54) ∨ 0 ≤ ut) :
    ∃ h m s : ℤ, hours_to_s ut = (some h, some m, some s) ∧ h = ⌊ut⌋ ∧
      0 ≤ m ∧ m ≤ 59 ∧ 0 ≤ s ∧ s ≤ 59 ∧
      (∃ ε : ℚ, |ε| ≤ 1 / 2 ^ 41 ∧ 3600 * h + 60 * m + s = ⌊3600 * ut + ε⌋) ∧
      |3600 * h + 60 * m + s - ⌊3600 * ut⌋| ≤ 1 := by
  obtain ⟨-, -, -, -, -, -, -, -, fract_steps, sixty_steps, to_int_small, to_int_floor,
      floor_perturb, -⟩ := format_facts
  obtain ⟨f, ef, f0, f1, -, ferr, -, fle, -⟩ := fract_steps ut
  have fle2 := fle hd hz
  obtain ⟨p, ep, p0, p1, pd, perr, ple, -, -⟩ := sixty_steps f f0 f1
  have ple2 := ple fle2
  have em := to_int_small p p0 p1
  have m0 : 0 ≤ ⌊p⌋ := Int.floor_nonneg.mpr p0
  have h47 : (0 : ℚ) < 1 / 2 ^ 47 := by positivity
  have m1 : ⌊p⌋ ≤ 59 := by
    have : ⌊p⌋ < 60 := Int.floor_lt.mpr (by push_cast; linarith)
    omega
  obtain ⟨q, eq, q0, q1, -, qerr, -, qle, -⟩ := fract_steps p
  have qle2 := qle pd (Or.inr p0)
  obtain ⟨v, ev, v0, v1, -, verr, vle, -, -⟩ := sixty_steps q q0 q1
  have vle2 := vle qle2
  have es := to_int_small v v0 v1
  have s0 : 0 ≤ ⌊v⌋ := Int.floor_nonneg.mpr v0
  have s1 : ⌊v⌋ ≤ 59 := by
    have : ⌊v⌋ < 60 := Int.floor_lt.mpr (by push_cast; linarith)
    omega
  obtain ⟨fa, fb⟩ := abs_le.mp ferr
  obtain ⟨pa, pb⟩ := abs_le.mp perr
  obtain ⟨qa, qb⟩ := abs_le.mp qerr
  obtain ⟨va, vb⟩ := abs_le.mp verr
  have hε : |(3600 * (⌊ut⌋ : ℚ) + 60 * (⌊p⌋ : ℚ) + v) - 3600 * ut| ≤ 1 / 2 ^ 41 :=
    abs_le.mpr ⟨by linarith, by linarith⟩
  have hfl : 3600 * ⌊ut⌋ + 60 * ⌊p⌋ + ⌊v⌋
      = ⌊3600 * ut + ((3600 * (⌊ut⌋ : ℚ) + 60 * (⌊p⌋ : ℚ) + v) - 3600 * ut)⌋ := by
    have : 3600 * ut + ((3600 * (⌊ut⌋ : ℚ) + 60 * (⌊p⌋ : ℚ) + v) - 3600 * ut)
        = v + ((3600 * ⌊ut⌋ + 60 * ⌊p⌋ : ℤ) : ℚ) := by push_cast; ring
    rw [this, Int.floor_add_int]
    ring
  refine ⟨⌊ut⌋, ⌊p⌋, ⌊v⌋, ?_, rfl, m0, m1, s0, s1, ⟨_, hε, hfl⟩, ?_⟩
  · unfold hours_to_s
    simp only [to_int_floor ut h1 h2, ef, Option.some_bind, ep, em, eq, ev, es]
  · rw [hfl]
    exact floor_perturb _ _ (le_trans hε (by norm_num))


/-- The hypotheses of C17 hold for the duration 12.75 hours. -/
theorem C17_hours_to_s_split_witness :
    IsDouble 12.75 ∧ (-2147483648 : ℚ) ≤ 12.75 ∧ (12.75 : ℚ) < 2147483648 ∧
    ((12.75 : ℚ) < -(1 / 2 ^ 54) ∨ (0 : ℚ) ≤ 12.75) ∧
    ∃ h m s : ℤ, hours_to_s 12.75 = (some h, some m, some s) ∧ h = ⌊(12.75 : ℚ)⌋ ∧
      0 ≤ m ∧ m ≤ 59 ∧ 0 ≤ s ∧ s ≤ 59 ∧
      (∃ ε : ℚ, |ε| ≤ 1 / 2 ^ 41 ∧ 3600 * h + 60 * m + s = ⌊3600 * (12.75 : ℚ) + ε⌋) ∧
      |3600 * h + 60 * m + s - ⌊3600 * (12.75 : ℚ)⌋| ≤ 1 := by
  obtain ⟨-, -, -, -, -, -, -, -, -, -, -, -, -, -, -, -, -, -, -, -, -, -, -, -, -, -, -, -, -, -,
      -, -, -, -, -, isDouble_mk, -⟩ := rounding_facts
  exact ⟨isDouble_mk _ 51 (-2) (by norm_num) (by norm_num) (by norm_num) (by norm_num) (by norm_num),
      by norm_num, by norm_num, Or.inr (by norm_num),
      C17_hours_to_s_split 12.75
        (isDouble_mk _ 51 (-2) (by norm_num) (by norm_num) (by norm_num) (by norm_num)
          (by norm_num))
        (by norm_num) (by norm_num) (Or.inr (by norm_num))⟩


/-- C18, as stated, fails in binary64 arithmetic.  For the `double` nearest to
`0.3` and the offset 0, the product `60 * 0.3` is rounded to `18`: `convert`
stores `(0, 18)`, whereas `floor (60 * ut) = 17`.  For `ut = 2147483648` the
whole hours do not fit the `int` object `*h`. -/
theorem C18_convert_counterexample :
    IsDouble (fl 0.3) ∧ convert 0 (fl 0.3) = (some 0, some 18) ∧ ⌊60 * fl 0.3⌋ = 17 ∧
    (convert 0 2147483648).1 = none ∧
    ¬ ∀ (ut : ℚ) (h m : ℤ), IsDouble ut → convert 0 ut = (some h, some m) →
      60 * h + m = ⌊60 * ut⌋ + 0 / 60 := by
  obtain ⟨-, -, -, -, -, -, -, -, -, -, -, -, -, -, -, -, -, -, -, -, -, -, -, -, -, -, -, -, -, -,
      -, -, rnd_near, -, fl_of_rnd, isDouble_mk, rnd_dbl⟩ := rounding_facts
  obtain ⟨-, -, -, -, -, -, -, -, -, -, to_int_small, to_int_floor, -, -, -,
      to_int_big⟩ := format_facts
  have h03 : fl 0.3 = (5404319552844595 / 18014398509481984) :=
    fl_of_rnd _ _ (rnd_near _ _ (-2) 5404319552844595 (by norm_num))
  have hd : IsDouble (5404319552844595 / 18014398509481984) :=
    isDouble_mk _ 5404319552844595 (-54) (by norm_num) (by norm_num) (by norm_num) (by norm_num)
      (by norm_num)
  have c1 : convert 0 (5404319552844595 / 18014398509481984) = (some 0, some 18) := by
    have h1 : ⌊((5404319552844595 / 18014398509481984) : ℚ)⌋ = 0 := by
      rw [Int.floor_eq_iff]; constructor <;> norm_num
    have h2 : to_int (((0 : ℤ) : ℤ) : ℚ) = some 0 := by
      have := to_int_floor (5404319552844595 / 18014398509481984) (by norm_num) (by norm_num)
      rwa [h1] at this
    have h3 : rnd ((5404319552844595 / 18014398509481984) - ((0 : ℤ) : ℚ)) = some
        (5404319552844595 / 18014398509481984) :=
      rnd_dbl _ _ 5404319552844595 (-54) (by norm_num)
    have h4 : rnd (60 * (5404319552844595 / 18014398509481984)) = some 18 :=
      rnd_near _ _ 4 5066549580791808 (by norm_num)
    have h5 : to_int (18 : ℚ) = some 18 := by
      rw [to_int_small _ (by norm_num) (by norm_num)]
      exact congrArg some (by rw [Int.floor_eq_iff]; constructor <;> norm_num)
    unfold convert timediff
    simp only [h1, h2, h3, h4, h5, Option.some_bind]
    rfl
  have c2 : ⌊60 * ((5404319552844595 / 18014398509481984) : ℚ)⌋ = 17 := by
    rw [Int.floor_eq_iff]; constructor <;> norm_num
  have c3 : (convert 0 2147483648).1 = none := by
    have h : to_int ((⌊(2147483648 : ℚ)⌋ : ℤ) : ℚ) = none := to_int_big
    unfold convert
    simp only [h, Option.none_bind]
  rw [h03]
  refine ⟨hd, c1, c2, c3, fun h => ?_⟩
  have := h _ _ _ hd c1
  rw [c2] at this
  norm_num at this


/-- C18, amended: for every `ut` with `-2147483648 ≤ ut < 2147483648` and every
offset `tz` (seconds) that is a whole number of minutes, positive or negative,
such that the shifted hour `floor ut + tz / 3600` (truncating division) fits
an `int`, the outputs of `convert` in binary64 arithmetic satisfy
`60 * *h + *m = floor (60 ut + ε) + tz / 60` for some `|ε| ≤ 2 ^ -47`: the
total is that of the claim up to a rounding error, so that it differs from
`floor (60 ut) + tz / 60` by at most one minute; for a `double` `ut` that is
not in `(-1/2, 0)` it is never less. -/
theorem C18_convert_total_minutes (ut : ℚ) (tz : ℤ) (hz : 60 ∣ tz)
    (h1 : -2147483648 ≤ ut) (h2 : ut < 2147483648)
    (h3 : INT_MIN ≤ ⌊ut⌋ + Int.tdiv tz 3600) (h4 : ⌊ut⌋ + Int.tdiv tz 3600 ≤ INT_MAX) :
    ∃ h m : ℤ, convert tz ut = (some h, some m) ∧
      (∃ ε : ℚ, |ε| ≤ 1 / 2 ^ 47 ∧ 60 * h + m = ⌊60 * ut + ε⌋ + tz / 60) ∧
      |60 * h + m - (⌊60 * ut⌋ + tz / 60)| ≤ 1 ∧
      (IsDouble ut → (0 ≤ ut ∨ ut ≤ -1 / 2) → ⌊60 * ut⌋ + tz / 60 ≤ 60 * h + m) := by
  obtain ⟨tmod_tdiv_minutes, -⟩ := tdiv_facts
  obtain ⟨-, -, -, -, -, -, -, -, fract_steps, sixty_steps, -, -, floor_perturb, convert_minute,
      convert_hour, -⟩ := format_facts
  have hh := convert_hour tz ut h1 h2 h3 h4
  obtain ⟨f, p, ef, ep, hm⟩ := convert_minute tz ut
  obtain ⟨f', ef', f0, f1, -, ferr, fex, -, -⟩ := fract_steps ut
  obtain rfl : f' = f := Option.some.inj (ef'.symm.trans ef)
  obtain ⟨p', ep', p0, p1, -, perr, -, -, pfl⟩ := sixty_steps f' f0 f1
  obtain rfl : p' = p := Option.some.inj (ep'.symm.trans ep)
  obtain ⟨fa, fb⟩ := abs_le.mp ferr
  obtain ⟨pa, pb⟩ := abs_le.mp perr
  have e1 := tmod_tdiv_minutes tz hz
  have hdiv : tz / 60 = 60 * Int.tdiv tz 3600 + Int.tdiv (Int.tmod tz 3600) 60 := by
    obtain ⟨k, hk⟩ := hz
    rw [hk, Int.mul_ediv_cancel_left k (by norm_num : (60 : ℤ) ≠ 0)]
    rw [hk] at e1
    omega
  have hε : |(60 * (⌊ut⌋ : ℚ) + p') - 60 * ut| ≤ 1 / 2 ^ 47 :=
    abs_le.mpr ⟨by linarith, by linarith⟩
  have hfl : 60 * ⌊ut⌋ + ⌊p'⌋ = ⌊60 * ut + ((60 * (⌊ut⌋ : ℚ) + p') - 60 * ut)⌋ := by
    have : 60 * ut + ((60 * (⌊ut⌋ : ℚ) + p') - 60 * ut) = p' + ((60 * ⌊ut⌋ : ℤ) : ℚ) := by
      push_cast; ring
    rw [this, Int.floor_add_int]
    ring
  have hp := floor_perturb (60 * ut) _ (le_trans hε (by norm_num))
  rw [← hfl] at hp
  obtain ⟨hp1, hp2⟩ := abs_le.mp hp
  refine ⟨_, _, Prod.ext hh hm, ⟨_, hε, ?_⟩, ?_, ?_⟩
  · rw [← hfl, hdiv]; ring
  · rw [hdiv, abs_le]
    constructor <;> omega
  · intro hd hx
    have hf := fex hd hx
    rw [hdiv]
    have k1 : ((⌊60 * ut⌋ : ℤ) : ℚ) ≤ 60 * (⌊ut⌋ : ℚ) + p' := by
      have a1 : ⌊60 * ut⌋ = ⌊60 * f'⌋ + 60 * ⌊ut⌋ := by
        have : 60 * ut = 60 * f' + ((60 * ⌊ut⌋ : ℤ) : ℚ) := by rw [hf]; push_cast; ring
        rw [this, Int.floor_add_int]
      rw [a1]
      push_cast
      linarith
    have k2 : ⌊60 * ut⌋ ≤ 60 * ⌊ut⌋ + ⌊p'⌋ := by
      have : ((⌊60 * ut⌋ : ℤ) : ℚ) ≤ p' + ((60 * ⌊ut⌋ : ℤ) : ℚ) := by push_cast; linarith
      have := Int.le_floor.mpr this
      rw [Int.floor_add_int] at this
      omega
    omega


/-- The hypotheses of C18 hold for a sunrise at 9.75 h UT and the offset of
-4 hours of New York City in summer. -/
theorem C18_convert_total_minutes_witness :
    (60 : ℤ) ∣ -14400 ∧ (-2147483648 : ℚ) ≤ 9.75 ∧ (9.75 : ℚ) < 2147483648 ∧
    INT_MIN ≤ ⌊(9.75 : ℚ)⌋ + Int.tdiv (-14400) 3600 ∧
    ⌊(9.75 : ℚ)⌋ + Int.tdiv (-14400) 3600 ≤ INT_MAX ∧
    ∃ h m : ℤ, convert (-14400) (9.75 : ℚ) = (some h, some m) ∧
      (∃ ε : ℚ, |ε| ≤ 1 / 2 ^ 47 ∧ 60 * h + m = ⌊60 * (9.75 : ℚ) + ε⌋ + (-14400) / 60) ∧
      |60 * h + m - (⌊60 * (9.75 : ℚ)⌋ + (-14400) / 60)| ≤ 1 ∧
      (IsDouble (9.75 : ℚ) → (0 ≤ (9.75 : ℚ) ∨ (9.75 : ℚ) ≤ -1 / 2) → ⌊60 * (9.75 : ℚ)⌋ + (-14400) / 60 ≤ 60 * h + m) := by
  have hf : ⌊(9.75 : ℚ)⌋ = 9 := by
    rw [Int.floor_eq_iff]; constructor <;> norm_num
  have hz : (60 : ℤ) ∣ -14400 := by decide
  have h3 : INT_MIN ≤ ⌊(9.75 : ℚ)⌋ + Int.tdiv (-14400) 3600 := by
    rw [hf]; decide
  have h4 : ⌊(9.75 : ℚ)⌋ + Int.tdiv (-14400) 3600 ≤ INT_MAX := by
    rw [hf]; decide
  exact ⟨hz, by norm_num, by norm_num, h3, h4,
    C18_convert_total_minutes 9.75 (-14400) hz (by norm_num) (by norm_num) h3 h4⟩


end B64
end Sunstat
